import Mathlib

/-!
# The media-record decoders of `instagram/media.go`

A shallow embedding of the three decoders `getFromMediaPage`,
`getFromAccountMediaList` and `getFromSearchMediaList`, together with the part
of the Go run-time library they lean on:

* `encoding/json.Unmarshal` : a scanner for the JSON grammar (`Json.parse`)
  followed by the binding of the parsed value to the anonymous struct each
  decoder declares (`MediaPageJSON.unmarshal` and its two siblings);
* `strconv.ParseUint`, `strconv.ParseInt`, `strconv.ParseFloat`;
* the integer conversions `uint64(int)`, `uint32(int)`, `uint32(float64)`,
  `uint64(float64)`.

Conventions.  A Go `string` produced by the JSON decoder is always valid UTF-8,
so it is a Lean `String`.  Go `int` is the 64-bit `int` of amd64/arm64.  A Go
function either returns or panics (`GoResult`).  The result of converting a
`float64` that no `uint32` or `uint64` can hold is left to the implementation by
the language, and is a parameter here (`FloatConv`).

The scanner refuses a text that nests arrays and objects deeper than 10000
(`maxNestingDepth`, Go 1.15 and later).  Two points are narrower than the
library.  `strconv.ParseFloat` is followed for literals of at most 800 digits,
which it rounds to the nearest `float64`; of a longer literal it keeps the first
800 digits only, and `parseFloat` here rounds the whole literal.  An array is
bound to a slice element by element into fresh zero elements; the library
binds the items of a second occurrence of the same member into the elements
the first one left, which shows only in a payload that names a member twice.
-/

set_option maxRecDepth 1000000

namespace Instagram

/-! ## JSON values and the scanner of `encoding/json` -/

/-- A parsed JSON document.  A number keeps the text of its literal, as the Go
decoder does until it knows the type of the destination; an object keeps its
members in document order, repeated names included. -/
inductive Json where
  | null
  | bool (b : Bool)
  | num (lit : String)
  | str (s : String)
  | arr (items : List Json)
  | obj (members : List (String × Json))

/-- The UTF-8 bytes of a text: the `[]byte(s)` of Go. -/
def bytesOf (s : String) : List UInt8 := s.data.flatMap String.utf8EncodeChar

/-- The value of one hexadecimal digit. -/
def hexVal (b : UInt8) : Option Nat :=
  if 0x30 ≤ b ∧ b ≤ 0x39 then some (b.toNat - 0x30)
  else if 0x61 ≤ b ∧ b ≤ 0x66 then some (b.toNat - 0x61 + 10)
  else if 0x41 ≤ b ∧ b ≤ 0x46 then some (b.toNat - 0x41 + 10)
  else none

/-- Go `getu4` once the four digits are at hand: the code unit of a `\uXXXX` escape. -/
def u4 (h1 h2 h3 h4 : UInt8) : Option Nat :=
  match hexVal h1, hexVal h2, hexVal h3, hexVal h4 with
  | some a, some b, some c, some d => some (((a * 16 + b) * 16 + c) * 16 + d)
  | _, _, _, _ => none

/-- The replacement character U+FFFD (`unicode.ReplacementChar`, `utf8.RuneError`). -/
def runeError : Char := Char.ofNat 0xFFFD

/-- A continuation byte of UTF-8. -/
def isCont (b : UInt8) : Bool := 0x80 ≤ b && b ≤ 0xBF

/-- Go `utf8.DecodeRune` at a byte `c ≥ 0x80` followed by `rest`: the rune and the
number of bytes it takes; an ill-formed sequence gives `(U+FFFD, 1)`. -/
def decodeRune (c : UInt8) (rest : List UInt8) : Char × Nat :=
  let lo2 : UInt8 := if c = 0xE0 then 0xA0 else if c = 0xF0 then 0x90 else 0x80
  let hi2 : UInt8 := if c = 0xED then 0x9F else if c = 0xF4 then 0x8F else 0xBF
  if 0xC2 ≤ c ∧ c ≤ 0xDF then
    match rest with
    | b1 :: _ =>
      if isCont b1 then (Char.ofNat ((c.toNat - 0xC0) * 64 + (b1.toNat - 0x80)), 2)
      else (runeError, 1)
    | _ => (runeError, 1)
  else if 0xE0 ≤ c ∧ c ≤ 0xEF then
    match rest with
    | b1 :: b2 :: _ =>
      if lo2 ≤ b1 ∧ b1 ≤ hi2 ∧ isCont b2 then
        (Char.ofNat (((c.toNat - 0xE0) * 64 + (b1.toNat - 0x80)) * 64 + (b2.toNat - 0x80)), 3)
      else (runeError, 1)
    | _ => (runeError, 1)
  else if 0xF0 ≤ c ∧ c ≤ 0xF4 then
    match rest with
    | b1 :: b2 :: b3 :: _ =>
      if lo2 ≤ b1 ∧ b1 ≤ hi2 ∧ isCont b2 ∧ isCont b3 then
        (Char.ofNat ((((c.toNat - 0xF0) * 64 + (b1.toNat - 0x80)) * 64
          + (b2.toNat - 0x80)) * 64 + (b3.toNat - 0x80)), 4)
      else (runeError, 1)
    | _ => (runeError, 1)
  else (runeError, 1)

/-- The character a one-letter escape stands for (Go `unquoteBytes`). -/
def escapeChar (e : UInt8) : Char :=
  if e = 0x62 then Char.ofNat 8          -- \b
  else if e = 0x66 then Char.ofNat 12    -- \f
  else if e = 0x6e then Char.ofNat 10    -- \n
  else if e = 0x72 then Char.ofNat 13    -- \r
  else if e = 0x74 then Char.ofNat 9     -- \t
  else Char.ofNat e.toNat                -- \" \\ \/

/-- One step of Go `unquoteBytes` at byte `c` followed by `rest`: the rune written
and the number of bytes of `rest` the step consumes with it.  An escape is
resolved, a surrogate pair becomes one rune, a lone surrogate and every
ill-formed UTF-8 byte become U+FFFD. -/
def unquoteStep (c : UInt8) (rest : List UInt8) : Char × Nat :=
  if c = 0x5c then
    match rest with
    | [] => (runeError, 0)
    | e :: rest1 =>
      if e = 0x75 then
        match rest1 with
        | h1 :: h2 :: h3 :: h4 :: rest2 =>
          match u4 h1 h2 h3 h4 with
          | none => (runeError, 5)
          | some rr =>
            if 0xD800 ≤ rr ∧ rr < 0xE000 then
              match rest2 with
              | a :: b :: l1 :: l2 :: l3 :: l4 :: _ =>
                match u4 l1 l2 l3 l4 with
                | some rr1 =>
                  if a = 0x5c ∧ b = 0x75 ∧ rr < 0xDC00 ∧ 0xDC00 ≤ rr1 ∧ rr1 < 0xE000 then
                    (Char.ofNat ((rr - 0xD800) * 1024 + (rr1 - 0xDC00) + 0x10000), 11)
                  else (runeError, 5)
                | none => (runeError, 5)
              | _ => (runeError, 5)
            else (Char.ofNat rr, 5)
        | _ => (runeError, 1)
      else (escapeChar e, 1)
  else if c < 0x80 then (Char.ofNat c.toNat, 0)
  else
    let r := decodeRune c rest
    (r.1, r.2 - 1)

/-- The loop of Go `unquoteBytes`; `skip` counts the bytes the previous step has
already consumed. -/
def unquoteLoop : Nat → List UInt8 → List Char
  | _, [] => []
  | skip + 1, _ :: rest => unquoteLoop skip rest
  | 0, c :: rest => (unquoteStep c rest).1 :: unquoteLoop (unquoteStep c rest).2 rest

/-- Go `unquote` on the bytes between the quotes of a string literal the scanner
has accepted. -/
def unquote (raw : List UInt8) : String := String.mk (unquoteLoop 0 raw)

/-- The tokens of the JSON grammar. -/
inductive Token where
  | beginObject
  | endObject
  | beginArray
  | endArray
  | colon
  | comma
  | str (s : String)
  | num (lit : String)
  | bool (b : Bool)
  | null

/-- Where the scanner stands inside a number literal (Go `stateNeg`, `state0`,
`state1`, `stateDot`, `stateDot0`, `stateE`, `stateESign`, `stateE0`). -/
inductive NumState where
  | neg
  | zero
  | int
  | dot
  | frac
  | e
  | eSign
  | exp
  deriving DecidableEq

/-- Where the scanner stands inside a string literal (Go `stateInString`,
`stateInStringEsc`, and `stateInStringEscU` with the hexadecimal digits still due). -/
inductive StrState where
  | plain
  | esc
  | hex (due : Nat)

/-- The scanner between and inside tokens.  The bytes gathered so far are kept
in reverse. -/
inductive LexState where
  | start
  | inString (st : StrState) (raw : List UInt8)
  | inNumber (st : NumState) (lit : List UInt8)
  | inLiteral (due : List UInt8) (tok : Token)

/-- A decimal digit byte. -/
def isDigit (b : UInt8) : Bool := 0x30 ≤ b && b ≤ 0x39

/-- The scanner inside a number: the next state, or `none` when byte `b` cannot
continue the literal. -/
def numStep (st : NumState) (b : UInt8) : Option NumState :=
  match st with
  | .neg => if b = 0x30 then some .zero else if isDigit b then some .int else none
  | .zero => if b = 0x2e then some .dot else if b = 0x65 ∨ b = 0x45 then some .e else none
  | .int =>
    if isDigit b then some .int
    else if b = 0x2e then some .dot else if b = 0x65 ∨ b = 0x45 then some .e else none
  | .dot => if isDigit b then some .frac else none
  | .frac => if isDigit b then some .frac else if b = 0x65 ∨ b = 0x45 then some .e else none
  | .e => if b = 0x2b ∨ b = 0x2d then some .eSign else if isDigit b then some .exp else none
  | .eSign => if isDigit b then some .exp else none
  | .exp => if isDigit b then some .exp else none

/-- The states in which a number literal may end. -/
def NumState.accepting : NumState → Bool
  | .zero | .int | .frac | .exp => true
  | _ => false

/-- The text of a literal gathered in reverse; its bytes are ASCII. -/
def asciiText (rev : List UInt8) : String :=
  String.mk (rev.reverse.map (fun b => Char.ofNat b.toNat))

/-- The scanner at the first byte of a token (Go `stateBeginValue` and the
punctuation of `stateEndValue`); blanks are skipped. -/
def lexStart (b : UInt8) (toks : List Token) : Option (LexState × List Token) :=
  if b = 0x20 ∨ b = 0x09 ∨ b = 0x0d ∨ b = 0x0a then some (.start, toks)
  else if b = 0x7b then some (.start, .beginObject :: toks)
  else if b = 0x7d then some (.start, .endObject :: toks)
  else if b = 0x5b then some (.start, .beginArray :: toks)
  else if b = 0x5d then some (.start, .endArray :: toks)
  else if b = 0x3a then some (.start, .colon :: toks)
  else if b = 0x2c then some (.start, .comma :: toks)
  else if b = 0x22 then some (.inString .plain [], toks)
  else if b = 0x2d then some (.inNumber .neg [b], toks)
  else if b = 0x30 then some (.inNumber .zero [b], toks)
  else if isDigit b then some (.inNumber .int [b], toks)
  else if b = 0x74 then some (.inLiteral [0x72, 0x75, 0x65] (.bool true), toks)
  else if b = 0x66 then some (.inLiteral [0x61, 0x6c, 0x73, 0x65] (.bool false), toks)
  else if b = 0x6e then some (.inLiteral [0x75, 0x6c, 0x6c] .null, toks)
  else none

/-- One byte through the scanner; the tokens found so far are kept in reverse. -/
def lexStep (s : LexState × List Token) (b : UInt8) : Option (LexState × List Token) :=
  match s with
  | (.start, toks) => lexStart b toks
  | (.inString .plain raw, toks) =>
    if b = 0x22 then some (.start, .str (unquote raw.reverse) :: toks)
    else if b = 0x5c then some (.inString .esc (b :: raw), toks)
    else if b < 0x20 then none
    else some (.inString .plain (b :: raw), toks)
  | (.inString .esc raw, toks) =>
    if b = 0x62 ∨ b = 0x66 ∨ b = 0x6e ∨ b = 0x72 ∨ b = 0x74 ∨ b = 0x5c ∨ b = 0x2f ∨ b = 0x22 then
      some (.inString .plain (b :: raw), toks)
    else if b = 0x75 then some (.inString (.hex 4) (b :: raw), toks)
    else none
  | (.inString (.hex due) raw, toks) =>
    if (hexVal b).isSome then
      some (.inString (if due ≤ 1 then .plain else .hex (due - 1)) (b :: raw), toks)
    else none
  | (.inNumber st lit, toks) =>
    match numStep st b with
    | some st1 => some (.inNumber st1 (b :: lit), toks)
    | none => if st.accepting then lexStart b (.num (asciiText lit) :: toks) else none
  | (.inLiteral due tok, toks) =>
    match due with
    | [] => none
    | c :: rest =>
      if b = c then
        (if rest.isEmpty then some (.start, tok :: toks) else some (.inLiteral rest tok, toks))
      else none

/-- The tokens of a byte buffer, or `none` when some byte cannot be scanned or
the buffer ends inside a token. -/
def lex (data : List UInt8) : Option (List Token) :=
  match data.foldlM lexStep (LexState.start, []) with
  | some (.start, toks) => some toks.reverse
  | some (.inNumber st lit, toks) =>
    if st.accepting then some (Token.num (asciiText lit) :: toks).reverse else none
  | _ => none

/-- An open array or object on the parse stack (Go `parseArrayValue`,
`parseObjectKey`, `parseObjectValue`), with what it holds so far, in reverse. -/
inductive Frame where
  | array (items : List Json)
  | object (members : List (String × Json)) (key : Option String)

/-- What the grammar allows next (Go `stateBeginValue`, `stateBeginValueOrEmpty`,
`stateBeginStringOrEmpty`, `stateBeginString`, `stateEndValue` after a key and
after a value, `stateEndTop`). -/
inductive Expect where
  | value
  | valueOrEnd
  | keyOrEnd
  | key
  | colon
  | commaOrEnd
  | done

/-- The parser over tokens: the open containers, what may come next, and the
top-level value once it is complete. -/
structure ParseState where
  stack : List Frame
  expect : Expect
  result : Option Json

/-- A value is complete: it becomes the top-level value, the next item of the open
array, or the value of the pending key of the open object. -/
def ParseState.complete (stack : List Frame) (v : Json) : Option ParseState :=
  match stack with
  | [] => some ⟨[], .done, some v⟩
  | .array items :: rest => some ⟨.array (v :: items) :: rest, .commaOrEnd, none⟩
  | .object members (some k) :: rest =>
    some ⟨.object ((k, v) :: members) none :: rest, .commaOrEnd, none⟩
  | .object _ none :: _ => none

/-- Go `maxNestingDepth`: the scanner refuses a text that opens more arrays and
objects inside one another. -/
def maxNestingDepth : Nat := 10000

/-- A token where a value may start.  An array or object is opened (Go
`pushParseState`) only while the stack, the new container counted, stays within
`maxNestingDepth`. -/
def ParseState.beginValue (stack : List Frame) (t : Token) : Option ParseState :=
  match t with
  | .str s => ParseState.complete stack (.str s)
  | .num lit => ParseState.complete stack (.num lit)
  | .bool b => ParseState.complete stack (.bool b)
  | .null => ParseState.complete stack .null
  | .beginObject =>
    if stack.length + 1 ≤ maxNestingDepth then some ⟨.object [] none :: stack, .keyOrEnd, none⟩
    else none
  | .beginArray =>
    if stack.length + 1 ≤ maxNestingDepth then some ⟨.array [] :: stack, .valueOrEnd, none⟩
    else none
  | _ => none

/-- One token through the parser. -/
def parseStep (p : ParseState) (t : Token) : Option ParseState :=
  match p.expect, t, p.stack with
  | .value, t, stack => ParseState.beginValue stack t
  | .valueOrEnd, .endArray, .array items :: rest => ParseState.complete rest (.arr items.reverse)
  | .valueOrEnd, t, stack => ParseState.beginValue stack t
  | .keyOrEnd, .endObject, .object members none :: rest =>
    ParseState.complete rest (.obj members.reverse)
  | .keyOrEnd, .str k, .object members none :: rest =>
    some ⟨.object members (some k) :: rest, .colon, none⟩
  | .key, .str k, .object members none :: rest =>
    some ⟨.object members (some k) :: rest, .colon, none⟩
  | .colon, .colon, stack => some ⟨stack, .value, none⟩
  | .commaOrEnd, .comma, .array items :: rest => some ⟨.array items :: rest, .value, none⟩
  | .commaOrEnd, .comma, .object members none :: rest =>
    some ⟨.object members none :: rest, .key, none⟩
  | .commaOrEnd, .endArray, .array items :: rest => ParseState.complete rest (.arr items.reverse)
  | .commaOrEnd, .endObject, .object members none :: rest =>
    ParseState.complete rest (.obj members.reverse)
  | _, _, _ => none

/-- The value a token sequence denotes: exactly one JSON value, nothing after it. -/
def parseTokens (toks : List Token) : Option Json :=
  match toks.foldlM parseStep ⟨[], .value, none⟩ with
  | some ⟨_, .done, some v⟩ => some v
  | _ => none

/-- Go `checkValid` and the reading of the value it has accepted: `none` is the
`*json.SyntaxError` of `json.Unmarshal`, which a text that is not JSON gets,
and a text nested deeper than `maxNestingDepth`. -/
def Json.parse (data : List UInt8) : Option Json :=
  match lex data with
  | some toks => parseTokens toks
  | none => none

/-! ## `strconv` and the numeric conversions -/

/-- The largest `uint64`. -/
def maxUint64 : Nat := 2 ^ 64 - 1

/-- The loop of Go `strconv.ParseUint(s, 10, 64)`: `n` is the value read so far.
`none` stands for both of its errors, `ErrSyntax` (a byte that is no decimal
digit) and `ErrRange` (the value leaves `uint64`); the callers only test
`err == nil`.  The loop of Go runs over bytes; every byte of a character beyond
ASCII is at least `0x80`, hence no digit, so running over characters gives the
same outcome. -/
def parseUintLoop : List Char → Nat → Option Nat
  | [], n => some n
  | c :: rest, n =>
    if 48 ≤ c.toNat ∧ c.toNat ≤ 57 then
      if n ≥ maxUint64 / 10 + 1 then none
      else
        let m := n * 10
        let n1 := (m + (c.toNat - 48)) % 2 ^ 64
        if n1 < m ∨ n1 > maxUint64 then none else parseUintLoop rest n1
    else none

/-- Go `strconv.ParseUint(s, 10, 64)`; `none` is `err != nil`. -/
def parseUint (s : String) : Option Nat :=
  match s.data with
  | [] => none
  | cs => parseUintLoop cs 0

/-- Go `strconv.ParseInt(s, 10, 64)`; `none` is `err != nil`. -/
def parseInt (s : String) : Option Int :=
  match s.data with
  | [] => none
  | c :: rest =>
    let neg := c.toNat = 45
    let body := if c.toNat = 43 ∨ c.toNat = 45 then rest else c :: rest
    match parseUint (String.mk body) with
    | none => none
    | some un =>
      if ¬ neg ∧ un ≥ 2 ^ 63 then none
      else if neg ∧ un > 2 ^ 63 then none
      else some (if neg then - (un : Int) else (un : Int))

/-- A finite `float64`: the number `(-1)^neg * mant * 2^exp`.  `json.Unmarshal`
stores no infinity and no NaN. -/
structure F64 where
  neg : Bool
  mant : Nat
  exp : Int
  deriving DecidableEq, Repr

/-- The `float64` zero value. -/
def F64.zero : F64 := ⟨false, 0, 0⟩

/-- The number of binary digits of `n`; each step halves `n`, so `fuel = n` steps
are more than enough (`bitLength_eq`). -/
def bitLength : Nat → Nat → Nat
  | 0, _ => 0
  | fuel + 1, n => if n = 0 then 0 else bitLength fuel (n / 2) + 1

/-- The position of the leading binary digit of `n`: `Nat.log2 n` (`log2Floor_eq`),
by a recursion that evaluates on large numbers. -/
def log2Floor (n : Nat) : Nat := bitLength n n - 1

/-- The nearest `float64` to `num / den` (both positive), ties to even: the
quotient is taken at the binary exponent that leaves 53 significant bits, or at
the least exponent `-1074` of the subnormal range.  `none` when the rounded
value is beyond the largest finite `float64`. -/
def roundRatio (neg : Bool) (num den : Nat) : Option F64 :=
  let l : Int := (log2Floor num : Int) - (log2Floor den : Int)
  let b : Int := if num * 2 ^ (-l).toNat ≥ den * 2 ^ l.toNat then l else l - 1
  let k : Int := max (b - 52) (-1074)
  let n1 := num * 2 ^ (-k).toNat
  let d1 := den * 2 ^ k.toNat
  let q := n1 / d1
  let r := n1 % d1
  let q1 := if 2 * r > d1 ∨ (2 * r = d1 ∧ q % 2 = 1) then q + 1 else q
  let mk : Nat × Int := if q1 = 2 ^ 53 then (2 ^ 52, k + 1) else (q1, k)
  if mk.2 > 971 then none
  else if mk.1 = 0 then some ⟨neg, 0, 0⟩
  else some ⟨neg, mk.1, mk.2⟩

/-- The digits at the head of a text: their value on top of `acc`, how many they
are, and the text after them. -/
def takeDigits : List Char → Nat → Nat × Nat × List Char
  | [], acc => (acc, 0, [])
  | c :: rest, acc =>
    if 48 ≤ c.toNat ∧ c.toNat ≤ 57 then
      let r := takeDigits rest (acc * 10 + (c.toNat - 48))
      (r.1, r.2.1 + 1, r.2.2)
    else (acc, 0, c :: rest)

/-- The digits of an exponent as `strconv` reads them (`if e < 10000 { e = e*10 +
digit }`): once the value has reached `10000` the digits that follow are
passed over. -/
def exponentValue (digits : List Char) : Nat :=
  digits.foldl (fun e c => if e < 10000 then e * 10 + (c.toNat - 48) else e) 0

/-- The exponent part of a decimal literal, `e` or `E`, a sign, digits; an absent
exponent is `0`. -/
def parseExponent : List Char → Option Int
  | [] => some 0
  | c :: rest =>
    if c.toNat = 101 ∨ c.toNat = 69 then
      let sign : Option Bool :=
        match rest with
        | d :: _ => if d.toNat = 45 then some true else if d.toNat = 43 then some false else none
        | [] => none
      let digits := if sign.isSome then rest.drop 1 else rest
      let r := takeDigits digits 0
      if r.2.1 = 0 ∨ ¬ r.2.2.isEmpty then none
      else some (if sign = some true then - (exponentValue digits : Int)
        else (exponentValue digits : Int))
    else none

/-- Go `strconv.ParseFloat(s, 64)` on a decimal literal (the scanner lets no other
through): the nearest `float64`, ties to even; `none` is `err != nil`, which for
a well-formed literal is `ErrRange`, a value that rounds to an infinity.  This
is the library for a literal of at most 800 digits; of a longer one the library
keeps 800 digits, which is not followed here. -/
def parseFloat (s : String) : Option F64 :=
  let neg := s.data.head? = some (Char.ofNat 45)
  let body := if s.data.head? = some (Char.ofNat 45) ∨ s.data.head? = some (Char.ofNat 43)
    then s.data.drop 1 else s.data
  let ip := takeDigits body 0
  let fp : Nat × Nat × List Char :=
    match ip.2.2 with
    | c :: rest => if c.toNat = 46 then takeDigits rest ip.1 else (ip.1, 0, c :: rest)
    | [] => (ip.1, 0, [])
  if ip.2.1 + fp.2.1 = 0 then none
  else
    match parseExponent fp.2.2 with
    | none => none
    | some e =>
      let scale : Int := e - (fp.2.1 : Int)
      if fp.1 = 0 then some ⟨neg, 0, 0⟩
      else if scale ≥ 0 then roundRatio neg (fp.1 * 10 ^ scale.toNat) 1
      else roundRatio neg fp.1 (10 ^ (-scale).toNat)

/-- The integer part of the magnitude of a `float64`. -/
def F64.truncAbs (x : F64) : Nat :=
  if x.exp ≥ 0 then x.mant * 2 ^ x.exp.toNat else x.mant / 2 ^ (-x.exp).toNat

/-- What a Go implementation does when a `float64` is converted to an unsigned type
that cannot hold its integer part: the language leaves the result
implementation-dependent, so it is a parameter of the decoders. -/
structure FloatConv where
  uint32 : F64 → Nat
  uint64 : F64 → Nat

/-- One admissible implementation: the integer part modulo the width, in two's complement. -/
def FloatConv.wrapping : FloatConv where
  uint32 x := ((if x.neg then - (x.truncAbs : Int) else (x.truncAbs : Int)) % 2 ^ 32).toNat
  uint64 x := ((if x.neg then - (x.truncAbs : Int) else (x.truncAbs : Int)) % 2 ^ 64).toNat

/-- Go `uint32(x)` for `x float64`: the fraction is discarded; outside `uint32` the
implementation decides. -/
def F64.toUint32 (fc : FloatConv) (x : F64) : Nat :=
  if (x.neg ∧ x.truncAbs ≠ 0) ∨ x.truncAbs ≥ 2 ^ 32 then fc.uint32 x % 2 ^ 32 else x.truncAbs

/-- Go `uint64(x)` for `x float64`. -/
def F64.toUint64 (fc : FloatConv) (x : F64) : Nat :=
  if (x.neg ∧ x.truncAbs ≠ 0) ∨ x.truncAbs ≥ 2 ^ 64 then fc.uint64 x % 2 ^ 64 else x.truncAbs

/-- Go `uint64(n)` for `n int`. -/
def intToUint64 (n : Int) : Nat := (n % 2 ^ 64).toNat

/-- Go `uint32(n)` for `n int`. -/
def intToUint32 (n : Int) : Nat := (n % 2 ^ 32).toNat

/-! ## `json.Unmarshal` into a struct

`json.Unmarshal` first checks the whole buffer against the grammar and only then
binds the value to the destination.  Binding goes on after a value that does
not fit its destination (`*json.UnmarshalTypeError`) and reports the first such
error at the end; the decoders drop the destination whenever `err != nil`, so
the binders below answer `none` as soon as one value does not fit.  A JSON
`null` leaves a string, a number, a boolean or a struct as it is and makes a
slice `nil`.  A member whose name matches no field is skipped. -/

/-- Simple case folding of one rune, as far as it can meet an ASCII name: the
capital letters, the long s (U+017F) and the Kelvin sign (U+212A). -/
def foldRune (c : Char) : Char :=
  if 65 ≤ c.toNat ∧ c.toNat ≤ 90 then Char.ofNat (c.toNat + 32)
  else if c.toNat = 0x17F then Char.ofNat 115
  else if c.toNat = 0x212A then Char.ofNat 107
  else c

/-- The name under which a member is looked up among the fields: `encoding/json`
takes the field whose `json` tag equals the member name, or else equals it
under simple case folding.  The tags of this file are lower-case ASCII and no
two tags of one struct fold together, so a member picks the field whose tag is
the folded member name. -/
def foldName (key : String) : String := String.mk (key.data.map foldRune)

/-- Binding a JSON value to a `string`. -/
def bindString (v : Json) (dst : String) : Option String :=
  match v with
  | .null => some dst
  | .str s => some s
  | _ => none

/-- Binding a JSON value to a `bool`. -/
def bindBool (v : Json) (dst : Bool) : Option Bool :=
  match v with
  | .null => some dst
  | .bool b => some b
  | _ => none

/-- Binding a JSON value to an `int`: the literal goes through `strconv.ParseInt`. -/
def bindInt (v : Json) (dst : Int) : Option Int :=
  match v with
  | .null => some dst
  | .num lit => parseInt lit
  | _ => none

/-- Binding a JSON value to a `float64`: the literal goes through `strconv.ParseFloat`. -/
def bindFloat (v : Json) (dst : F64) : Option F64 :=
  match v with
  | .null => some dst
  | .num lit => parseFloat lit
  | _ => none

/-- Binding a JSON value to a struct whose fields are bound by `field`: the members
are taken in document order, each into the field its folded name picks. -/
def bindStruct {σ : Type} (field : String → Json → σ → Option σ) (v : Json) (dst : σ) :
    Option σ :=
  match v with
  | .null => some dst
  | .obj members => members.foldlM (fun acc kv => field (foldName kv.1) kv.2 acc) dst
  | _ => none

/-- Binding the items of an array, one after the other, each to a fresh element. -/
def bindItems {σ : Type} (elem : Json → σ → Option σ) (zero : σ) : List Json → Option (List σ)
  | [] => some []
  | item :: rest =>
    match elem item zero with
    | none => none
    | some x => (bindItems elem zero rest).map (fun xs => x :: xs)

/-- Binding a JSON value to a slice: the length is reset and every item is bound to
a fresh element. -/
def bindSlice {σ : Type} (elem : Json → σ → Option σ) (zero : σ) (v : Json) (_dst : List σ) :
    Option (List σ) :=
  match v with
  | .null => some []
  | .arr items => bindItems elem zero items
  | _ => none

/-! ### The struct of `getFromMediaPage` -/

/-- The struct `Node` of a caption edge. -/
structure CaptionNode where
  Text : String := ""
  deriving DecidableEq, Repr

/-- An element of `Edges`. -/
structure CaptionEdge where
  Node : CaptionNode := {}
  deriving DecidableEq, Repr

/-- The struct `EdgeMediaToCaption`. -/
structure EdgeMediaToCaption where
  Edges : List CaptionEdge := []
  deriving DecidableEq, Repr

/-- The structs `EdgeMediaToComment` and `EdgeMediaPreviewLike`. -/
structure EdgeCount where
  Count : Int := 0
  deriving DecidableEq, Repr

/-- The struct `Owner` of the media page. -/
structure PageOwner where
  ID : String := ""
  ProfilePicURL : String := ""
  Username : String := ""
  FullName : String := ""
  IsPrivate : Bool := false
  deriving DecidableEq, Repr

/-- The struct `ShortcodeMedia`. -/
structure ShortcodeMedia where
  Typename : String := ""
  ID : String := ""
  Shortcode : String := ""
  DisplayURL : String := ""
  VideoURL : String := ""
  IsVideo : Bool := false
  EdgeMediaToCaption : EdgeMediaToCaption := {}
  EdgeMediaToComment : EdgeCount := {}
  TakenAtTimestamp : Int := 0
  EdgeMediaPreviewLike : EdgeCount := {}
  Owner : PageOwner := {}
  IsAd : Bool := false
  deriving DecidableEq, Repr

/-- The struct `Graphql`. -/
structure Graphql where
  ShortcodeMedia : ShortcodeMedia := {}
  deriving DecidableEq, Repr

/-- The variable `mediaJSON` of `getFromMediaPage`. -/
structure MediaPageJSON where
  Graphql : Graphql := {}
  deriving DecidableEq, Repr

/-- The field of `Node` a member binds to. -/
def CaptionNode.field (name : String) (v : Json) (d : CaptionNode) : Option CaptionNode :=
  if name = "text" then (bindString v d.Text).map (fun x => { d with Text := x })
  else some d

/-- The field of a caption edge a member binds to. -/
def CaptionEdge.field (name : String) (v : Json) (d : CaptionEdge) : Option CaptionEdge :=
  if name = "node" then (bindStruct CaptionNode.field v d.Node).map (fun x => { d with Node := x })
  else some d

/-- The field of `EdgeMediaToCaption` a member binds to. -/
def EdgeMediaToCaption.field (name : String) (v : Json) (d : EdgeMediaToCaption) :
    Option EdgeMediaToCaption :=
  if name = "edges" then
    (bindSlice (bindStruct CaptionEdge.field) {} v d.Edges).map (fun x => { d with Edges := x })
  else some d

/-- The field of a counting edge a member binds to. -/
def EdgeCount.field (name : String) (v : Json) (d : EdgeCount) : Option EdgeCount :=
  if name = "count" then (bindInt v d.Count).map (fun x => { d with Count := x })
  else some d

/-- The field of the page owner a member binds to. -/
def PageOwner.field (name : String) (v : Json) (d : PageOwner) : Option PageOwner :=
  if name = "id" then (bindString v d.ID).map (fun x => { d with ID := x })
  else if name = "profile_pic_url" then
    (bindString v d.ProfilePicURL).map (fun x => { d with ProfilePicURL := x })
  else if name = "username" then (bindString v d.Username).map (fun x => { d with Username := x })
  else if name = "full_name" then (bindString v d.FullName).map (fun x => { d with FullName := x })
  else if name = "is_private" then (bindBool v d.IsPrivate).map (fun x => { d with IsPrivate := x })
  else some d

/-- The field of `ShortcodeMedia` a member binds to. -/
def ShortcodeMedia.field (name : String) (v : Json) (d : ShortcodeMedia) :
    Option ShortcodeMedia :=
  if name = "__typename" then (bindString v d.Typename).map (fun x => { d with Typename := x })
  else if name = "id" then (bindString v d.ID).map (fun x => { d with ID := x })
  else if name = "shortcode" then (bindString v d.Shortcode).map (fun x => { d with Shortcode := x })
  else if name = "display_url" then
    (bindString v d.DisplayURL).map (fun x => { d with DisplayURL := x })
  else if name = "video_url" then (bindString v d.VideoURL).map (fun x => { d with VideoURL := x })
  else if name = "is_video" then (bindBool v d.IsVideo).map (fun x => { d with IsVideo := x })
  else if name = "edge_media_to_caption" then
    (bindStruct EdgeMediaToCaption.field v d.EdgeMediaToCaption).map
      (fun x => { d with EdgeMediaToCaption := x })
  else if name = "edge_media_to_comment" then
    (bindStruct EdgeCount.field v d.EdgeMediaToComment).map
      (fun x => { d with EdgeMediaToComment := x })
  else if name = "taken_at_timestamp" then
    (bindInt v d.TakenAtTimestamp).map (fun x => { d with TakenAtTimestamp := x })
  else if name = "edge_media_preview_like" then
    (bindStruct EdgeCount.field v d.EdgeMediaPreviewLike).map
      (fun x => { d with EdgeMediaPreviewLike := x })
  else if name = "owner" then
    (bindStruct PageOwner.field v d.Owner).map (fun x => { d with Owner := x })
  else if name = "is_ad" then (bindBool v d.IsAd).map (fun x => { d with IsAd := x })
  else some d

/-- The field of `Graphql` a member binds to. -/
def Graphql.field (name : String) (v : Json) (d : Graphql) : Option Graphql :=
  if name = "shortcode_media" then
    (bindStruct ShortcodeMedia.field v d.ShortcodeMedia).map (fun x => { d with ShortcodeMedia := x })
  else some d

/-- The field of `mediaJSON` a member binds to. -/
def MediaPageJSON.field (name : String) (v : Json) (d : MediaPageJSON) : Option MediaPageJSON :=
  if name = "graphql" then (bindStruct Graphql.field v d.Graphql).map (fun x => { d with Graphql := x })
  else some d

/-- The call `json.Unmarshal(data, &mediaJSON)` of `getFromMediaPage`, `mediaJSON` being
zero before it; `none` is `err != nil`. -/
def MediaPageJSON.unmarshal (data : List UInt8) : Option MediaPageJSON :=
  match Json.parse data with
  | none => none
  | some v => bindStruct MediaPageJSON.field v {}

/-! ### The struct of `getFromAccountMediaList` -/

/-- The struct `User`. -/
structure ListUser where
  ID : String := ""
  FullName : String := ""
  ProfilePicture : String := ""
  Username : String := ""
  deriving DecidableEq, Repr

/-- The struct `StandardResolution`, of `Images` and of `Videos`. -/
structure StandardResolution where
  Width : Int := 0
  Height : Int := 0
  URL : String := ""
  deriving DecidableEq, Repr

/-- The structs `Images` and `Videos`. -/
structure Renditions where
  StandardResolution : StandardResolution := {}
  deriving DecidableEq, Repr

/-- The struct `Caption` of the account list. -/
structure ListCaption where
  Text : String := ""
  deriving DecidableEq, Repr

/-- The structs `Likes` and `Comments`, of the account list and of the search list. -/
structure FloatCount where
  Count : F64 := F64.zero
  deriving DecidableEq, Repr

/-- The variable `mediaJSON` of `getFromAccountMediaList`; its field `Type` is
`Type_` here, `Type` being a keyword. -/
structure AccountMediaJSON where
  ID : String := ""
  Code : String := ""
  User : ListUser := {}
  Images : Renditions := {}
  CreatedTime : String := ""
  Caption : ListCaption := {}
  Likes : FloatCount := {}
  Comments : FloatCount := {}
  Type_ : String := ""
  Videos : Renditions := {}
  deriving DecidableEq, Repr

/-- The field of `User` a member binds to. -/
def ListUser.field (name : String) (v : Json) (d : ListUser) : Option ListUser :=
  if name = "id" then (bindString v d.ID).map (fun x => { d with ID := x })
  else if name = "full_name" then (bindString v d.FullName).map (fun x => { d with FullName := x })
  else if name = "profile_picture" then
    (bindString v d.ProfilePicture).map (fun x => { d with ProfilePicture := x })
  else if name = "username" then (bindString v d.Username).map (fun x => { d with Username := x })
  else some d

/-- The field of `StandardResolution` a member binds to. -/
def StandardResolution.field (name : String) (v : Json) (d : StandardResolution) :
    Option StandardResolution :=
  if name = "width" then (bindInt v d.Width).map (fun x => { d with Width := x })
  else if name = "height" then (bindInt v d.Height).map (fun x => { d with Height := x })
  else if name = "url" then (bindString v d.URL).map (fun x => { d with URL := x })
  else some d

/-- The field of `Images` or `Videos` a member binds to. -/
def Renditions.field (name : String) (v : Json) (d : Renditions) : Option Renditions :=
  if name = "standard_resolution" then
    (bindStruct StandardResolution.field v d.StandardResolution).map
      (fun x => { d with StandardResolution := x })
  else some d

/-- The field of `Caption` a member binds to. -/
def ListCaption.field (name : String) (v : Json) (d : ListCaption) : Option ListCaption :=
  if name = "text" then (bindString v d.Text).map (fun x => { d with Text := x })
  else some d

/-- The field of `Likes` or `Comments` a member binds to. -/
def FloatCount.field (name : String) (v : Json) (d : FloatCount) : Option FloatCount :=
  if name = "count" then (bindFloat v d.Count).map (fun x => { d with Count := x })
  else some d

/-- The field of `mediaJSON` a member binds to. -/
def AccountMediaJSON.field (name : String) (v : Json) (d : AccountMediaJSON) :
    Option AccountMediaJSON :=
  if name = "id" then (bindString v d.ID).map (fun x => { d with ID := x })
  else if name = "code" then (bindString v d.Code).map (fun x => { d with Code := x })
  else if name = "user" then (bindStruct ListUser.field v d.User).map (fun x => { d with User := x })
  else if name = "images" then
    (bindStruct Renditions.field v d.Images).map (fun x => { d with Images := x })
  else if name = "created_time" then
    (bindString v d.CreatedTime).map (fun x => { d with CreatedTime := x })
  else if name = "caption" then
    (bindStruct ListCaption.field v d.Caption).map (fun x => { d with Caption := x })
  else if name = "likes" then
    (bindStruct FloatCount.field v d.Likes).map (fun x => { d with Likes := x })
  else if name = "comments" then
    (bindStruct FloatCount.field v d.Comments).map (fun x => { d with Comments := x })
  else if name = "type" then (bindString v d.Type_).map (fun x => { d with Type_ := x })
  else if name = "videos" then
    (bindStruct Renditions.field v d.Videos).map (fun x => { d with Videos := x })
  else some d

/-- The call `json.Unmarshal(data, &mediaJSON)` of `getFromAccountMediaList`; `none` is
`err != nil`. -/
def AccountMediaJSON.unmarshal (data : List UInt8) : Option AccountMediaJSON :=
  match Json.parse data with
  | none => none
  | some v => bindStruct AccountMediaJSON.field v {}

/-! ### The struct of `getFromSearchMediaList` -/

/-- The struct `Owner` of the search list. -/
structure SearchOwner where
  ID : String := ""
  deriving DecidableEq, Repr

/-- The variable `mediaJSON` of `getFromSearchMediaList`. -/
structure SearchMediaJSON where
  CommentsDisabled : Bool := false
  ID : String := ""
  Owner : SearchOwner := {}
  ThumbnailSrc : String := ""
  IsVideo : Bool := false
  Code : String := ""
  Date : F64 := F64.zero
  DisplaySrc : String := ""
  Caption : String := ""
  Comments : FloatCount := {}
  Likes : FloatCount := {}
  deriving DecidableEq, Repr

/-- The field of `Owner` a member binds to. -/
def SearchOwner.field (name : String) (v : Json) (d : SearchOwner) : Option SearchOwner :=
  if name = "id" then (bindString v d.ID).map (fun x => { d with ID := x })
  else some d

/-- The field of `mediaJSON` a member binds to. -/
def SearchMediaJSON.field (name : String) (v : Json) (d : SearchMediaJSON) :
    Option SearchMediaJSON :=
  if name = "comments_disabled" then
    (bindBool v d.CommentsDisabled).map (fun x => { d with CommentsDisabled := x })
  else if name = "id" then (bindString v d.ID).map (fun x => { d with ID := x })
  else if name = "owner" then
    (bindStruct SearchOwner.field v d.Owner).map (fun x => { d with Owner := x })
  else if name = "thumbnail_src" then
    (bindString v d.ThumbnailSrc).map (fun x => { d with ThumbnailSrc := x })
  else if name = "is_video" then (bindBool v d.IsVideo).map (fun x => { d with IsVideo := x })
  else if name = "code" then (bindString v d.Code).map (fun x => { d with Code := x })
  else if name = "date" then (bindFloat v d.Date).map (fun x => { d with Date := x })
  else if name = "display_src" then
    (bindString v d.DisplaySrc).map (fun x => { d with DisplaySrc := x })
  else if name = "caption" then (bindString v d.Caption).map (fun x => { d with Caption := x })
  else if name = "comments" then
    (bindStruct FloatCount.field v d.Comments).map (fun x => { d with Comments := x })
  else if name = "likes" then
    (bindStruct FloatCount.field v d.Likes).map (fun x => { d with Likes := x })
  else some d

/-- The call `json.Unmarshal(data, &mediaJSON)` of `getFromSearchMediaList`; `none` is
`err != nil`. -/
def SearchMediaJSON.unmarshal (data : List UInt8) : Option SearchMediaJSON :=
  match Json.parse data with
  | none => none
  | some v => bindStruct SearchMediaJSON.field v {}

/-! ## The canonical record and the three decoders -/

/-- Go `TypeImage`. -/
def TypeImage : String := "image"

/-- Go `TypeVideo`. -/
def TypeVideo : String := "video"

/-- Modelled from the spec: the struct `Account` is declared in a sibling file of the
package that is not part of the sources at hand; the spec gives it, "minimally",
the five fields the decoders write. -/
structure Account where
  ID : String := ""
  Username : String := ""
  FullName : String := ""
  ProfilePicURL : String := ""
  Private : Bool := false
  deriving DecidableEq, Repr

/-- Go `Media`; `CommentsCount` and `LikesCount` are `uint32`, `Date` is `uint64`,
and the field `Type` is `Type_` here. -/
structure Media where
  Caption : String := ""
  Code : String := ""
  CommentsCount : Nat := 0
  Date : Nat := 0
  ID : String := ""
  AD : Bool := false
  LikesCount : Nat := 0
  Type_ : String := ""
  MediaURL : String := ""
  Owner : Account := {}
  deriving DecidableEq, Repr

/-- Go `Media{}`, the zero record. -/
def Media.zero : Media := {}

/-- A run-time panic of Go. -/
inductive RuntimePanic where
  | indexOutOfRange
  deriving DecidableEq, Repr

/-- How a call of a Go function ends: it returns a value, or a run-time panic
unwinds it and nothing is returned. -/
inductive GoResult (α : Type) where
  | ret (a : α)
  | panicked (p : RuntimePanic)
  deriving DecidableEq, Repr

/-- Go `getFromMediaPage`. -/
def getFromMediaPage (data : List UInt8) : GoResult (Media × Bool) :=
  match MediaPageJSON.unmarshal data with
  | none => .ret (Media.zero, false)
  | some mediaJSON =>
    let media : Media := {}
    let media := { media with Code := mediaJSON.Graphql.ShortcodeMedia.Shortcode }
    let media := { media with ID := mediaJSON.Graphql.ShortcodeMedia.ID }
    let media := { media with AD := mediaJSON.Graphql.ShortcodeMedia.IsAd }
    let media := { media with
      Date := intToUint64 mediaJSON.Graphql.ShortcodeMedia.TakenAtTimestamp }
    let media := { media with
      CommentsCount := intToUint32 mediaJSON.Graphql.ShortcodeMedia.EdgeMediaToComment.Count }
    let media := { media with
      LikesCount := intToUint32 mediaJSON.Graphql.ShortcodeMedia.EdgeMediaPreviewLike.Count }
    match mediaJSON.Graphql.ShortcodeMedia.EdgeMediaToCaption.Edges with
    | [] => .panicked .indexOutOfRange
    | edge0 :: _ =>
      let media := { media with Caption := edge0.Node.Text }
      let media :=
        if mediaJSON.Graphql.ShortcodeMedia.IsVideo then
          { media with Type_ := TypeVideo, MediaURL := mediaJSON.Graphql.ShortcodeMedia.VideoURL }
        else
          { media with Type_ := TypeImage, MediaURL := mediaJSON.Graphql.ShortcodeMedia.DisplayURL }
      let media := { media with
        Owner := { media.Owner with ID := mediaJSON.Graphql.ShortcodeMedia.Owner.ID } }
      let media := { media with
        Owner := { media.Owner with
          ProfilePicURL := mediaJSON.Graphql.ShortcodeMedia.Owner.ProfilePicURL } }
      let media := { media with
        Owner := { media.Owner with Username := mediaJSON.Graphql.ShortcodeMedia.Owner.Username } }
      let media := { media with
        Owner := { media.Owner with FullName := mediaJSON.Graphql.ShortcodeMedia.Owner.FullName } }
      let media := { media with
        Owner := { media.Owner with Private := mediaJSON.Graphql.ShortcodeMedia.Owner.IsPrivate } }
      .ret (media, true)

/-- Go `getFromAccountMediaList`. -/
def getFromAccountMediaList (fc : FloatConv) (data : List UInt8) : GoResult (Media × Bool) :=
  match AccountMediaJSON.unmarshal data with
  | none => .ret (Media.zero, false)
  | some mediaJSON =>
    let media : Media := {}
    let media := { media with Code := mediaJSON.Code }
    let media := { media with ID := mediaJSON.ID }
    let media := { media with Type_ := mediaJSON.Type_ }
    let media := { media with Caption := mediaJSON.Caption.Text }
    let media := { media with LikesCount := mediaJSON.Likes.Count.toUint32 fc }
    let media := { media with CommentsCount := mediaJSON.Comments.Count.toUint32 fc }
    let media :=
      match parseUint mediaJSON.CreatedTime with
      | some date => { media with Date := date }
      | none => media
    let media :=
      if media.Type_ = TypeVideo then
        { media with MediaURL := mediaJSON.Videos.StandardResolution.URL }
      else
        { media with MediaURL := mediaJSON.Images.StandardResolution.URL }
    let media := { media with Owner := { media.Owner with Username := mediaJSON.User.Username } }
    let media := { media with Owner := { media.Owner with FullName := mediaJSON.User.FullName } }
    let media := { media with Owner := { media.Owner with ID := mediaJSON.User.ID } }
    let media := { media with
      Owner := { media.Owner with ProfilePicURL := mediaJSON.User.ProfilePicture } }
    .ret (media, true)

/-- Go `getFromSearchMediaList`. -/
def getFromSearchMediaList (fc : FloatConv) (data : List UInt8) : GoResult (Media × Bool) :=
  match SearchMediaJSON.unmarshal data with
  | none => .ret (Media.zero, false)
  | some mediaJSON =>
    let media : Media := {}
    let media := { media with ID := mediaJSON.ID }
    let media := { media with Code := mediaJSON.Code }
    let media := { media with MediaURL := mediaJSON.DisplaySrc }
    let media := { media with Caption := mediaJSON.Caption }
    let media := { media with Date := mediaJSON.Date.toUint64 fc }
    let media := { media with LikesCount := mediaJSON.Likes.Count.toUint32 fc }
    let media := { media with CommentsCount := mediaJSON.Comments.Count.toUint32 fc }
    let media := { media with Owner := { media.Owner with ID := mediaJSON.Owner.ID } }
    let media :=
      if mediaJSON.IsVideo then { media with Type_ := TypeVideo }
      else { media with Type_ := TypeImage }
    .ret (media, true)

/-! ## Reading a payload

What the spec calls "the input's `video_url`", "`owner.id`" and so on: the member
of an object under a name, read as the type the spec gives it.  Names are
compared as `encoding/json` compares them with a field name, and a missing
member reads as `null`. -/

/-- The members of an object; no members for any other value. -/
def Json.members : Json → List (String × Json)
  | .obj ms => ms
  | _ => []

/-- The items of an array; no items for any other value. -/
def Json.items : Json → List Json
  | .arr xs => xs
  | _ => []

/-- The first member of `v` under the name `name`, or `null` when `v` has none. -/
def Json.member (name : String) (v : Json) : Json :=
  match v.members.find? (fun kv => foldName kv.1 = name) with
  | some kv => kv.2
  | none => .null

/-- A JSON string read as a text; anything else reads as the empty text. -/
def Json.asString : Json → String
  | .str s => s
  | _ => ""

/-- A JSON boolean read as such; anything else reads as `false`. -/
def Json.asBool : Json → Bool
  | .bool b => b
  | _ => false

/-- A JSON number read as an integer; anything else reads as `0`. -/
def Json.asInt : Json → Int
  | .num lit => (parseInt lit).getD 0
  | _ => 0

/-- A JSON number read as a `float64`; anything else reads as `0`. -/
def Json.asFloat : Json → F64
  | .num lit => (parseFloat lit).getD F64.zero
  | _ => F64.zero

/-- No two members of the object `v` go by the same name. -/
def Json.distinctNames (v : Json) : Prop :=
  (v.members.map (fun kv => foldName kv.1)).Nodup

mutual
/-- No object anywhere in `v` has two members of the same name. -/
def Json.uniqueNames : Json → Bool
  | .arr xs => Json.uniqueNamesItems xs
  | .obj ms => decide ((ms.map (fun kv => foldName kv.1)).Nodup) && Json.uniqueNamesMembers ms
  | _ => true
/-- `Json.uniqueNames` for every item of an array. -/
def Json.uniqueNamesItems : List Json → Bool
  | [] => true
  | x :: xs => x.uniqueNames && Json.uniqueNamesItems xs
/-- `Json.uniqueNames` for the value of every member of an object. -/
def Json.uniqueNamesMembers : List (String × Json) → Bool
  | [] => true
  | kv :: ms => kv.2.uniqueNames && Json.uniqueNamesMembers ms
end

/-! ### Values that fit their field

The JSON types a field of each Go type takes without a
`*json.UnmarshalTypeError`: `null` fits every field. -/

/-- A value a `string` field takes. -/
def fitsString : Json → Bool
  | .null => true
  | .str _ => true
  | _ => false

/-- A value a `bool` field takes. -/
def fitsBool : Json → Bool
  | .null => true
  | .bool _ => true
  | _ => false

/-- A value an `int` field takes: a number `strconv.ParseInt` reads. -/
def fitsInt : Json → Bool
  | .null => true
  | .num lit => (parseInt lit).isSome
  | _ => false

/-- A value a `float64` field takes: a number `strconv.ParseFloat` reads. -/
def fitsFloat : Json → Bool
  | .null => true
  | .num lit => (parseFloat lit).isSome
  | _ => false

/-- A value a struct field takes: an object each of whose members fits the field
it is bound to. -/
def fitsStruct (fits : String → Json → Bool) : Json → Bool
  | .null => true
  | .obj ms => ms.all (fun kv => fits (foldName kv.1) kv.2)
  | _ => false

/-- A value a slice field takes: an array each of whose items fits the element type. -/
def fitsSlice (fits : Json → Bool) : Json → Bool
  | .null => true
  | .arr xs => xs.all fits
  | _ => false

/-- A member of a caption node fits its field. -/
def CaptionNode.fits (name : String) (v : Json) : Bool :=
  if name = "text" then fitsString v else true

/-- A member of a caption edge fits its field. -/
def CaptionEdge.fits (name : String) (v : Json) : Bool :=
  if name = "node" then fitsStruct CaptionNode.fits v else true

/-- A member of `edge_media_to_caption` fits its field. -/
def EdgeMediaToCaption.fits (name : String) (v : Json) : Bool :=
  if name = "edges" then fitsSlice (fitsStruct CaptionEdge.fits) v else true

/-- A member of `edge_media_to_comment` or `edge_media_preview_like` fits its field. -/
def EdgeCount.fits (name : String) (v : Json) : Bool :=
  if name = "count" then fitsInt v else true

/-- A member of the `owner` of a media page fits its field. -/
def PageOwner.fits (name : String) (v : Json) : Bool :=
  if name = "id" then fitsString v
  else if name = "profile_pic_url" then fitsString v
  else if name = "username" then fitsString v
  else if name = "full_name" then fitsString v
  else if name = "is_private" then fitsBool v
  else true

/-- A member of `shortcode_media` fits its field. -/
def ShortcodeMedia.fits (name : String) (v : Json) : Bool :=
  if name = "__typename" then fitsString v
  else if name = "id" then fitsString v
  else if name = "shortcode" then fitsString v
  else if name = "display_url" then fitsString v
  else if name = "video_url" then fitsString v
  else if name = "is_video" then fitsBool v
  else if name = "edge_media_to_caption" then fitsStruct EdgeMediaToCaption.fits v
  else if name = "edge_media_to_comment" then fitsStruct EdgeCount.fits v
  else if name = "taken_at_timestamp" then fitsInt v
  else if name = "edge_media_preview_like" then fitsStruct EdgeCount.fits v
  else if name = "owner" then fitsStruct PageOwner.fits v
  else if name = "is_ad" then fitsBool v
  else true

/-- A member of `graphql` fits its field. -/
def Graphql.fits (name : String) (v : Json) : Bool :=
  if name = "shortcode_media" then fitsStruct ShortcodeMedia.fits v else true

/-- A member of the payload of `getFromMediaPage` fits its field. -/
def MediaPageJSON.fits (name : String) (v : Json) : Bool :=
  if name = "graphql" then fitsStruct Graphql.fits v else true

/-- A member of `user` fits its field. -/
def ListUser.fits (name : String) (v : Json) : Bool :=
  if name = "id" then fitsString v
  else if name = "full_name" then fitsString v
  else if name = "profile_picture" then fitsString v
  else if name = "username" then fitsString v
  else true

/-- A member of `standard_resolution` fits its field. -/
def StandardResolution.fits (name : String) (v : Json) : Bool :=
  if name = "width" then fitsInt v
  else if name = "height" then fitsInt v
  else if name = "url" then fitsString v
  else true

/-- A member of `images` or `videos` fits its field. -/
def Renditions.fits (name : String) (v : Json) : Bool :=
  if name = "standard_resolution" then fitsStruct StandardResolution.fits v else true

/-- A member of the `caption` of the account list fits its field. -/
def ListCaption.fits (name : String) (v : Json) : Bool :=
  if name = "text" then fitsString v else true

/-- A member of `likes` or `comments` fits its field. -/
def FloatCount.fits (name : String) (v : Json) : Bool :=
  if name = "count" then fitsFloat v else true

/-- A member of the payload of `getFromAccountMediaList` fits its field. -/
def AccountMediaJSON.fits (name : String) (v : Json) : Bool :=
  if name = "id" then fitsString v
  else if name = "code" then fitsString v
  else if name = "user" then fitsStruct ListUser.fits v
  else if name = "images" then fitsStruct Renditions.fits v
  else if name = "created_time" then fitsString v
  else if name = "caption" then fitsStruct ListCaption.fits v
  else if name = "likes" then fitsStruct FloatCount.fits v
  else if name = "comments" then fitsStruct FloatCount.fits v
  else if name = "type" then fitsString v
  else if name = "videos" then fitsStruct Renditions.fits v
  else true

/-- A member of the `owner` of the search list fits its field. -/
def SearchOwner.fits (name : String) (v : Json) : Bool :=
  if name = "id" then fitsString v else true

/-- A member of the payload of `getFromSearchMediaList` fits its field. -/
def SearchMediaJSON.fits (name : String) (v : Json) : Bool :=
  if name = "comments_disabled" then fitsBool v
  else if name = "id" then fitsString v
  else if name = "owner" then fitsStruct SearchOwner.fits v
  else if name = "thumbnail_src" then fitsString v
  else if name = "is_video" then fitsBool v
  else if name = "code" then fitsString v
  else if name = "date" then fitsFloat v
  else if name = "display_src" then fitsString v
  else if name = "caption" then fitsString v
  else if name = "comments" then fitsStruct FloatCount.fits v
  else if name = "likes" then fitsStruct FloatCount.fits v
  else true

/-! ### The reading of each struct -/

/-- The reading of a caption node: every field from the member under its name. -/
def CaptionNode.read (v : Json) : CaptionNode where
  Text := (v.member "text").asString

/-- The reading of a caption edge: every field from the member under its name. -/
def CaptionEdge.read (v : Json) : CaptionEdge where
  Node := CaptionNode.read (v.member "node")

/-- The reading of `edge_media_to_caption`: every field from the member under its name. -/
def EdgeMediaToCaption.read (v : Json) : EdgeMediaToCaption where
  Edges := (v.member "edges").items.map CaptionEdge.read

/-- The reading of a counting edge: every field from the member under its name. -/
def EdgeCount.read (v : Json) : EdgeCount where
  Count := (v.member "count").asInt

/-- The reading of the `owner` of a media page: every field from the member under its name. -/
def PageOwner.read (v : Json) : PageOwner where
  ID := (v.member "id").asString
  ProfilePicURL := (v.member "profile_pic_url").asString
  Username := (v.member "username").asString
  FullName := (v.member "full_name").asString
  IsPrivate := (v.member "is_private").asBool

/-- The reading of `shortcode_media`: every field from the member under its name. -/
def ShortcodeMedia.read (v : Json) : ShortcodeMedia where
  Typename := (v.member "__typename").asString
  ID := (v.member "id").asString
  Shortcode := (v.member "shortcode").asString
  DisplayURL := (v.member "display_url").asString
  VideoURL := (v.member "video_url").asString
  IsVideo := (v.member "is_video").asBool
  EdgeMediaToCaption := EdgeMediaToCaption.read (v.member "edge_media_to_caption")
  EdgeMediaToComment := EdgeCount.read (v.member "edge_media_to_comment")
  TakenAtTimestamp := (v.member "taken_at_timestamp").asInt
  EdgeMediaPreviewLike := EdgeCount.read (v.member "edge_media_preview_like")
  Owner := PageOwner.read (v.member "owner")
  IsAd := (v.member "is_ad").asBool

/-- The reading of `graphql`: every field from the member under its name. -/
def Graphql.read (v : Json) : Graphql where
  ShortcodeMedia := ShortcodeMedia.read (v.member "shortcode_media")

/-- The reading of the payload of `getFromMediaPage`: every field from the member under its name. -/
def MediaPageJSON.read (v : Json) : MediaPageJSON where
  Graphql := Graphql.read (v.member "graphql")

/-- The reading of `user`: every field from the member under its name. -/
def ListUser.read (v : Json) : ListUser where
  ID := (v.member "id").asString
  FullName := (v.member "full_name").asString
  ProfilePicture := (v.member "profile_picture").asString
  Username := (v.member "username").asString

/-- The reading of `standard_resolution`: every field from the member under its name. -/
def StandardResolution.read (v : Json) : StandardResolution where
  Width := (v.member "width").asInt
  Height := (v.member "height").asInt
  URL := (v.member "url").asString

/-- The reading of `images` or `videos`: every field from the member under its name. -/
def Renditions.read (v : Json) : Renditions where
  StandardResolution := StandardResolution.read (v.member "standard_resolution")

/-- The reading of the `caption` of the account list: every field from the member under its name. -/
def ListCaption.read (v : Json) : ListCaption where
  Text := (v.member "text").asString

/-- The reading of `likes` or `comments`: every field from the member under its name. -/
def FloatCount.read (v : Json) : FloatCount where
  Count := (v.member "count").asFloat

/-- The reading of the payload of `getFromAccountMediaList`: every field from the member under its name. -/
def AccountMediaJSON.read (v : Json) : AccountMediaJSON where
  ID := (v.member "id").asString
  Code := (v.member "code").asString
  User := ListUser.read (v.member "user")
  Images := Renditions.read (v.member "images")
  CreatedTime := (v.member "created_time").asString
  Caption := ListCaption.read (v.member "caption")
  Likes := FloatCount.read (v.member "likes")
  Comments := FloatCount.read (v.member "comments")
  Type_ := (v.member "type").asString
  Videos := Renditions.read (v.member "videos")

/-- The reading of the `owner` of the search list: every field from the member under its name. -/
def SearchOwner.read (v : Json) : SearchOwner where
  ID := (v.member "id").asString

/-- The reading of the payload of `getFromSearchMediaList`: every field from the member under its name. -/
def SearchMediaJSON.read (v : Json) : SearchMediaJSON where
  CommentsDisabled := (v.member "comments_disabled").asBool
  ID := (v.member "id").asString
  Owner := SearchOwner.read (v.member "owner")
  ThumbnailSrc := (v.member "thumbnail_src").asString
  IsVideo := (v.member "is_video").asBool
  Code := (v.member "code").asString
  Date := (v.member "date").asFloat
  DisplaySrc := (v.member "display_src").asString
  Caption := (v.member "caption").asString
  Comments := FloatCount.read (v.member "comments")
  Likes := FloatCount.read (v.member "likes")


/-! ### Decimal texts -/

/-- A non-empty text of decimal digits. -/
def isDecimal (s : String) : Bool :=
  !s.data.isEmpty && s.data.all (fun c => decide (48 ≤ c.toNat ∧ c.toNat ≤ 57))

/-- The number a text of decimal digits denotes, on top of `n`. -/
def decimalValueFrom (n : Nat) (cs : List Char) : Nat :=
  cs.foldl (fun acc c => acc * 10 + (c.toNat - 48)) n

/-- The number a text of decimal digits denotes. -/
def decimalValue (s : String) : Nat := decimalValueFrom 0 s.data

/-! ### The three decoders side by side, and the record the spec assigns to a payload -/

/-- The three decoders. -/
inductive Decoder where
  | mediaPage
  | accountMediaList
  | searchMediaList
  deriving DecidableEq, Repr

/-- Running a decoder on a byte buffer. -/
def Decoder.run (fc : FloatConv) : Decoder → List UInt8 → GoResult (Media × Bool)
  | .mediaPage, data => getFromMediaPage data
  | .accountMediaList, data => getFromAccountMediaList fc data
  | .searchMediaList, data => getFromSearchMediaList fc data

/-- Every member of the payload, at every depth, fits the field the decoder binds
it to; the payload itself is an object or `null`. -/
def Decoder.fits : Decoder → Json → Bool
  | .mediaPage, v => fitsStruct MediaPageJSON.fits v
  | .accountMediaList, v => fitsStruct AccountMediaJSON.fits v
  | .searchMediaList, v => fitsStruct SearchMediaJSON.fits v

/-- The object `graphql.shortcode_media` of a media-page payload. -/
def shortcodeMedia (v : Json) : Json := (v.member "graphql").member "shortcode_media"

/-- The array `edge_media_to_caption.edges` of a media-page payload. -/
def captionEdges (v : Json) : List Json :=
  (((shortcodeMedia v).member "edge_media_to_caption").member "edges").items

/-- The record section 4.1 of the spec assigns to a media-page payload. -/
def mediaPageRecord (v : Json) : Media where
  Code := ((shortcodeMedia v).member "shortcode").asString
  ID := ((shortcodeMedia v).member "id").asString
  AD := ((shortcodeMedia v).member "is_ad").asBool
  Date := intToUint64 ((shortcodeMedia v).member "taken_at_timestamp").asInt
  CommentsCount :=
    intToUint32 (((shortcodeMedia v).member "edge_media_to_comment").member "count").asInt
  LikesCount :=
    intToUint32 (((shortcodeMedia v).member "edge_media_preview_like").member "count").asInt
  Caption := ((((captionEdges v).headD .null).member "node").member "text").asString
  Type_ := if ((shortcodeMedia v).member "is_video").asBool then "video" else "image"
  MediaURL :=
    if ((shortcodeMedia v).member "is_video").asBool then
      ((shortcodeMedia v).member "video_url").asString
    else ((shortcodeMedia v).member "display_url").asString
  Owner :=
    { ID := (((shortcodeMedia v).member "owner").member "id").asString
      ProfilePicURL := (((shortcodeMedia v).member "owner").member "profile_pic_url").asString
      Username := (((shortcodeMedia v).member "owner").member "username").asString
      FullName := (((shortcodeMedia v).member "owner").member "full_name").asString
      Private := (((shortcodeMedia v).member "owner").member "is_private").asBool }

/-- The `Date` section 4.2 of the spec assigns to a `created_time`: the number the
text denotes when it is a decimal text below `2^64`, else `0`. -/
def createdTimeDate (s : String) : Nat :=
  if isDecimal s ∧ decimalValue s < 2 ^ 64 then decimalValue s else 0

/-- The record section 4.2 of the spec assigns to an account-list payload. -/
def accountMediaRecord (fc : FloatConv) (v : Json) : Media where
  Code := (v.member "code").asString
  ID := (v.member "id").asString
  Type_ := (v.member "type").asString
  Caption := ((v.member "caption").member "text").asString
  LikesCount := (((v.member "likes").member "count").asFloat).toUint32 fc
  CommentsCount := (((v.member "comments").member "count").asFloat).toUint32 fc
  Date := createdTimeDate (v.member "created_time").asString
  MediaURL :=
    if (v.member "type").asString = "video" then
      (((v.member "videos").member "standard_resolution").member "url").asString
    else (((v.member "images").member "standard_resolution").member "url").asString
  Owner :=
    { ID := ((v.member "user").member "id").asString
      Username := ((v.member "user").member "username").asString
      FullName := ((v.member "user").member "full_name").asString
      ProfilePicURL := ((v.member "user").member "profile_picture").asString }

/-- The record section 4.3 of the spec assigns to a search-list payload. -/
def searchMediaRecord (fc : FloatConv) (v : Json) : Media where
  ID := (v.member "id").asString
  Code := (v.member "code").asString
  MediaURL := (v.member "display_src").asString
  Caption := (v.member "caption").asString
  Date := ((v.member "date").asFloat).toUint64 fc
  LikesCount := (((v.member "likes").member "count").asFloat).toUint32 fc
  CommentsCount := (((v.member "comments").member "count").asFloat).toUint32 fc
  Type_ := if (v.member "is_video").asBool then "video" else "image"
  Owner := { ID := ((v.member "owner").member "id").asString }

/-- The record the spec assigns to the payload of a decoder. -/
def Decoder.record (fc : FloatConv) : Decoder → Json → Media
  | .mediaPage, v => mediaPageRecord v
  | .accountMediaList, v => accountMediaRecord fc v
  | .searchMediaList, v => searchMediaRecord fc v

/-- What a decoder needs beyond fitting members to return at all: the media page
needs a first caption edge, read off a payload of unique names. -/
def Decoder.ready : Decoder → Json → Prop
  | .mediaPage, v => v.uniqueNames = true ∧ captionEdges v ≠ []
  | _, _ => True

/-! ### Sample buffers -/

/-- The malformed buffer of scenario 6 of the spec. -/
def notJson : List UInt8 := bytesOf "\x7bnot json"

/-- An object cut short. -/
def truncatedObject : List UInt8 := bytesOf "\x7b\"id\":\"1\",\"code\""

/-- The empty object. -/
def emptyObject : List UInt8 := bytesOf "\x7b\x7d"

/-- A media page whose post has no caption. -/
def captionlessPage : List UInt8 :=
  bytesOf ("\x7b\"graphql\":\x7b\"shortcode_media\":\x7b\"id\":\"42\",\"shortcode\":\"ABC\","
    ++ "\"edge_media_to_caption\":\x7b\"edges\":[]\x7d\x7d\x7d\x7d")

/-- The media page of scenario 2 of the spec: scenario 1 with a video. -/
def videoPage : List UInt8 :=
  bytesOf ("\x7b\"graphql\":\x7b\"shortcode_media\":\x7b\"__typename\":\"GraphImage\","
    ++ "\"id\":\"42\",\"shortcode\":\"ABC\",\"display_url\":\"http://img/1.jpg\","
    ++ "\"video_url\":\"http://v/1.mp4\",\"is_video\":true,"
    ++ "\"edge_media_to_caption\":\x7b\"edges\":[\x7b\"node\":\x7b\"text\":\"hi\"\x7d\x7d,"
    ++ "\x7b\"node\":\x7b\"text\":\"later\"\x7d\x7d]\x7d,"
    ++ "\"edge_media_to_comment\":\x7b\"count\":3\x7d,\"taken_at_timestamp\":1500000000,"
    ++ "\"edge_media_preview_like\":\x7b\"count\":7\x7d,"
    ++ "\"owner\":\x7b\"id\":\"9\",\"profile_pic_url\":\"http://p/9.jpg\",\"username\":\"u\","
    ++ "\"full_name\":\"U U\",\"is_private\":false\x7d,\"is_ad\":false\x7d\x7d\x7d")

/-- The payload `videoPage` holds. -/
def videoPageJson : Json :=
  .obj [("graphql", .obj [("shortcode_media", .obj [
    ("__typename", .str "GraphImage"), ("id", .str "42"), ("shortcode", .str "ABC"),
    ("display_url", .str "http://img/1.jpg"), ("video_url", .str "http://v/1.mp4"),
    ("is_video", .bool true),
    ("edge_media_to_caption", .obj [("edges", .arr [
      .obj [("node", .obj [("text", .str "hi")])],
      .obj [("node", .obj [("text", .str "later")])]])]),
    ("edge_media_to_comment", .obj [("count", .num "3")]),
    ("taken_at_timestamp", .num "1500000000"),
    ("edge_media_preview_like", .obj [("count", .num "7")]),
    ("owner", .obj [("id", .str "9"), ("profile_pic_url", .str "http://p/9.jpg"),
      ("username", .str "u"), ("full_name", .str "U U"), ("is_private", .bool false)]),
    ("is_ad", .bool false)])])]

/-- An account-list element whose `id` is a number. -/
def numericId : List UInt8 := bytesOf "\x7b\"id\":5\x7d"

/-- An account-list element of a type the package has no constant for. -/
def carouselItem : List UInt8 :=
  bytesOf "\x7b\"id\":\"1\",\"code\":\"C\",\"type\":\"carousel\"\x7d"

/-- The account-list element of scenario 4 of the spec, with an unparseable
`created_time`, a `null` code and no `videos`. -/
def accountItem : List UInt8 :=
  bytesOf ("\x7b\"created_time\":\"not-a-number\",\"type\":\"image\","
    ++ "\"likes\":\x7b\"count\":5.0\x7d,\"comments\":\x7b\"count\":2.0\x7d,"
    ++ "\"caption\":\x7b\"text\":\"x\"\x7d,"
    ++ "\"images\":\x7b\"standard_resolution\":\x7b\"url\":\"http://i/2.jpg\","
    ++ "\"width\":0,\"height\":0\x7d\x7d,"
    ++ "\"user\":\x7b\"id\":\"9\",\"username\":\"u\",\"full_name\":\"U\","
    ++ "\"profile_picture\":\"http://p.jpg\"\x7d,\"id\":\"1\",\"code\":null\x7d")

/-- The payload `accountItem` holds. -/
def accountItemJson : Json :=
  .obj [("created_time", .str "not-a-number"), ("type", .str "image"),
    ("likes", .obj [("count", .num "5.0")]), ("comments", .obj [("count", .num "2.0")]),
    ("caption", .obj [("text", .str "x")]),
    ("images", .obj [("standard_resolution", .obj [("url", .str "http://i/2.jpg"),
      ("width", .num "0"), ("height", .num "0")])]),
    ("user", .obj [("id", .str "9"), ("username", .str "u"), ("full_name", .str "U"),
      ("profile_picture", .str "http://p.jpg")]),
    ("id", .str "1"), ("code", .null)]

/-- The element `accountItem` with the `created_time` of scenario 3 of the spec. -/
def accountItemDated : List UInt8 :=
  bytesOf ("\x7b\"created_time\":\"1500000000\",\"type\":\"image\","
    ++ "\"likes\":\x7b\"count\":5.0\x7d,\"comments\":\x7b\"count\":2.0\x7d,"
    ++ "\"caption\":\x7b\"text\":\"x\"\x7d,"
    ++ "\"images\":\x7b\"standard_resolution\":\x7b\"url\":\"http://i/2.jpg\","
    ++ "\"width\":0,\"height\":0\x7d\x7d,"
    ++ "\"user\":\x7b\"id\":\"9\",\"username\":\"u\",\"full_name\":\"U\","
    ++ "\"profile_picture\":\"http://p.jpg\"\x7d,\"id\":\"1\",\"code\":null\x7d")

/-- The payload `accountItemDated` holds. -/
def accountItemDatedJson : Json :=
  .obj [("created_time", .str "1500000000"), ("type", .str "image"),
    ("likes", .obj [("count", .num "5.0")]), ("comments", .obj [("count", .num "2.0")]),
    ("caption", .obj [("text", .str "x")]),
    ("images", .obj [("standard_resolution", .obj [("url", .str "http://i/2.jpg"),
      ("width", .num "0"), ("height", .num "0")])]),
    ("user", .obj [("id", .str "9"), ("username", .str "u"), ("full_name", .str "U"),
      ("profile_picture", .str "http://p.jpg")]),
    ("id", .str "1"), ("code", .null)]

/-- An account-list element of type `video` that carries no `videos`. -/
def videoItem : List UInt8 :=
  bytesOf ("\x7b\"type\":\"video\","
    ++ "\"images\":\x7b\"standard_resolution\":\x7b\"url\":\"http://i/2.jpg\"\x7d\x7d\x7d")

/-- The payload `videoItem` holds. -/
def videoItemJson : Json :=
  .obj [("type", .str "video"),
    ("images", .obj [("standard_resolution", .obj [("url", .str "http://i/2.jpg")])])]

/-- The search-list element of scenario 5 of the spec. -/
def searchItem : List UInt8 :=
  bytesOf ("\x7b\"is_video\":true,\"display_src\":\"http://d.jpg\",\"caption\":\"c\","
    ++ "\"date\":1500000000.0,\"owner\":\x7b\"id\":\"9\"\x7d,"
    ++ "\"likes\":\x7b\"count\":1\x7d,\"comments\":\x7b\"count\":0\x7d,"
    ++ "\"id\":\"1\",\"code\":\"C\"\x7d")

/-- The payload `searchItem` holds. -/
def searchItemJson : Json :=
  .obj [("is_video", .bool true), ("display_src", .str "http://d.jpg"), ("caption", .str "c"),
    ("date", .num "1500000000.0"), ("owner", .obj [("id", .str "9")]),
    ("likes", .obj [("count", .num "1")]), ("comments", .obj [("count", .num "0")]),
    ("id", .str "1"), ("code", .str "C")]

/-! ### `Update` -/

/-- A Go `error` that is not `nil`. -/
structure GoError where
  text : String
  deriving DecidableEq, Repr

/-- Go `(*Media).Update`: the receiver after the call.  `GetMediaByCode` is declared in
a sibling file of the package that is not part of the sources at hand, so what
it returns for a code, a record and an `error` (`none` is `nil`), is a
parameter.  `Update` itself has no result. -/
def Media.Update (GetMediaByCode : String → Media × Option GoError) (m : Media) : Media :=
  match (GetMediaByCode m.Code).2 with
  | none => (GetMediaByCode m.Code).1
  | some _ => m

/-- A stale record of code `ABC`. -/
def staleRecord : Media :=
  { Code := "ABC", ID := "42", Caption := "old", LikesCount := 1, Type_ := "image",
    MediaURL := "http://img/0.jpg", Owner := { ID := "9", Username := "u" } }

/-- The record a fetch of code `ABC` brings. -/
def freshRecord : Media :=
  { Code := "ABC", ID := "42", Caption := "new", LikesCount := 7, CommentsCount := 3,
    Date := 1500000000, Type_ := "video", MediaURL := "http://v/1.mp4",
    Owner := { ID := "9", Username := "u2", FullName := "U U", Private := true } }

/-- A fetch that knows the code `ABC` only. -/
def fetchABC (code : String) : Media × Option GoError :=
  if code = "ABC" then (freshRecord, none) else ({}, some ⟨"not found"⟩)

/-- A fetch that fails on every code, with a half-filled record next to the error. -/
def fetchNothing (_code : String) : Media × Option GoError :=
  ({ Code := "ZZZ", Caption := "junk" }, some ⟨"no network"⟩)

/-! ### Names of the declared fields, and more sample buffers -/

/-- The names under which the struct of a decoder declares its fields: the `json`
tags of `mediaJSON`. -/
def Decoder.fieldNames : Decoder → List String
  | .mediaPage => ["graphql"]
  | .accountMediaList =>
    ["id", "code", "user", "images", "created_time", "caption", "likes", "comments", "type",
      "videos"]
  | .searchMediaList =>
    ["comments_disabled", "id", "owner", "thumbnail_src", "is_video", "code", "date",
      "display_src", "caption", "comments", "likes"]

/-- An account-list element that has an `id` only. -/
def idOnly : List UInt8 := bytesOf "\x7b\"id\":\"1\"\x7d"

/-- The element `idOnly` with one more member, under the name `ID`. -/
def idTwice : List UInt8 := bytesOf "\x7b\"id\":\"1\",\"ID\":\"2\"\x7d"

/-- The element `idOnly` with one more member, under a name no field has. -/
def idAndExtra : List UInt8 :=
  bytesOf "\x7b\"id\":\"1\",\"extra\":[1,\x7b\"a\":null\x7d]\x7d"

/-- A search-list element whose `owner` carries more than an `id`. -/
def searchItemOwned : List UInt8 :=
  bytesOf ("\x7b\"owner\":\x7b\"id\":\"9\",\"username\":\"u\",\"full_name\":\"U U\","
    ++ "\"profile_pic_url\":\"http://p/9.jpg\",\"is_private\":true\x7d,\"id\":\"1\"\x7d")

/-- The payload `searchItemOwned` holds. -/
def searchItemOwnedJson : Json :=
  .obj [("owner", .obj [("id", .str "9"), ("username", .str "u"), ("full_name", .str "U U"),
      ("profile_pic_url", .str "http://p/9.jpg"), ("is_private", .bool true)]),
    ("id", .str "1")]

/-- A media page that has a caption and both URLs, and no `is_video`. -/
def plainPage : List UInt8 :=
  bytesOf ("\x7b\"graphql\":\x7b\"shortcode_media\":\x7b\"display_url\":\"http://img/1.jpg\","
    ++ "\"video_url\":\"http://v/1.mp4\","
    ++ "\"edge_media_to_caption\":\x7b\"edges\":[\x7b\"node\":\x7b\"text\":\"hi\"\x7d\x7d]\x7d"
    ++ "\x7d\x7d\x7d")

/-- The payload `plainPage` holds. -/
def plainPageJson : Json :=
  .obj [("graphql", .obj [("shortcode_media", .obj [
    ("display_url", .str "http://img/1.jpg"), ("video_url", .str "http://v/1.mp4"),
    ("edge_media_to_caption", .obj [("edges", .arr [
      .obj [("node", .obj [("text", .str "hi")])]])])])])]

/-- The `taken_at_timestamp` of a media-page payload, read as an integer. -/
def takenAt (v : Json) : Int := ((shortcodeMedia v).member "taken_at_timestamp").asInt

/-- The `edge_media_to_comment.count` of a media-page payload, read as an integer. -/
def commentCount (v : Json) : Int :=
  (((shortcodeMedia v).member "edge_media_to_comment").member "count").asInt

/-- The `edge_media_preview_like.count` of a media-page payload, read as an integer. -/
def likeCount (v : Json) : Int :=
  (((shortcodeMedia v).member "edge_media_preview_like").member "count").asInt

/-- A media page taken one second before the epoch, with `2^32 + 5` comments. -/
def wrappedPage : List UInt8 :=
  bytesOf ("\x7b\"graphql\":\x7b\"shortcode_media\":\x7b"
    ++ "\"edge_media_to_caption\":\x7b\"edges\":[\x7b\"node\":\x7b\"text\":\"hi\"\x7d\x7d]\x7d,"
    ++ "\"edge_media_to_comment\":\x7b\"count\":4294967301\x7d,\"taken_at_timestamp\":-1,"
    ++ "\"edge_media_preview_like\":\x7b\"count\":7\x7d\x7d\x7d\x7d")

/-- The payload `wrappedPage` holds. -/
def wrappedPageJson : Json :=
  .obj [("graphql", .obj [("shortcode_media", .obj [
    ("edge_media_to_caption", .obj [("edges", .arr [
      .obj [("node", .obj [("text", .str "hi")])]])]),
    ("edge_media_to_comment", .obj [("count", .num "4294967301")]),
    ("taken_at_timestamp", .num "-1"),
    ("edge_media_preview_like", .obj [("count", .num "7")])])])]

/-- The search-list element of scenario 5 with comments disabled and a thumbnail. -/
def searchItemThumb : List UInt8 :=
  bytesOf ("\x7b\"comments_disabled\":true,\"thumbnail_src\":\"http://t.jpg\","
    ++ "\"is_video\":true,\"display_src\":\"http://d.jpg\",\"caption\":\"c\","
    ++ "\"date\":1500000000.0,\"owner\":\x7b\"id\":\"9\"\x7d,"
    ++ "\"likes\":\x7b\"count\":1\x7d,\"comments\":\x7b\"count\":0\x7d,"
    ++ "\"id\":\"1\",\"code\":\"C\"\x7d")

/-- The payload `searchItemThumb` holds. -/
def searchItemThumbJson : Json :=
  .obj [("comments_disabled", .bool true), ("thumbnail_src", .str "http://t.jpg"),
    ("is_video", .bool true), ("display_src", .str "http://d.jpg"), ("caption", .str "c"),
    ("date", .num "1500000000.0"), ("owner", .obj [("id", .str "9")]),
    ("likes", .obj [("count", .num "1")]), ("comments", .obj [("count", .num "0")]),
    ("id", .str "1"), ("code", .str "C")]

/-- The members of `shortcode_media` in the two pages below, `__typename` left out. -/
def stillMembers : List (String × Json) :=
  [("is_video", .bool false), ("display_url", .str "http://img/1.jpg"),
    ("video_url", .str "http://v/1.mp4"),
    ("edge_media_to_caption", .obj [("edges", .arr [
      .obj [("node", .obj [("text", .str "hi")])]])])]

/-- A media page of `__typename` `GraphVideo` whose `is_video` is `false`. -/
def stillPage : List UInt8 :=
  bytesOf ("\x7b\"graphql\":\x7b\"shortcode_media\":\x7b\"__typename\":\"GraphVideo\","
    ++ "\"is_video\":false,\"display_url\":\"http://img/1.jpg\","
    ++ "\"video_url\":\"http://v/1.mp4\","
    ++ "\"edge_media_to_caption\":\x7b\"edges\":[\x7b\"node\":\x7b\"text\":\"hi\"\x7d\x7d]\x7d"
    ++ "\x7d\x7d\x7d")

/-- The payload `stillPage` holds. -/
def stillPageJson : Json :=
  .obj [("graphql", .obj [("shortcode_media",
    .obj (("__typename", .str "GraphVideo") :: stillMembers))])]

/-- The page `stillPage` under the `__typename` `GraphImage`. -/
def stillPageAsImage : List UInt8 :=
  bytesOf ("\x7b\"graphql\":\x7b\"shortcode_media\":\x7b\"__typename\":\"GraphImage\","
    ++ "\"is_video\":false,\"display_url\":\"http://img/1.jpg\","
    ++ "\"video_url\":\"http://v/1.mp4\","
    ++ "\"edge_media_to_caption\":\x7b\"edges\":[\x7b\"node\":\x7b\"text\":\"hi\"\x7d\x7d]\x7d"
    ++ "\x7d\x7d\x7d")

/-- The payload `stillPageAsImage` holds. -/
def stillPageAsImageJson : Json :=
  .obj [("graphql", .obj [("shortcode_media",
    .obj (("__typename", .str "GraphImage") :: stillMembers))])]

/-- A JSON value that is an array, a number, a string or a boolean: neither an
object nor `null`. -/
def Json.isArrayOrScalar : Json → Bool
  | .arr _ => true
  | .num _ => true
  | .str _ => true
  | .bool _ => true
  | _ => false

/-- The JSON text `null`. -/
def nullText : List UInt8 := bytesOf "null"

/-- The JSON text of an array of one number. -/
def arrayText : List UInt8 := bytesOf "[1]"

/-- The number the digits before the point of a decimal literal denote: for a
literal without sign and exponent, its value truncated toward zero. -/
def integerPart (lit : String) : Nat :=
  decimalValueFrom 0 (lit.data.takeWhile (fun c => c.toNat ≠ 46))

/-- The digits after the point of a decimal literal; none when it has no point. -/
def fractionDigits (lit : String) : List Char :=
  (lit.data.dropWhile (fun c => c.toNat ≠ 46)).drop 1

/-- The number the digits after the point of a decimal literal denote: with `f` such
digits, the fractional part of the number written is `fractionPart / 10^f`. -/
def fractionPart (lit : String) : Nat := decimalValueFrom 0 (fractionDigits lit)

/-- A literal written as decimal digits, or as digits, a point and digits: no sign
and no exponent.  The number it writes is
`integerPart + fractionPart / 10^f`, and truncated toward zero it is
`integerPart`. -/
def isPlainDecimal (lit : String) : Bool :=
  !(lit.data.takeWhile (fun c => c.toNat ≠ 46)).isEmpty
    && (lit.data.takeWhile (fun c => c.toNat ≠ 46)).all
        (fun c => decide (48 ≤ c.toNat ∧ c.toNat ≤ 57))
    && (fractionDigits lit).all (fun c => decide (48 ≤ c.toNat ∧ c.toNat ≤ 57))

/-- The fractional part of the number a plain decimal literal writes is at most
`1 - 2^(-s)`: with `F` the number its `f` fraction digits denote,
`F * 2^s + 10^f ≤ 10^f * 2^s`.  For `s = 0` the number is an integer. -/
def fractionAtMost (s : Nat) (lit : String) : Bool :=
  decide (fractionPart lit * 2 ^ s + 10 ^ (fractionDigits lit).length
    ≤ 10 ^ (fractionDigits lit).length * 2 ^ s)

/-- An account-list element with `4.7` likes and `2.5` comments. -/
def fractionalCounts : List UInt8 :=
  bytesOf "\x7b\"likes\":\x7b\"count\":4.7\x7d,\"comments\":\x7b\"count\":2.5\x7d\x7d"

/-- The payload `fractionalCounts` holds. -/
def fractionalCountsJson : Json :=
  .obj [("likes", .obj [("count", .num "4.7")]), ("comments", .obj [("count", .num "2.5")])]

/-- A search-list element dated nine tenths of a second past `1500000000`. -/
def fractionalDate : List UInt8 := bytesOf "\x7b\"date\":1500000000.9\x7d"

/-- The payload `fractionalDate` holds. -/
def fractionalDateJson : Json := .obj [("date", .num "1500000000.9")]

/-- An account-list element whose count of likes is just below `5`. -/
def almostFiveLikes : List UInt8 :=
  bytesOf "\x7b\"likes\":\x7b\"count\":4.9999999999999999999\x7d\x7d"

/-- A search-list element dated `2^53 + 1`. -/
def lateDate : List UInt8 := bytesOf "\x7b\"date\":9007199254740993\x7d"

/-! ### Numerals -/

/-- A literal that writes an integer of `int64` the way `strconv.ParseInt` reads it:
decimal digits and nothing else, after a `-` for a negative number (a `+` is
taken too; JSON never writes one), with a value in `[-2^63, 2^63)`.  A point
or an exponent makes a literal no integer numeral, whatever its value: `1.0`
and `1e2` are none. -/
def isIntegerNumeral (lit : String) : Bool :=
  match lit.data with
  | [] => false
  | c :: rest =>
    if c.toNat = 45 then
      isDecimal (String.mk rest) && decide (decimalValue (String.mk rest) ≤ 2 ^ 63)
    else if c.toNat = 43 then
      isDecimal (String.mk rest) && decide (decimalValue (String.mk rest) < 2 ^ 63)
    else isDecimal lit && decide (decimalValue lit < 2 ^ 63)

mutual
/-- Every number in `v`, at any depth, is written with at most `n` characters. -/
def Json.numbersWithin (n : Nat) : Json → Bool
  | .num lit => decide (lit.length ≤ n)
  | .arr xs => Json.numbersWithinItems n xs
  | .obj ms => Json.numbersWithinMembers n ms
  | _ => true
/-- `Json.numbersWithin` for every item of an array. -/
def Json.numbersWithinItems (n : Nat) : List Json → Bool
  | [] => true
  | x :: xs => x.numbersWithin n && Json.numbersWithinItems n xs
/-- `Json.numbersWithin` for the value of every member of an object. -/
def Json.numbersWithinMembers (n : Nat) : List (String × Json) → Bool
  | [] => true
  | kv :: ms => kv.2.numbersWithin n && Json.numbersWithinMembers n ms
end

/-- A media page whose `taken_at_timestamp` is written with an exponent. -/
def exponentTimestampPage : List UInt8 :=
  bytesOf "\x7b\"graphql\":\x7b\"shortcode_media\":\x7b\"taken_at_timestamp\":1e2\x7d\x7d\x7d"

/-- The payload `exponentTimestampPage` holds. -/
def exponentTimestampPageJson : Json :=
  .obj [("graphql", .obj [("shortcode_media", .obj [("taken_at_timestamp", .num "1e2")])])]

/-- The element `idOnly` with one more member, under a name no field has, that nests
`n` arrays. -/
def idAndNested (n : Nat) : List UInt8 :=
  bytesOf "\x7b\"id\":\"1\",\"extra\":" ++ List.replicate n 0x5b ++ List.replicate n 0x5d
    ++ bytesOf "\x7d"

/-! ## Theorems

### The binders of `encoding/json` against the reading of a payload -/

theorem bitLength_eq (fuel n : Nat) (h : n ≤ fuel) :
    bitLength fuel n = if n = 0 then 0 else Nat.log2 n + 1 := by
  induction fuel generalizing n with
  | zero =>
    have : n = 0 := by omega
    simp [bitLength, this]
  | succ fuel ih =>
    rw [bitLength]
    by_cases h0 : n = 0
    · simp [h0]
    · rw [if_neg h0, if_neg h0, ih (n / 2) (by omega)]
      by_cases h2 : n / 2 = 0
      · have h1 : n = 1 := by omega
        subst h1
        rw [if_pos h2, Nat.log2]
        simp
      · rw [if_neg h2]
        conv_rhs => rw [Nat.log2]
        rw [if_pos (by omega)]

/-- The leading binary digit is found where `Nat.log2` finds it. -/
theorem log2Floor_eq (n : Nat) : log2Floor n = Nat.log2 n := by
  rw [log2Floor, bitLength_eq n n (Nat.le_refl n)]
  by_cases h0 : n = 0
  · subst h0
    rw [Nat.log2]
    simp
  · rw [if_neg h0]
    simp

theorem bindString_isSome (v : Json) (d : String) : (bindString v d).isSome = fitsString v := by
  cases v <;> rfl

theorem bindBool_isSome (v : Json) (d : Bool) : (bindBool v d).isSome = fitsBool v := by
  cases v <;> rfl

theorem bindInt_isSome (v : Json) (d : Int) : (bindInt v d).isSome = fitsInt v := by
  cases v <;> rfl

theorem bindFloat_isSome (v : Json) (d : F64) : (bindFloat v d).isSome = fitsFloat v := by
  cases v <;> rfl

theorem bindString_read {v : Json} {s : String} (h : bindString v "" = some s) :
    s = v.asString := by
  cases v <;> simp_all [bindString, Json.asString]

theorem bindBool_read {v : Json} {b : Bool} (h : bindBool v false = some b) : b = v.asBool := by
  cases v <;> simp_all [bindBool, Json.asBool]

theorem bindInt_read {v : Json} {n : Int} (h : bindInt v 0 = some n) : n = v.asInt := by
  cases v <;> simp_all [bindInt, Json.asInt]

theorem bindFloat_read {v : Json} {x : F64} (h : bindFloat v F64.zero = some x) :
    x = v.asFloat := by
  cases v <;> simp_all [bindFloat, Json.asFloat]

/-- Binding an object succeeds exactly when each member fits the field it picks. -/
theorem bindStruct_isSome {σ : Type} {field : String → Json → σ → Option σ}
    {fits : String → Json → Bool} (H : ∀ k v d, (field k v d).isSome = fits k v)
    (v : Json) (d : σ) : (bindStruct field v d).isSome = fitsStruct fits v := by
  cases v with
  | obj ms =>
    simp only [bindStruct, fitsStruct]
    induction ms generalizing d with
    | nil => simp
    | cons kv ms ih =>
      simp only [List.foldlM_cons, List.all_cons]
      have h1 := H (foldName kv.1) kv.2 d
      cases hf : field (foldName kv.1) kv.2 d with
      | none => rw [hf] at h1; simp at h1; simp [← h1]
      | some d1 => rw [hf] at h1; simp at h1; simp [← h1, ih]
  | _ => simp [bindStruct, fitsStruct]

theorem bindItems_isSome {σ : Type} (elem : Json → σ → Option σ) (zero : σ) (xs : List Json) :
    (bindItems elem zero xs).isSome = xs.all (fun x => (elem x zero).isSome) := by
  induction xs with
  | nil => simp [bindItems]
  | cons x xs ih =>
    rw [bindItems, List.all_cons, ← ih]
    cases elem x zero <;> cases bindItems elem zero xs <;> simp

/-- Binding an array succeeds exactly when each item fits the element type. -/
theorem bindSlice_isSome {σ : Type} {elem : Json → σ → Option σ} {fits : Json → Bool}
    (H : ∀ v d, (elem v d).isSome = fits v) (zero : σ) (v : Json) (d : List σ) :
    (bindSlice elem zero v d).isSome = fitsSlice fits v := by
  cases v with
  | arr xs => simp only [bindSlice, fitsSlice, bindItems_isSome, H]
  | _ => simp [bindSlice, fitsSlice]

theorem bindItems_eq_map {σ : Type} {elem : Json → σ → Option σ} {zero : σ} {g : Json → σ}
    {xs : List Json} {ys : List σ}
    (H : ∀ x ∈ xs, ∀ y, elem x zero = some y → y = g x)
    (h : bindItems elem zero xs = some ys) : ys = xs.map g := by
  induction xs generalizing ys with
  | nil => simp [bindItems] at h; simp [h]
  | cons x xs ih =>
    rw [bindItems] at h
    cases hx : elem x zero with
    | none => simp [hx] at h
    | some y =>
      cases hxs : bindItems elem zero xs with
      | none => simp [hx, hxs] at h
      | some zs =>
        simp [hx, hxs] at h
        subst h
        rw [List.map_cons, H x (List.mem_cons_self _ _) y hx,
          ih (fun a ha => H a (List.mem_cons_of_mem _ ha)) hxs]

theorem find_none_of_not_mem {n : String} {ms : List (String × Json)}
    (h : n ∉ ms.map (fun kv => foldName kv.1)) :
    ms.find? (fun kv => foldName kv.1 = n) = none := by
  simp only [List.find?_eq_none]
  intro kv hkv hk
  apply h
  simp only [List.mem_map]
  exact ⟨kv, hkv, by simpa using hk⟩

/-- Members that pick other fields leave the field read by `π` as it was. -/
theorem foldlM_frame {σ α : Type} {field : String → Json → σ → Option σ} (π : σ → α) (n : String)
    (H : ∀ k v d d', field k v d = some d' → k ≠ n → π d' = π d)
    (ms : List (String × Json)) (d d' : σ)
    (hn : n ∉ ms.map (fun kv => foldName kv.1))
    (h : ms.foldlM (fun acc kv => field (foldName kv.1) kv.2 acc) d = some d') :
    π d' = π d := by
  induction ms generalizing d with
  | nil => simp at h; rw [h]
  | cons kv ms ih =>
    simp only [List.foldlM_cons, Option.bind_eq_bind, Option.bind_eq_some] at h
    obtain ⟨d1, h1, h2⟩ := h
    simp only [List.map_cons, List.mem_cons, not_or] at hn
    rw [ih d1 hn.2 h2]
    exact H _ _ _ _ h1 (fun e => hn.1 e.symm)

/-- In a struct bound from an object of distinct names, the field read by `π` is
what its binder `b` makes of the member under the name `n` of the field. -/
theorem bindStruct_member {σ α : Type} {field : String → Json → σ → Option σ} (π : σ → α)
    (n : String) (b : Json → α → Option α) {v : Json} {d d' : σ}
    (hnull : b .null (π d) = some (π d))
    (H : ∀ k v d d', field k v d = some d' →
      if k = n then b v (π d) = some (π d') else π d' = π d)
    (hu : v.distinctNames) (h : bindStruct field v d = some d') :
    b (v.member n) (π d) = some (π d') := by
  have Hne : ∀ k v d d', field k v d = some d' → k ≠ n → π d' = π d := by
    intro k v d d' hf hk
    have := H k v d d' hf
    rwa [if_neg hk] at this
  cases v with
  | obj ms =>
    simp only [bindStruct] at h
    simp only [Json.distinctNames, Json.members] at hu
    simp only [Json.member, Json.members]
    induction ms generalizing d with
    | nil => simp at h; simp [← h, hnull]
    | cons kv ms ih =>
      simp only [List.foldlM_cons, Option.bind_eq_bind, Option.bind_eq_some] at h
      obtain ⟨d1, h1, h2⟩ := h
      simp only [List.map_cons, List.nodup_cons] at hu
      by_cases hk : foldName kv.1 = n
      · have h3 := H _ _ _ _ h1
        rw [if_pos hk] at h3
        have h4 := foldlM_frame π n Hne ms d1 d' (hk ▸ hu.1) h2
        simp [List.find?_cons, hk, h3, h4]
      · have h3 := Hne _ _ _ _ h1 hk
        have := ih (d := d1) (by rw [h3]; exact hnull) hu.2 h2
        simp only [List.find?_cons, hk, decide_False]
        rw [← h3]; exact this
  | _ =>
    simp only [bindStruct] at h
    first
      | (cases h; simpa [Json.member, Json.members] using hnull)
      | (simp at h)

theorem uniqueNames_distinct {v : Json} (hu : v.uniqueNames = true) : v.distinctNames := by
  cases v with
  | obj ms =>
    simp only [Json.uniqueNames, Bool.and_eq_true, decide_eq_true_eq] at hu
    exact hu.1
  | _ => simp [Json.distinctNames, Json.members]

theorem uniqueNamesMembers_find {ms : List (String × Json)}
    (h : Json.uniqueNamesMembers ms = true) (p : String × Json → Bool) (kv : String × Json)
    (hf : ms.find? p = some kv) : kv.2.uniqueNames = true := by
  induction ms with
  | nil => simp at hf
  | cons x ms ih =>
    simp only [Json.uniqueNamesMembers, Bool.and_eq_true] at h
    rw [List.find?_cons] at hf
    cases hp : p x with
    | true => simp [hp] at hf; subst hf; exact h.1
    | false => simp [hp] at hf; exact ih h.2 hf

theorem uniqueNames_member {v : Json} (hu : v.uniqueNames = true) (n : String) :
    (v.member n).uniqueNames = true := by
  cases v with
  | obj ms =>
    simp only [Json.uniqueNames, Bool.and_eq_true] at hu
    simp only [Json.member, Json.members]
    cases hf : ms.find? (fun kv => foldName kv.1 = n) with
    | none => simp [Json.uniqueNames]
    | some kv => exact uniqueNamesMembers_find hu.2 _ kv hf
  | _ => simp [Json.member, Json.members, Json.uniqueNames]

theorem uniqueNamesItems_mem {xs : List Json} (h : Json.uniqueNamesItems xs = true) :
    ∀ x ∈ xs, x.uniqueNames = true := by
  induction xs with
  | nil => simp
  | cons y ys ih =>
    simp only [Json.uniqueNamesItems, Bool.and_eq_true] at h
    intro x hx
    rcases List.mem_cons.mp hx with rfl | hx
    · exact h.1
    · exact ih h.2 x hx

theorem uniqueNames_items {v : Json} (hu : v.uniqueNames = true) :
    ∀ x ∈ v.items, x.uniqueNames = true := by
  cases v with
  | arr xs =>
    simp only [Json.uniqueNames] at hu
    exact uniqueNamesItems_mem hu
  | _ => simp [Json.items]

/-- A slice bound from an array holds the reading of each item, in order. -/
theorem bindSlice_read {σ : Type} {elem : Json → σ → Option σ} {zero : σ} {read : Json → σ}
    (H : ∀ x, x.uniqueNames = true → ∀ y, elem x zero = some y → y = read x)
    {v : Json} {d l : List σ} (hu : v.uniqueNames = true)
    (h : bindSlice elem zero v d = some l) : l = v.items.map read := by
  cases v with
  | arr xs =>
    simp only [bindSlice] at h
    simp only [Json.items]
    exact bindItems_eq_map (fun x hx y hy => H x (uniqueNames_items hu x hx) y hy) h
  | null => simp [bindSlice] at h; simp [Json.items, h]
  | _ => simp [bindSlice] at h

/-! ### Struct by struct -/

theorem CaptionNode_field_spec (k : String) (v : Json) (d d' : CaptionNode)
    (h : CaptionNode.field k v d = some d') :
    (if k = "text" then bindString v d.Text = some d'.Text
      else d'.Text = d.Text) := by
  unfold CaptionNode.field at h
  by_cases h0 : k = "text"
  · rw [if_pos h0] at h; obtain ⟨x, hx, rfl⟩ := Option.map_eq_some'.mp h
    subst h0; simp [hx]
  rw [if_neg h0] at h
  cases h; simp [*]

theorem CaptionNode_field_isSome (k : String) (v : Json) (d : CaptionNode) :
    (CaptionNode.field k v d).isSome = CaptionNode.fits k v := by
  unfold CaptionNode.field CaptionNode.fits
  by_cases h0 : k = "text"
  · rw [if_pos h0, if_pos h0, Option.isSome_map']; exact bindString_isSome _ _
  rw [if_neg h0, if_neg h0]
  rfl

/-- Bound from a payload of unique names, a caption node is its reading. -/
theorem CaptionNode_bind_read {v : Json} {d : CaptionNode} (hu : v.uniqueNames = true)
    (h : bindStruct CaptionNode.field v {} = some d) : d = CaptionNode.read v := by
  have hd := uniqueNames_distinct hu
  have e0 := bindStruct_member (fun s : CaptionNode => s.Text) "text" bindString rfl
    (fun k x s s' hf => (CaptionNode_field_spec k x s s' hf)) hd h
  have r0 : d.Text = (v.member "text").asString := bindString_read e0
  cases d
  simp only [CaptionNode.read, CaptionNode.mk.injEq]
  exact r0

theorem CaptionEdge_field_spec (k : String) (v : Json) (d d' : CaptionEdge)
    (h : CaptionEdge.field k v d = some d') :
    (if k = "node" then bindStruct CaptionNode.field v d.Node = some d'.Node
      else d'.Node = d.Node) := by
  unfold CaptionEdge.field at h
  by_cases h0 : k = "node"
  · rw [if_pos h0] at h; obtain ⟨x, hx, rfl⟩ := Option.map_eq_some'.mp h
    subst h0; simp [hx]
  rw [if_neg h0] at h
  cases h; simp [*]

theorem CaptionEdge_field_isSome (k : String) (v : Json) (d : CaptionEdge) :
    (CaptionEdge.field k v d).isSome = CaptionEdge.fits k v := by
  unfold CaptionEdge.field CaptionEdge.fits
  by_cases h0 : k = "node"
  · rw [if_pos h0, if_pos h0, Option.isSome_map']; exact bindStruct_isSome CaptionNode_field_isSome _ _
  rw [if_neg h0, if_neg h0]
  rfl

/-- Bound from a payload of unique names, a caption edge is its reading. -/
theorem CaptionEdge_bind_read {v : Json} {d : CaptionEdge} (hu : v.uniqueNames = true)
    (h : bindStruct CaptionEdge.field v {} = some d) : d = CaptionEdge.read v := by
  have hd := uniqueNames_distinct hu
  have e0 := bindStruct_member (fun s : CaptionEdge => s.Node) "node" (bindStruct CaptionNode.field) rfl
    (fun k x s s' hf => (CaptionEdge_field_spec k x s s' hf)) hd h
  have r0 : d.Node = CaptionNode.read (v.member "node") :=
    CaptionNode_bind_read (uniqueNames_member hu "node") e0
  cases d
  simp only [CaptionEdge.read, CaptionEdge.mk.injEq]
  exact r0

theorem EdgeMediaToCaption_field_spec (k : String) (v : Json) (d d' : EdgeMediaToCaption)
    (h : EdgeMediaToCaption.field k v d = some d') :
    (if k = "edges" then bindSlice (bindStruct CaptionEdge.field) {} v d.Edges = some d'.Edges
      else d'.Edges = d.Edges) := by
  unfold EdgeMediaToCaption.field at h
  by_cases h0 : k = "edges"
  · rw [if_pos h0] at h; obtain ⟨x, hx, rfl⟩ := Option.map_eq_some'.mp h
    subst h0; simp [hx]
  rw [if_neg h0] at h
  cases h; simp [*]

theorem EdgeMediaToCaption_field_isSome (k : String) (v : Json) (d : EdgeMediaToCaption) :
    (EdgeMediaToCaption.field k v d).isSome = EdgeMediaToCaption.fits k v := by
  unfold EdgeMediaToCaption.field EdgeMediaToCaption.fits
  by_cases h0 : k = "edges"
  · rw [if_pos h0, if_pos h0, Option.isSome_map']; exact bindSlice_isSome (bindStruct_isSome CaptionEdge_field_isSome) _ _ _
  rw [if_neg h0, if_neg h0]
  rfl

/-- Bound from a payload of unique names, `edge_media_to_caption` is its reading. -/
theorem EdgeMediaToCaption_bind_read {v : Json} {d : EdgeMediaToCaption} (hu : v.uniqueNames = true)
    (h : bindStruct EdgeMediaToCaption.field v {} = some d) : d = EdgeMediaToCaption.read v := by
  have hd := uniqueNames_distinct hu
  have e0 := bindStruct_member (fun s : EdgeMediaToCaption => s.Edges) "edges" (bindSlice (bindStruct CaptionEdge.field) {}) rfl
    (fun k x s s' hf => (EdgeMediaToCaption_field_spec k x s s' hf)) hd h
  have r0 : d.Edges = (v.member "edges").items.map CaptionEdge.read :=
    bindSlice_read (fun x hx y hy => CaptionEdge_bind_read hx hy) (uniqueNames_member hu "edges") e0
  cases d
  simp only [EdgeMediaToCaption.read, EdgeMediaToCaption.mk.injEq]
  exact r0

theorem EdgeCount_field_spec (k : String) (v : Json) (d d' : EdgeCount)
    (h : EdgeCount.field k v d = some d') :
    (if k = "count" then bindInt v d.Count = some d'.Count
      else d'.Count = d.Count) := by
  unfold EdgeCount.field at h
  by_cases h0 : k = "count"
  · rw [if_pos h0] at h; obtain ⟨x, hx, rfl⟩ := Option.map_eq_some'.mp h
    subst h0; simp [hx]
  rw [if_neg h0] at h
  cases h; simp [*]

theorem EdgeCount_field_isSome (k : String) (v : Json) (d : EdgeCount) :
    (EdgeCount.field k v d).isSome = EdgeCount.fits k v := by
  unfold EdgeCount.field EdgeCount.fits
  by_cases h0 : k = "count"
  · rw [if_pos h0, if_pos h0, Option.isSome_map']; exact bindInt_isSome _ _
  rw [if_neg h0, if_neg h0]
  rfl

/-- Bound from a payload of unique names, a counting edge is its reading. -/
theorem EdgeCount_bind_read {v : Json} {d : EdgeCount} (hu : v.uniqueNames = true)
    (h : bindStruct EdgeCount.field v {} = some d) : d = EdgeCount.read v := by
  have hd := uniqueNames_distinct hu
  have e0 := bindStruct_member (fun s : EdgeCount => s.Count) "count" bindInt rfl
    (fun k x s s' hf => (EdgeCount_field_spec k x s s' hf)) hd h
  have r0 : d.Count = (v.member "count").asInt := bindInt_read e0
  cases d
  simp only [EdgeCount.read, EdgeCount.mk.injEq]
  exact r0

theorem PageOwner_field_spec (k : String) (v : Json) (d d' : PageOwner)
    (h : PageOwner.field k v d = some d') :
    (if k = "id" then bindString v d.ID = some d'.ID
      else d'.ID = d.ID) ∧
    (if k = "profile_pic_url" then bindString v d.ProfilePicURL = some d'.ProfilePicURL
      else d'.ProfilePicURL = d.ProfilePicURL) ∧
    (if k = "username" then bindString v d.Username = some d'.Username
      else d'.Username = d.Username) ∧
    (if k = "full_name" then bindString v d.FullName = some d'.FullName
      else d'.FullName = d.FullName) ∧
    (if k = "is_private" then bindBool v d.IsPrivate = some d'.IsPrivate
      else d'.IsPrivate = d.IsPrivate) := by
  unfold PageOwner.field at h
  by_cases h0 : k = "id"
  · rw [if_pos h0] at h; obtain ⟨x, hx, rfl⟩ := Option.map_eq_some'.mp h
    subst h0; simp [hx]
  rw [if_neg h0] at h
  by_cases h1 : k = "profile_pic_url"
  · rw [if_pos h1] at h; obtain ⟨x, hx, rfl⟩ := Option.map_eq_some'.mp h
    subst h1; simp [hx]
  rw [if_neg h1] at h
  by_cases h2 : k = "username"
  · rw [if_pos h2] at h; obtain ⟨x, hx, rfl⟩ := Option.map_eq_some'.mp h
    subst h2; simp [hx]
  rw [if_neg h2] at h
  by_cases h3 : k = "full_name"
  · rw [if_pos h3] at h; obtain ⟨x, hx, rfl⟩ := Option.map_eq_some'.mp h
    subst h3; simp [hx]
  rw [if_neg h3] at h
  by_cases h4 : k = "is_private"
  · rw [if_pos h4] at h; obtain ⟨x, hx, rfl⟩ := Option.map_eq_some'.mp h
    subst h4; simp [hx]
  rw [if_neg h4] at h
  cases h; simp [*]

theorem PageOwner_field_isSome (k : String) (v : Json) (d : PageOwner) :
    (PageOwner.field k v d).isSome = PageOwner.fits k v := by
  unfold PageOwner.field PageOwner.fits
  by_cases h0 : k = "id"
  · rw [if_pos h0, if_pos h0, Option.isSome_map']; exact bindString_isSome _ _
  rw [if_neg h0, if_neg h0]
  by_cases h1 : k = "profile_pic_url"
  · rw [if_pos h1, if_pos h1, Option.isSome_map']; exact bindString_isSome _ _
  rw [if_neg h1, if_neg h1]
  by_cases h2 : k = "username"
  · rw [if_pos h2, if_pos h2, Option.isSome_map']; exact bindString_isSome _ _
  rw [if_neg h2, if_neg h2]
  by_cases h3 : k = "full_name"
  · rw [if_pos h3, if_pos h3, Option.isSome_map']; exact bindString_isSome _ _
  rw [if_neg h3, if_neg h3]
  by_cases h4 : k = "is_private"
  · rw [if_pos h4, if_pos h4, Option.isSome_map']; exact bindBool_isSome _ _
  rw [if_neg h4, if_neg h4]
  rfl

/-- Bound from a payload of unique names, the `owner` of a media page is its reading. -/
theorem PageOwner_bind_read {v : Json} {d : PageOwner} (hu : v.uniqueNames = true)
    (h : bindStruct PageOwner.field v {} = some d) : d = PageOwner.read v := by
  have hd := uniqueNames_distinct hu
  have e0 := bindStruct_member (fun s : PageOwner => s.ID) "id" bindString rfl
    (fun k x s s' hf => (PageOwner_field_spec k x s s' hf).1) hd h
  have r0 : d.ID = (v.member "id").asString := bindString_read e0
  have e1 := bindStruct_member (fun s : PageOwner => s.ProfilePicURL) "profile_pic_url" bindString rfl
    (fun k x s s' hf => (PageOwner_field_spec k x s s' hf).2.1) hd h
  have r1 : d.ProfilePicURL = (v.member "profile_pic_url").asString := bindString_read e1
  have e2 := bindStruct_member (fun s : PageOwner => s.Username) "username" bindString rfl
    (fun k x s s' hf => (PageOwner_field_spec k x s s' hf).2.2.1) hd h
  have r2 : d.Username = (v.member "username").asString := bindString_read e2
  have e3 := bindStruct_member (fun s : PageOwner => s.FullName) "full_name" bindString rfl
    (fun k x s s' hf => (PageOwner_field_spec k x s s' hf).2.2.2.1) hd h
  have r3 : d.FullName = (v.member "full_name").asString := bindString_read e3
  have e4 := bindStruct_member (fun s : PageOwner => s.IsPrivate) "is_private" bindBool rfl
    (fun k x s s' hf => (PageOwner_field_spec k x s s' hf).2.2.2.2) hd h
  have r4 : d.IsPrivate = (v.member "is_private").asBool := bindBool_read e4
  cases d
  simp only [PageOwner.read, PageOwner.mk.injEq]
  exact ⟨r0, r1, r2, r3, r4⟩

theorem ShortcodeMedia_field_spec (k : String) (v : Json) (d d' : ShortcodeMedia)
    (h : ShortcodeMedia.field k v d = some d') :
    (if k = "__typename" then bindString v d.Typename = some d'.Typename
      else d'.Typename = d.Typename) ∧
    (if k = "id" then bindString v d.ID = some d'.ID
      else d'.ID = d.ID) ∧
    (if k = "shortcode" then bindString v d.Shortcode = some d'.Shortcode
      else d'.Shortcode = d.Shortcode) ∧
    (if k = "display_url" then bindString v d.DisplayURL = some d'.DisplayURL
      else d'.DisplayURL = d.DisplayURL) ∧
    (if k = "video_url" then bindString v d.VideoURL = some d'.VideoURL
      else d'.VideoURL = d.VideoURL) ∧
    (if k = "is_video" then bindBool v d.IsVideo = some d'.IsVideo
      else d'.IsVideo = d.IsVideo) ∧
    (if k = "edge_media_to_caption" then bindStruct EdgeMediaToCaption.field v d.EdgeMediaToCaption = some d'.EdgeMediaToCaption
      else d'.EdgeMediaToCaption = d.EdgeMediaToCaption) ∧
    (if k = "edge_media_to_comment" then bindStruct EdgeCount.field v d.EdgeMediaToComment = some d'.EdgeMediaToComment
      else d'.EdgeMediaToComment = d.EdgeMediaToComment) ∧
    (if k = "taken_at_timestamp" then bindInt v d.TakenAtTimestamp = some d'.TakenAtTimestamp
      else d'.TakenAtTimestamp = d.TakenAtTimestamp) ∧
    (if k = "edge_media_preview_like" then bindStruct EdgeCount.field v d.EdgeMediaPreviewLike = some d'.EdgeMediaPreviewLike
      else d'.EdgeMediaPreviewLike = d.EdgeMediaPreviewLike) ∧
    (if k = "owner" then bindStruct PageOwner.field v d.Owner = some d'.Owner
      else d'.Owner = d.Owner) ∧
    (if k = "is_ad" then bindBool v d.IsAd = some d'.IsAd
      else d'.IsAd = d.IsAd) := by
  unfold ShortcodeMedia.field at h
  by_cases h0 : k = "__typename"
  · rw [if_pos h0] at h; obtain ⟨x, hx, rfl⟩ := Option.map_eq_some'.mp h
    subst h0; simp [hx]
  rw [if_neg h0] at h
  by_cases h1 : k = "id"
  · rw [if_pos h1] at h; obtain ⟨x, hx, rfl⟩ := Option.map_eq_some'.mp h
    subst h1; simp [hx]
  rw [if_neg h1] at h
  by_cases h2 : k = "shortcode"
  · rw [if_pos h2] at h; obtain ⟨x, hx, rfl⟩ := Option.map_eq_some'.mp h
    subst h2; simp [hx]
  rw [if_neg h2] at h
  by_cases h3 : k = "display_url"
  · rw [if_pos h3] at h; obtain ⟨x, hx, rfl⟩ := Option.map_eq_some'.mp h
    subst h3; simp [hx]
  rw [if_neg h3] at h
  by_cases h4 : k = "video_url"
  · rw [if_pos h4] at h; obtain ⟨x, hx, rfl⟩ := Option.map_eq_some'.mp h
    subst h4; simp [hx]
  rw [if_neg h4] at h
  by_cases h5 : k = "is_video"
  · rw [if_pos h5] at h; obtain ⟨x, hx, rfl⟩ := Option.map_eq_some'.mp h
    subst h5; simp [hx]
  rw [if_neg h5] at h
  by_cases h6 : k = "edge_media_to_caption"
  · rw [if_pos h6] at h; obtain ⟨x, hx, rfl⟩ := Option.map_eq_some'.mp h
    subst h6; simp [hx]
  rw [if_neg h6] at h
  by_cases h7 : k = "edge_media_to_comment"
  · rw [if_pos h7] at h; obtain ⟨x, hx, rfl⟩ := Option.map_eq_some'.mp h
    subst h7; simp [hx]
  rw [if_neg h7] at h
  by_cases h8 : k = "taken_at_timestamp"
  · rw [if_pos h8] at h; obtain ⟨x, hx, rfl⟩ := Option.map_eq_some'.mp h
    subst h8; simp [hx]
  rw [if_neg h8] at h
  by_cases h9 : k = "edge_media_preview_like"
  · rw [if_pos h9] at h; obtain ⟨x, hx, rfl⟩ := Option.map_eq_some'.mp h
    subst h9; simp [hx]
  rw [if_neg h9] at h
  by_cases h10 : k = "owner"
  · rw [if_pos h10] at h; obtain ⟨x, hx, rfl⟩ := Option.map_eq_some'.mp h
    subst h10; simp [hx]
  rw [if_neg h10] at h
  by_cases h11 : k = "is_ad"
  · rw [if_pos h11] at h; obtain ⟨x, hx, rfl⟩ := Option.map_eq_some'.mp h
    subst h11; simp [hx]
  rw [if_neg h11] at h
  cases h; simp [*]

theorem ShortcodeMedia_field_isSome (k : String) (v : Json) (d : ShortcodeMedia) :
    (ShortcodeMedia.field k v d).isSome = ShortcodeMedia.fits k v := by
  unfold ShortcodeMedia.field ShortcodeMedia.fits
  by_cases h0 : k = "__typename"
  · rw [if_pos h0, if_pos h0, Option.isSome_map']; exact bindString_isSome _ _
  rw [if_neg h0, if_neg h0]
  by_cases h1 : k = "id"
  · rw [if_pos h1, if_pos h1, Option.isSome_map']; exact bindString_isSome _ _
  rw [if_neg h1, if_neg h1]
  by_cases h2 : k = "shortcode"
  · rw [if_pos h2, if_pos h2, Option.isSome_map']; exact bindString_isSome _ _
  rw [if_neg h2, if_neg h2]
  by_cases h3 : k = "display_url"
  · rw [if_pos h3, if_pos h3, Option.isSome_map']; exact bindString_isSome _ _
  rw [if_neg h3, if_neg h3]
  by_cases h4 : k = "video_url"
  · rw [if_pos h4, if_pos h4, Option.isSome_map']; exact bindString_isSome _ _
  rw [if_neg h4, if_neg h4]
  by_cases h5 : k = "is_video"
  · rw [if_pos h5, if_pos h5, Option.isSome_map']; exact bindBool_isSome _ _
  rw [if_neg h5, if_neg h5]
  by_cases h6 : k = "edge_media_to_caption"
  · rw [if_pos h6, if_pos h6, Option.isSome_map']; exact bindStruct_isSome EdgeMediaToCaption_field_isSome _ _
  rw [if_neg h6, if_neg h6]
  by_cases h7 : k = "edge_media_to_comment"
  · rw [if_pos h7, if_pos h7, Option.isSome_map']; exact bindStruct_isSome EdgeCount_field_isSome _ _
  rw [if_neg h7, if_neg h7]
  by_cases h8 : k = "taken_at_timestamp"
  · rw [if_pos h8, if_pos h8, Option.isSome_map']; exact bindInt_isSome _ _
  rw [if_neg h8, if_neg h8]
  by_cases h9 : k = "edge_media_preview_like"
  · rw [if_pos h9, if_pos h9, Option.isSome_map']; exact bindStruct_isSome EdgeCount_field_isSome _ _
  rw [if_neg h9, if_neg h9]
  by_cases h10 : k = "owner"
  · rw [if_pos h10, if_pos h10, Option.isSome_map']; exact bindStruct_isSome PageOwner_field_isSome _ _
  rw [if_neg h10, if_neg h10]
  by_cases h11 : k = "is_ad"
  · rw [if_pos h11, if_pos h11, Option.isSome_map']; exact bindBool_isSome _ _
  rw [if_neg h11, if_neg h11]
  rfl

/-- Bound from a payload of unique names, `shortcode_media` is its reading. -/
theorem ShortcodeMedia_bind_read {v : Json} {d : ShortcodeMedia} (hu : v.uniqueNames = true)
    (h : bindStruct ShortcodeMedia.field v {} = some d) : d = ShortcodeMedia.read v := by
  have hd := uniqueNames_distinct hu
  have e0 := bindStruct_member (fun s : ShortcodeMedia => s.Typename) "__typename" bindString rfl
    (fun k x s s' hf => (ShortcodeMedia_field_spec k x s s' hf).1) hd h
  have r0 : d.Typename = (v.member "__typename").asString := bindString_read e0
  have e1 := bindStruct_member (fun s : ShortcodeMedia => s.ID) "id" bindString rfl
    (fun k x s s' hf => (ShortcodeMedia_field_spec k x s s' hf).2.1) hd h
  have r1 : d.ID = (v.member "id").asString := bindString_read e1
  have e2 := bindStruct_member (fun s : ShortcodeMedia => s.Shortcode) "shortcode" bindString rfl
    (fun k x s s' hf => (ShortcodeMedia_field_spec k x s s' hf).2.2.1) hd h
  have r2 : d.Shortcode = (v.member "shortcode").asString := bindString_read e2
  have e3 := bindStruct_member (fun s : ShortcodeMedia => s.DisplayURL) "display_url" bindString rfl
    (fun k x s s' hf => (ShortcodeMedia_field_spec k x s s' hf).2.2.2.1) hd h
  have r3 : d.DisplayURL = (v.member "display_url").asString := bindString_read e3
  have e4 := bindStruct_member (fun s : ShortcodeMedia => s.VideoURL) "video_url" bindString rfl
    (fun k x s s' hf => (ShortcodeMedia_field_spec k x s s' hf).2.2.2.2.1) hd h
  have r4 : d.VideoURL = (v.member "video_url").asString := bindString_read e4
  have e5 := bindStruct_member (fun s : ShortcodeMedia => s.IsVideo) "is_video" bindBool rfl
    (fun k x s s' hf => (ShortcodeMedia_field_spec k x s s' hf).2.2.2.2.2.1) hd h
  have r5 : d.IsVideo = (v.member "is_video").asBool := bindBool_read e5
  have e6 := bindStruct_member (fun s : ShortcodeMedia => s.EdgeMediaToCaption) "edge_media_to_caption" (bindStruct EdgeMediaToCaption.field) rfl
    (fun k x s s' hf => (ShortcodeMedia_field_spec k x s s' hf).2.2.2.2.2.2.1) hd h
  have r6 : d.EdgeMediaToCaption = EdgeMediaToCaption.read (v.member "edge_media_to_caption") :=
    EdgeMediaToCaption_bind_read (uniqueNames_member hu "edge_media_to_caption") e6
  have e7 := bindStruct_member (fun s : ShortcodeMedia => s.EdgeMediaToComment) "edge_media_to_comment" (bindStruct EdgeCount.field) rfl
    (fun k x s s' hf => (ShortcodeMedia_field_spec k x s s' hf).2.2.2.2.2.2.2.1) hd h
  have r7 : d.EdgeMediaToComment = EdgeCount.read (v.member "edge_media_to_comment") :=
    EdgeCount_bind_read (uniqueNames_member hu "edge_media_to_comment") e7
  have e8 := bindStruct_member (fun s : ShortcodeMedia => s.TakenAtTimestamp) "taken_at_timestamp" bindInt rfl
    (fun k x s s' hf => (ShortcodeMedia_field_spec k x s s' hf).2.2.2.2.2.2.2.2.1) hd h
  have r8 : d.TakenAtTimestamp = (v.member "taken_at_timestamp").asInt := bindInt_read e8
  have e9 := bindStruct_member (fun s : ShortcodeMedia => s.EdgeMediaPreviewLike) "edge_media_preview_like" (bindStruct EdgeCount.field) rfl
    (fun k x s s' hf => (ShortcodeMedia_field_spec k x s s' hf).2.2.2.2.2.2.2.2.2.1) hd h
  have r9 : d.EdgeMediaPreviewLike = EdgeCount.read (v.member "edge_media_preview_like") :=
    EdgeCount_bind_read (uniqueNames_member hu "edge_media_preview_like") e9
  have e10 := bindStruct_member (fun s : ShortcodeMedia => s.Owner) "owner" (bindStruct PageOwner.field) rfl
    (fun k x s s' hf => (ShortcodeMedia_field_spec k x s s' hf).2.2.2.2.2.2.2.2.2.2.1) hd h
  have r10 : d.Owner = PageOwner.read (v.member "owner") :=
    PageOwner_bind_read (uniqueNames_member hu "owner") e10
  have e11 := bindStruct_member (fun s : ShortcodeMedia => s.IsAd) "is_ad" bindBool rfl
    (fun k x s s' hf => (ShortcodeMedia_field_spec k x s s' hf).2.2.2.2.2.2.2.2.2.2.2) hd h
  have r11 : d.IsAd = (v.member "is_ad").asBool := bindBool_read e11
  cases d
  simp only [ShortcodeMedia.read, ShortcodeMedia.mk.injEq]
  exact ⟨r0, r1, r2, r3, r4, r5, r6, r7, r8, r9, r10, r11⟩

theorem Graphql_field_spec (k : String) (v : Json) (d d' : Graphql)
    (h : Graphql.field k v d = some d') :
    (if k = "shortcode_media" then bindStruct ShortcodeMedia.field v d.ShortcodeMedia = some d'.ShortcodeMedia
      else d'.ShortcodeMedia = d.ShortcodeMedia) := by
  unfold Graphql.field at h
  by_cases h0 : k = "shortcode_media"
  · rw [if_pos h0] at h; obtain ⟨x, hx, rfl⟩ := Option.map_eq_some'.mp h
    subst h0; simp [hx]
  rw [if_neg h0] at h
  cases h; simp [*]

theorem Graphql_field_isSome (k : String) (v : Json) (d : Graphql) :
    (Graphql.field k v d).isSome = Graphql.fits k v := by
  unfold Graphql.field Graphql.fits
  by_cases h0 : k = "shortcode_media"
  · rw [if_pos h0, if_pos h0, Option.isSome_map']; exact bindStruct_isSome ShortcodeMedia_field_isSome _ _
  rw [if_neg h0, if_neg h0]
  rfl

/-- Bound from a payload of unique names, `graphql` is its reading. -/
theorem Graphql_bind_read {v : Json} {d : Graphql} (hu : v.uniqueNames = true)
    (h : bindStruct Graphql.field v {} = some d) : d = Graphql.read v := by
  have hd := uniqueNames_distinct hu
  have e0 := bindStruct_member (fun s : Graphql => s.ShortcodeMedia) "shortcode_media" (bindStruct ShortcodeMedia.field) rfl
    (fun k x s s' hf => (Graphql_field_spec k x s s' hf)) hd h
  have r0 : d.ShortcodeMedia = ShortcodeMedia.read (v.member "shortcode_media") :=
    ShortcodeMedia_bind_read (uniqueNames_member hu "shortcode_media") e0
  cases d
  simp only [Graphql.read, Graphql.mk.injEq]
  exact r0

theorem MediaPageJSON_field_spec (k : String) (v : Json) (d d' : MediaPageJSON)
    (h : MediaPageJSON.field k v d = some d') :
    (if k = "graphql" then bindStruct Graphql.field v d.Graphql = some d'.Graphql
      else d'.Graphql = d.Graphql) := by
  unfold MediaPageJSON.field at h
  by_cases h0 : k = "graphql"
  · rw [if_pos h0] at h; obtain ⟨x, hx, rfl⟩ := Option.map_eq_some'.mp h
    subst h0; simp [hx]
  rw [if_neg h0] at h
  cases h; simp [*]

theorem MediaPageJSON_field_isSome (k : String) (v : Json) (d : MediaPageJSON) :
    (MediaPageJSON.field k v d).isSome = MediaPageJSON.fits k v := by
  unfold MediaPageJSON.field MediaPageJSON.fits
  by_cases h0 : k = "graphql"
  · rw [if_pos h0, if_pos h0, Option.isSome_map']; exact bindStruct_isSome Graphql_field_isSome _ _
  rw [if_neg h0, if_neg h0]
  rfl

/-- Bound from a payload of unique names, the payload of `getFromMediaPage` is its reading. -/
theorem MediaPageJSON_bind_read {v : Json} {d : MediaPageJSON} (hu : v.uniqueNames = true)
    (h : bindStruct MediaPageJSON.field v {} = some d) : d = MediaPageJSON.read v := by
  have hd := uniqueNames_distinct hu
  have e0 := bindStruct_member (fun s : MediaPageJSON => s.Graphql) "graphql" (bindStruct Graphql.field) rfl
    (fun k x s s' hf => (MediaPageJSON_field_spec k x s s' hf)) hd h
  have r0 : d.Graphql = Graphql.read (v.member "graphql") :=
    Graphql_bind_read (uniqueNames_member hu "graphql") e0
  cases d
  simp only [MediaPageJSON.read, MediaPageJSON.mk.injEq]
  exact r0

theorem ListUser_field_spec (k : String) (v : Json) (d d' : ListUser)
    (h : ListUser.field k v d = some d') :
    (if k = "id" then bindString v d.ID = some d'.ID
      else d'.ID = d.ID) ∧
    (if k = "full_name" then bindString v d.FullName = some d'.FullName
      else d'.FullName = d.FullName) ∧
    (if k = "profile_picture" then bindString v d.ProfilePicture = some d'.ProfilePicture
      else d'.ProfilePicture = d.ProfilePicture) ∧
    (if k = "username" then bindString v d.Username = some d'.Username
      else d'.Username = d.Username) := by
  unfold ListUser.field at h
  by_cases h0 : k = "id"
  · rw [if_pos h0] at h; obtain ⟨x, hx, rfl⟩ := Option.map_eq_some'.mp h
    subst h0; simp [hx]
  rw [if_neg h0] at h
  by_cases h1 : k = "full_name"
  · rw [if_pos h1] at h; obtain ⟨x, hx, rfl⟩ := Option.map_eq_some'.mp h
    subst h1; simp [hx]
  rw [if_neg h1] at h
  by_cases h2 : k = "profile_picture"
  · rw [if_pos h2] at h; obtain ⟨x, hx, rfl⟩ := Option.map_eq_some'.mp h
    subst h2; simp [hx]
  rw [if_neg h2] at h
  by_cases h3 : k = "username"
  · rw [if_pos h3] at h; obtain ⟨x, hx, rfl⟩ := Option.map_eq_some'.mp h
    subst h3; simp [hx]
  rw [if_neg h3] at h
  cases h; simp [*]

theorem ListUser_field_isSome (k : String) (v : Json) (d : ListUser) :
    (ListUser.field k v d).isSome = ListUser.fits k v := by
  unfold ListUser.field ListUser.fits
  by_cases h0 : k = "id"
  · rw [if_pos h0, if_pos h0, Option.isSome_map']; exact bindString_isSome _ _
  rw [if_neg h0, if_neg h0]
  by_cases h1 : k = "full_name"
  · rw [if_pos h1, if_pos h1, Option.isSome_map']; exact bindString_isSome _ _
  rw [if_neg h1, if_neg h1]
  by_cases h2 : k = "profile_picture"
  · rw [if_pos h2, if_pos h2, Option.isSome_map']; exact bindString_isSome _ _
  rw [if_neg h2, if_neg h2]
  by_cases h3 : k = "username"
  · rw [if_pos h3, if_pos h3, Option.isSome_map']; exact bindString_isSome _ _
  rw [if_neg h3, if_neg h3]
  rfl

/-- Bound from a payload of unique names, `user` is its reading. -/
theorem ListUser_bind_read {v : Json} {d : ListUser} (hu : v.uniqueNames = true)
    (h : bindStruct ListUser.field v {} = some d) : d = ListUser.read v := by
  have hd := uniqueNames_distinct hu
  have e0 := bindStruct_member (fun s : ListUser => s.ID) "id" bindString rfl
    (fun k x s s' hf => (ListUser_field_spec k x s s' hf).1) hd h
  have r0 : d.ID = (v.member "id").asString := bindString_read e0
  have e1 := bindStruct_member (fun s : ListUser => s.FullName) "full_name" bindString rfl
    (fun k x s s' hf => (ListUser_field_spec k x s s' hf).2.1) hd h
  have r1 : d.FullName = (v.member "full_name").asString := bindString_read e1
  have e2 := bindStruct_member (fun s : ListUser => s.ProfilePicture) "profile_picture" bindString rfl
    (fun k x s s' hf => (ListUser_field_spec k x s s' hf).2.2.1) hd h
  have r2 : d.ProfilePicture = (v.member "profile_picture").asString := bindString_read e2
  have e3 := bindStruct_member (fun s : ListUser => s.Username) "username" bindString rfl
    (fun k x s s' hf => (ListUser_field_spec k x s s' hf).2.2.2) hd h
  have r3 : d.Username = (v.member "username").asString := bindString_read e3
  cases d
  simp only [ListUser.read, ListUser.mk.injEq]
  exact ⟨r0, r1, r2, r3⟩

theorem StandardResolution_field_spec (k : String) (v : Json) (d d' : StandardResolution)
    (h : StandardResolution.field k v d = some d') :
    (if k = "width" then bindInt v d.Width = some d'.Width
      else d'.Width = d.Width) ∧
    (if k = "height" then bindInt v d.Height = some d'.Height
      else d'.Height = d.Height) ∧
    (if k = "url" then bindString v d.URL = some d'.URL
      else d'.URL = d.URL) := by
  unfold StandardResolution.field at h
  by_cases h0 : k = "width"
  · rw [if_pos h0] at h; obtain ⟨x, hx, rfl⟩ := Option.map_eq_some'.mp h
    subst h0; simp [hx]
  rw [if_neg h0] at h
  by_cases h1 : k = "height"
  · rw [if_pos h1] at h; obtain ⟨x, hx, rfl⟩ := Option.map_eq_some'.mp h
    subst h1; simp [hx]
  rw [if_neg h1] at h
  by_cases h2 : k = "url"
  · rw [if_pos h2] at h; obtain ⟨x, hx, rfl⟩ := Option.map_eq_some'.mp h
    subst h2; simp [hx]
  rw [if_neg h2] at h
  cases h; simp [*]

theorem StandardResolution_field_isSome (k : String) (v : Json) (d : StandardResolution) :
    (StandardResolution.field k v d).isSome = StandardResolution.fits k v := by
  unfold StandardResolution.field StandardResolution.fits
  by_cases h0 : k = "width"
  · rw [if_pos h0, if_pos h0, Option.isSome_map']; exact bindInt_isSome _ _
  rw [if_neg h0, if_neg h0]
  by_cases h1 : k = "height"
  · rw [if_pos h1, if_pos h1, Option.isSome_map']; exact bindInt_isSome _ _
  rw [if_neg h1, if_neg h1]
  by_cases h2 : k = "url"
  · rw [if_pos h2, if_pos h2, Option.isSome_map']; exact bindString_isSome _ _
  rw [if_neg h2, if_neg h2]
  rfl

/-- Bound from a payload of unique names, `standard_resolution` is its reading. -/
theorem StandardResolution_bind_read {v : Json} {d : StandardResolution} (hu : v.uniqueNames = true)
    (h : bindStruct StandardResolution.field v {} = some d) : d = StandardResolution.read v := by
  have hd := uniqueNames_distinct hu
  have e0 := bindStruct_member (fun s : StandardResolution => s.Width) "width" bindInt rfl
    (fun k x s s' hf => (StandardResolution_field_spec k x s s' hf).1) hd h
  have r0 : d.Width = (v.member "width").asInt := bindInt_read e0
  have e1 := bindStruct_member (fun s : StandardResolution => s.Height) "height" bindInt rfl
    (fun k x s s' hf => (StandardResolution_field_spec k x s s' hf).2.1) hd h
  have r1 : d.Height = (v.member "height").asInt := bindInt_read e1
  have e2 := bindStruct_member (fun s : StandardResolution => s.URL) "url" bindString rfl
    (fun k x s s' hf => (StandardResolution_field_spec k x s s' hf).2.2) hd h
  have r2 : d.URL = (v.member "url").asString := bindString_read e2
  cases d
  simp only [StandardResolution.read, StandardResolution.mk.injEq]
  exact ⟨r0, r1, r2⟩

theorem Renditions_field_spec (k : String) (v : Json) (d d' : Renditions)
    (h : Renditions.field k v d = some d') :
    (if k = "standard_resolution" then bindStruct StandardResolution.field v d.StandardResolution = some d'.StandardResolution
      else d'.StandardResolution = d.StandardResolution) := by
  unfold Renditions.field at h
  by_cases h0 : k = "standard_resolution"
  · rw [if_pos h0] at h; obtain ⟨x, hx, rfl⟩ := Option.map_eq_some'.mp h
    subst h0; simp [hx]
  rw [if_neg h0] at h
  cases h; simp [*]

theorem Renditions_field_isSome (k : String) (v : Json) (d : Renditions) :
    (Renditions.field k v d).isSome = Renditions.fits k v := by
  unfold Renditions.field Renditions.fits
  by_cases h0 : k = "standard_resolution"
  · rw [if_pos h0, if_pos h0, Option.isSome_map']; exact bindStruct_isSome StandardResolution_field_isSome _ _
  rw [if_neg h0, if_neg h0]
  rfl

/-- Bound from a payload of unique names, `images` or `videos` is its reading. -/
theorem Renditions_bind_read {v : Json} {d : Renditions} (hu : v.uniqueNames = true)
    (h : bindStruct Renditions.field v {} = some d) : d = Renditions.read v := by
  have hd := uniqueNames_distinct hu
  have e0 := bindStruct_member (fun s : Renditions => s.StandardResolution) "standard_resolution" (bindStruct StandardResolution.field) rfl
    (fun k x s s' hf => (Renditions_field_spec k x s s' hf)) hd h
  have r0 : d.StandardResolution = StandardResolution.read (v.member "standard_resolution") :=
    StandardResolution_bind_read (uniqueNames_member hu "standard_resolution") e0
  cases d
  simp only [Renditions.read, Renditions.mk.injEq]
  exact r0

theorem ListCaption_field_spec (k : String) (v : Json) (d d' : ListCaption)
    (h : ListCaption.field k v d = some d') :
    (if k = "text" then bindString v d.Text = some d'.Text
      else d'.Text = d.Text) := by
  unfold ListCaption.field at h
  by_cases h0 : k = "text"
  · rw [if_pos h0] at h; obtain ⟨x, hx, rfl⟩ := Option.map_eq_some'.mp h
    subst h0; simp [hx]
  rw [if_neg h0] at h
  cases h; simp [*]

theorem ListCaption_field_isSome (k : String) (v : Json) (d : ListCaption) :
    (ListCaption.field k v d).isSome = ListCaption.fits k v := by
  unfold ListCaption.field ListCaption.fits
  by_cases h0 : k = "text"
  · rw [if_pos h0, if_pos h0, Option.isSome_map']; exact bindString_isSome _ _
  rw [if_neg h0, if_neg h0]
  rfl

/-- Bound from a payload of unique names, the `caption` of the account list is its reading. -/
theorem ListCaption_bind_read {v : Json} {d : ListCaption} (hu : v.uniqueNames = true)
    (h : bindStruct ListCaption.field v {} = some d) : d = ListCaption.read v := by
  have hd := uniqueNames_distinct hu
  have e0 := bindStruct_member (fun s : ListCaption => s.Text) "text" bindString rfl
    (fun k x s s' hf => (ListCaption_field_spec k x s s' hf)) hd h
  have r0 : d.Text = (v.member "text").asString := bindString_read e0
  cases d
  simp only [ListCaption.read, ListCaption.mk.injEq]
  exact r0

theorem FloatCount_field_spec (k : String) (v : Json) (d d' : FloatCount)
    (h : FloatCount.field k v d = some d') :
    (if k = "count" then bindFloat v d.Count = some d'.Count
      else d'.Count = d.Count) := by
  unfold FloatCount.field at h
  by_cases h0 : k = "count"
  · rw [if_pos h0] at h; obtain ⟨x, hx, rfl⟩ := Option.map_eq_some'.mp h
    subst h0; simp [hx]
  rw [if_neg h0] at h
  cases h; simp [*]

theorem FloatCount_field_isSome (k : String) (v : Json) (d : FloatCount) :
    (FloatCount.field k v d).isSome = FloatCount.fits k v := by
  unfold FloatCount.field FloatCount.fits
  by_cases h0 : k = "count"
  · rw [if_pos h0, if_pos h0, Option.isSome_map']; exact bindFloat_isSome _ _
  rw [if_neg h0, if_neg h0]
  rfl

/-- Bound from a payload of unique names, `likes` or `comments` is its reading. -/
theorem FloatCount_bind_read {v : Json} {d : FloatCount} (hu : v.uniqueNames = true)
    (h : bindStruct FloatCount.field v {} = some d) : d = FloatCount.read v := by
  have hd := uniqueNames_distinct hu
  have e0 := bindStruct_member (fun s : FloatCount => s.Count) "count" bindFloat rfl
    (fun k x s s' hf => (FloatCount_field_spec k x s s' hf)) hd h
  have r0 : d.Count = (v.member "count").asFloat := bindFloat_read e0
  cases d
  simp only [FloatCount.read, FloatCount.mk.injEq]
  exact r0

theorem AccountMediaJSON_field_spec (k : String) (v : Json) (d d' : AccountMediaJSON)
    (h : AccountMediaJSON.field k v d = some d') :
    (if k = "id" then bindString v d.ID = some d'.ID
      else d'.ID = d.ID) ∧
    (if k = "code" then bindString v d.Code = some d'.Code
      else d'.Code = d.Code) ∧
    (if k = "user" then bindStruct ListUser.field v d.User = some d'.User
      else d'.User = d.User) ∧
    (if k = "images" then bindStruct Renditions.field v d.Images = some d'.Images
      else d'.Images = d.Images) ∧
    (if k = "created_time" then bindString v d.CreatedTime = some d'.CreatedTime
      else d'.CreatedTime = d.CreatedTime) ∧
    (if k = "caption" then bindStruct ListCaption.field v d.Caption = some d'.Caption
      else d'.Caption = d.Caption) ∧
    (if k = "likes" then bindStruct FloatCount.field v d.Likes = some d'.Likes
      else d'.Likes = d.Likes) ∧
    (if k = "comments" then bindStruct FloatCount.field v d.Comments = some d'.Comments
      else d'.Comments = d.Comments) ∧
    (if k = "type" then bindString v d.Type_ = some d'.Type_
      else d'.Type_ = d.Type_) ∧
    (if k = "videos" then bindStruct Renditions.field v d.Videos = some d'.Videos
      else d'.Videos = d.Videos) := by
  unfold AccountMediaJSON.field at h
  by_cases h0 : k = "id"
  · rw [if_pos h0] at h; obtain ⟨x, hx, rfl⟩ := Option.map_eq_some'.mp h
    subst h0; simp [hx]
  rw [if_neg h0] at h
  by_cases h1 : k = "code"
  · rw [if_pos h1] at h; obtain ⟨x, hx, rfl⟩ := Option.map_eq_some'.mp h
    subst h1; simp [hx]
  rw [if_neg h1] at h
  by_cases h2 : k = "user"
  · rw [if_pos h2] at h; obtain ⟨x, hx, rfl⟩ := Option.map_eq_some'.mp h
    subst h2; simp [hx]
  rw [if_neg h2] at h
  by_cases h3 : k = "images"
  · rw [if_pos h3] at h; obtain ⟨x, hx, rfl⟩ := Option.map_eq_some'.mp h
    subst h3; simp [hx]
  rw [if_neg h3] at h
  by_cases h4 : k = "created_time"
  · rw [if_pos h4] at h; obtain ⟨x, hx, rfl⟩ := Option.map_eq_some'.mp h
    subst h4; simp [hx]
  rw [if_neg h4] at h
  by_cases h5 : k = "caption"
  · rw [if_pos h5] at h; obtain ⟨x, hx, rfl⟩ := Option.map_eq_some'.mp h
    subst h5; simp [hx]
  rw [if_neg h5] at h
  by_cases h6 : k = "likes"
  · rw [if_pos h6] at h; obtain ⟨x, hx, rfl⟩ := Option.map_eq_some'.mp h
    subst h6; simp [hx]
  rw [if_neg h6] at h
  by_cases h7 : k = "comments"
  · rw [if_pos h7] at h; obtain ⟨x, hx, rfl⟩ := Option.map_eq_some'.mp h
    subst h7; simp [hx]
  rw [if_neg h7] at h
  by_cases h8 : k = "type"
  · rw [if_pos h8] at h; obtain ⟨x, hx, rfl⟩ := Option.map_eq_some'.mp h
    subst h8; simp [hx]
  rw [if_neg h8] at h
  by_cases h9 : k = "videos"
  · rw [if_pos h9] at h; obtain ⟨x, hx, rfl⟩ := Option.map_eq_some'.mp h
    subst h9; simp [hx]
  rw [if_neg h9] at h
  cases h; simp [*]

theorem AccountMediaJSON_field_isSome (k : String) (v : Json) (d : AccountMediaJSON) :
    (AccountMediaJSON.field k v d).isSome = AccountMediaJSON.fits k v := by
  unfold AccountMediaJSON.field AccountMediaJSON.fits
  by_cases h0 : k = "id"
  · rw [if_pos h0, if_pos h0, Option.isSome_map']; exact bindString_isSome _ _
  rw [if_neg h0, if_neg h0]
  by_cases h1 : k = "code"
  · rw [if_pos h1, if_pos h1, Option.isSome_map']; exact bindString_isSome _ _
  rw [if_neg h1, if_neg h1]
  by_cases h2 : k = "user"
  · rw [if_pos h2, if_pos h2, Option.isSome_map']; exact bindStruct_isSome ListUser_field_isSome _ _
  rw [if_neg h2, if_neg h2]
  by_cases h3 : k = "images"
  · rw [if_pos h3, if_pos h3, Option.isSome_map']; exact bindStruct_isSome Renditions_field_isSome _ _
  rw [if_neg h3, if_neg h3]
  by_cases h4 : k = "created_time"
  · rw [if_pos h4, if_pos h4, Option.isSome_map']; exact bindString_isSome _ _
  rw [if_neg h4, if_neg h4]
  by_cases h5 : k = "caption"
  · rw [if_pos h5, if_pos h5, Option.isSome_map']; exact bindStruct_isSome ListCaption_field_isSome _ _
  rw [if_neg h5, if_neg h5]
  by_cases h6 : k = "likes"
  · rw [if_pos h6, if_pos h6, Option.isSome_map']; exact bindStruct_isSome FloatCount_field_isSome _ _
  rw [if_neg h6, if_neg h6]
  by_cases h7 : k = "comments"
  · rw [if_pos h7, if_pos h7, Option.isSome_map']; exact bindStruct_isSome FloatCount_field_isSome _ _
  rw [if_neg h7, if_neg h7]
  by_cases h8 : k = "type"
  · rw [if_pos h8, if_pos h8, Option.isSome_map']; exact bindString_isSome _ _
  rw [if_neg h8, if_neg h8]
  by_cases h9 : k = "videos"
  · rw [if_pos h9, if_pos h9, Option.isSome_map']; exact bindStruct_isSome Renditions_field_isSome _ _
  rw [if_neg h9, if_neg h9]
  rfl

/-- Bound from a payload of unique names, the payload of `getFromAccountMediaList` is its reading. -/
theorem AccountMediaJSON_bind_read {v : Json} {d : AccountMediaJSON} (hu : v.uniqueNames = true)
    (h : bindStruct AccountMediaJSON.field v {} = some d) : d = AccountMediaJSON.read v := by
  have hd := uniqueNames_distinct hu
  have e0 := bindStruct_member (fun s : AccountMediaJSON => s.ID) "id" bindString rfl
    (fun k x s s' hf => (AccountMediaJSON_field_spec k x s s' hf).1) hd h
  have r0 : d.ID = (v.member "id").asString := bindString_read e0
  have e1 := bindStruct_member (fun s : AccountMediaJSON => s.Code) "code" bindString rfl
    (fun k x s s' hf => (AccountMediaJSON_field_spec k x s s' hf).2.1) hd h
  have r1 : d.Code = (v.member "code").asString := bindString_read e1
  have e2 := bindStruct_member (fun s : AccountMediaJSON => s.User) "user" (bindStruct ListUser.field) rfl
    (fun k x s s' hf => (AccountMediaJSON_field_spec k x s s' hf).2.2.1) hd h
  have r2 : d.User = ListUser.read (v.member "user") :=
    ListUser_bind_read (uniqueNames_member hu "user") e2
  have e3 := bindStruct_member (fun s : AccountMediaJSON => s.Images) "images" (bindStruct Renditions.field) rfl
    (fun k x s s' hf => (AccountMediaJSON_field_spec k x s s' hf).2.2.2.1) hd h
  have r3 : d.Images = Renditions.read (v.member "images") :=
    Renditions_bind_read (uniqueNames_member hu "images") e3
  have e4 := bindStruct_member (fun s : AccountMediaJSON => s.CreatedTime) "created_time" bindString rfl
    (fun k x s s' hf => (AccountMediaJSON_field_spec k x s s' hf).2.2.2.2.1) hd h
  have r4 : d.CreatedTime = (v.member "created_time").asString := bindString_read e4
  have e5 := bindStruct_member (fun s : AccountMediaJSON => s.Caption) "caption" (bindStruct ListCaption.field) rfl
    (fun k x s s' hf => (AccountMediaJSON_field_spec k x s s' hf).2.2.2.2.2.1) hd h
  have r5 : d.Caption = ListCaption.read (v.member "caption") :=
    ListCaption_bind_read (uniqueNames_member hu "caption") e5
  have e6 := bindStruct_member (fun s : AccountMediaJSON => s.Likes) "likes" (bindStruct FloatCount.field) rfl
    (fun k x s s' hf => (AccountMediaJSON_field_spec k x s s' hf).2.2.2.2.2.2.1) hd h
  have r6 : d.Likes = FloatCount.read (v.member "likes") :=
    FloatCount_bind_read (uniqueNames_member hu "likes") e6
  have e7 := bindStruct_member (fun s : AccountMediaJSON => s.Comments) "comments" (bindStruct FloatCount.field) rfl
    (fun k x s s' hf => (AccountMediaJSON_field_spec k x s s' hf).2.2.2.2.2.2.2.1) hd h
  have r7 : d.Comments = FloatCount.read (v.member "comments") :=
    FloatCount_bind_read (uniqueNames_member hu "comments") e7
  have e8 := bindStruct_member (fun s : AccountMediaJSON => s.Type_) "type" bindString rfl
    (fun k x s s' hf => (AccountMediaJSON_field_spec k x s s' hf).2.2.2.2.2.2.2.2.1) hd h
  have r8 : d.Type_ = (v.member "type").asString := bindString_read e8
  have e9 := bindStruct_member (fun s : AccountMediaJSON => s.Videos) "videos" (bindStruct Renditions.field) rfl
    (fun k x s s' hf => (AccountMediaJSON_field_spec k x s s' hf).2.2.2.2.2.2.2.2.2) hd h
  have r9 : d.Videos = Renditions.read (v.member "videos") :=
    Renditions_bind_read (uniqueNames_member hu "videos") e9
  cases d
  simp only [AccountMediaJSON.read, AccountMediaJSON.mk.injEq]
  exact ⟨r0, r1, r2, r3, r4, r5, r6, r7, r8, r9⟩

theorem SearchOwner_field_spec (k : String) (v : Json) (d d' : SearchOwner)
    (h : SearchOwner.field k v d = some d') :
    (if k = "id" then bindString v d.ID = some d'.ID
      else d'.ID = d.ID) := by
  unfold SearchOwner.field at h
  by_cases h0 : k = "id"
  · rw [if_pos h0] at h; obtain ⟨x, hx, rfl⟩ := Option.map_eq_some'.mp h
    subst h0; simp [hx]
  rw [if_neg h0] at h
  cases h; simp [*]

theorem SearchOwner_field_isSome (k : String) (v : Json) (d : SearchOwner) :
    (SearchOwner.field k v d).isSome = SearchOwner.fits k v := by
  unfold SearchOwner.field SearchOwner.fits
  by_cases h0 : k = "id"
  · rw [if_pos h0, if_pos h0, Option.isSome_map']; exact bindString_isSome _ _
  rw [if_neg h0, if_neg h0]
  rfl

/-- Bound from a payload of unique names, the `owner` of the search list is its reading. -/
theorem SearchOwner_bind_read {v : Json} {d : SearchOwner} (hu : v.uniqueNames = true)
    (h : bindStruct SearchOwner.field v {} = some d) : d = SearchOwner.read v := by
  have hd := uniqueNames_distinct hu
  have e0 := bindStruct_member (fun s : SearchOwner => s.ID) "id" bindString rfl
    (fun k x s s' hf => (SearchOwner_field_spec k x s s' hf)) hd h
  have r0 : d.ID = (v.member "id").asString := bindString_read e0
  cases d
  simp only [SearchOwner.read, SearchOwner.mk.injEq]
  exact r0

theorem SearchMediaJSON_field_spec (k : String) (v : Json) (d d' : SearchMediaJSON)
    (h : SearchMediaJSON.field k v d = some d') :
    (if k = "comments_disabled" then bindBool v d.CommentsDisabled = some d'.CommentsDisabled
      else d'.CommentsDisabled = d.CommentsDisabled) ∧
    (if k = "id" then bindString v d.ID = some d'.ID
      else d'.ID = d.ID) ∧
    (if k = "owner" then bindStruct SearchOwner.field v d.Owner = some d'.Owner
      else d'.Owner = d.Owner) ∧
    (if k = "thumbnail_src" then bindString v d.ThumbnailSrc = some d'.ThumbnailSrc
      else d'.ThumbnailSrc = d.ThumbnailSrc) ∧
    (if k = "is_video" then bindBool v d.IsVideo = some d'.IsVideo
      else d'.IsVideo = d.IsVideo) ∧
    (if k = "code" then bindString v d.Code = some d'.Code
      else d'.Code = d.Code) ∧
    (if k = "date" then bindFloat v d.Date = some d'.Date
      else d'.Date = d.Date) ∧
    (if k = "display_src" then bindString v d.DisplaySrc = some d'.DisplaySrc
      else d'.DisplaySrc = d.DisplaySrc) ∧
    (if k = "caption" then bindString v d.Caption = some d'.Caption
      else d'.Caption = d.Caption) ∧
    (if k = "comments" then bindStruct FloatCount.field v d.Comments = some d'.Comments
      else d'.Comments = d.Comments) ∧
    (if k = "likes" then bindStruct FloatCount.field v d.Likes = some d'.Likes
      else d'.Likes = d.Likes) := by
  unfold SearchMediaJSON.field at h
  by_cases h0 : k = "comments_disabled"
  · rw [if_pos h0] at h; obtain ⟨x, hx, rfl⟩ := Option.map_eq_some'.mp h
    subst h0; simp [hx]
  rw [if_neg h0] at h
  by_cases h1 : k = "id"
  · rw [if_pos h1] at h; obtain ⟨x, hx, rfl⟩ := Option.map_eq_some'.mp h
    subst h1; simp [hx]
  rw [if_neg h1] at h
  by_cases h2 : k = "owner"
  · rw [if_pos h2] at h; obtain ⟨x, hx, rfl⟩ := Option.map_eq_some'.mp h
    subst h2; simp [hx]
  rw [if_neg h2] at h
  by_cases h3 : k = "thumbnail_src"
  · rw [if_pos h3] at h; obtain ⟨x, hx, rfl⟩ := Option.map_eq_some'.mp h
    subst h3; simp [hx]
  rw [if_neg h3] at h
  by_cases h4 : k = "is_video"
  · rw [if_pos h4] at h; obtain ⟨x, hx, rfl⟩ := Option.map_eq_some'.mp h
    subst h4; simp [hx]
  rw [if_neg h4] at h
  by_cases h5 : k = "code"
  · rw [if_pos h5] at h; obtain ⟨x, hx, rfl⟩ := Option.map_eq_some'.mp h
    subst h5; simp [hx]
  rw [if_neg h5] at h
  by_cases h6 : k = "date"
  · rw [if_pos h6] at h; obtain ⟨x, hx, rfl⟩ := Option.map_eq_some'.mp h
    subst h6; simp [hx]
  rw [if_neg h6] at h
  by_cases h7 : k = "display_src"
  · rw [if_pos h7] at h; obtain ⟨x, hx, rfl⟩ := Option.map_eq_some'.mp h
    subst h7; simp [hx]
  rw [if_neg h7] at h
  by_cases h8 : k = "caption"
  · rw [if_pos h8] at h; obtain ⟨x, hx, rfl⟩ := Option.map_eq_some'.mp h
    subst h8; simp [hx]
  rw [if_neg h8] at h
  by_cases h9 : k = "comments"
  · rw [if_pos h9] at h; obtain ⟨x, hx, rfl⟩ := Option.map_eq_some'.mp h
    subst h9; simp [hx]
  rw [if_neg h9] at h
  by_cases h10 : k = "likes"
  · rw [if_pos h10] at h; obtain ⟨x, hx, rfl⟩ := Option.map_eq_some'.mp h
    subst h10; simp [hx]
  rw [if_neg h10] at h
  cases h; simp [*]

theorem SearchMediaJSON_field_isSome (k : String) (v : Json) (d : SearchMediaJSON) :
    (SearchMediaJSON.field k v d).isSome = SearchMediaJSON.fits k v := by
  unfold SearchMediaJSON.field SearchMediaJSON.fits
  by_cases h0 : k = "comments_disabled"
  · rw [if_pos h0, if_pos h0, Option.isSome_map']; exact bindBool_isSome _ _
  rw [if_neg h0, if_neg h0]
  by_cases h1 : k = "id"
  · rw [if_pos h1, if_pos h1, Option.isSome_map']; exact bindString_isSome _ _
  rw [if_neg h1, if_neg h1]
  by_cases h2 : k = "owner"
  · rw [if_pos h2, if_pos h2, Option.isSome_map']; exact bindStruct_isSome SearchOwner_field_isSome _ _
  rw [if_neg h2, if_neg h2]
  by_cases h3 : k = "thumbnail_src"
  · rw [if_pos h3, if_pos h3, Option.isSome_map']; exact bindString_isSome _ _
  rw [if_neg h3, if_neg h3]
  by_cases h4 : k = "is_video"
  · rw [if_pos h4, if_pos h4, Option.isSome_map']; exact bindBool_isSome _ _
  rw [if_neg h4, if_neg h4]
  by_cases h5 : k = "code"
  · rw [if_pos h5, if_pos h5, Option.isSome_map']; exact bindString_isSome _ _
  rw [if_neg h5, if_neg h5]
  by_cases h6 : k = "date"
  · rw [if_pos h6, if_pos h6, Option.isSome_map']; exact bindFloat_isSome _ _
  rw [if_neg h6, if_neg h6]
  by_cases h7 : k = "display_src"
  · rw [if_pos h7, if_pos h7, Option.isSome_map']; exact bindString_isSome _ _
  rw [if_neg h7, if_neg h7]
  by_cases h8 : k = "caption"
  · rw [if_pos h8, if_pos h8, Option.isSome_map']; exact bindString_isSome _ _
  rw [if_neg h8, if_neg h8]
  by_cases h9 : k = "comments"
  · rw [if_pos h9, if_pos h9, Option.isSome_map']; exact bindStruct_isSome FloatCount_field_isSome _ _
  rw [if_neg h9, if_neg h9]
  by_cases h10 : k = "likes"
  · rw [if_pos h10, if_pos h10, Option.isSome_map']; exact bindStruct_isSome FloatCount_field_isSome _ _
  rw [if_neg h10, if_neg h10]
  rfl

/-- Bound from a payload of unique names, the payload of `getFromSearchMediaList` is its reading. -/
theorem SearchMediaJSON_bind_read {v : Json} {d : SearchMediaJSON} (hu : v.uniqueNames = true)
    (h : bindStruct SearchMediaJSON.field v {} = some d) : d = SearchMediaJSON.read v := by
  have hd := uniqueNames_distinct hu
  have e0 := bindStruct_member (fun s : SearchMediaJSON => s.CommentsDisabled) "comments_disabled" bindBool rfl
    (fun k x s s' hf => (SearchMediaJSON_field_spec k x s s' hf).1) hd h
  have r0 : d.CommentsDisabled = (v.member "comments_disabled").asBool := bindBool_read e0
  have e1 := bindStruct_member (fun s : SearchMediaJSON => s.ID) "id" bindString rfl
    (fun k x s s' hf => (SearchMediaJSON_field_spec k x s s' hf).2.1) hd h
  have r1 : d.ID = (v.member "id").asString := bindString_read e1
  have e2 := bindStruct_member (fun s : SearchMediaJSON => s.Owner) "owner" (bindStruct SearchOwner.field) rfl
    (fun k x s s' hf => (SearchMediaJSON_field_spec k x s s' hf).2.2.1) hd h
  have r2 : d.Owner = SearchOwner.read (v.member "owner") :=
    SearchOwner_bind_read (uniqueNames_member hu "owner") e2
  have e3 := bindStruct_member (fun s : SearchMediaJSON => s.ThumbnailSrc) "thumbnail_src" bindString rfl
    (fun k x s s' hf => (SearchMediaJSON_field_spec k x s s' hf).2.2.2.1) hd h
  have r3 : d.ThumbnailSrc = (v.member "thumbnail_src").asString := bindString_read e3
  have e4 := bindStruct_member (fun s : SearchMediaJSON => s.IsVideo) "is_video" bindBool rfl
    (fun k x s s' hf => (SearchMediaJSON_field_spec k x s s' hf).2.2.2.2.1) hd h
  have r4 : d.IsVideo = (v.member "is_video").asBool := bindBool_read e4
  have e5 := bindStruct_member (fun s : SearchMediaJSON => s.Code) "code" bindString rfl
    (fun k x s s' hf => (SearchMediaJSON_field_spec k x s s' hf).2.2.2.2.2.1) hd h
  have r5 : d.Code = (v.member "code").asString := bindString_read e5
  have e6 := bindStruct_member (fun s : SearchMediaJSON => s.Date) "date" bindFloat rfl
    (fun k x s s' hf => (SearchMediaJSON_field_spec k x s s' hf).2.2.2.2.2.2.1) hd h
  have r6 : d.Date = (v.member "date").asFloat := bindFloat_read e6
  have e7 := bindStruct_member (fun s : SearchMediaJSON => s.DisplaySrc) "display_src" bindString rfl
    (fun k x s s' hf => (SearchMediaJSON_field_spec k x s s' hf).2.2.2.2.2.2.2.1) hd h
  have r7 : d.DisplaySrc = (v.member "display_src").asString := bindString_read e7
  have e8 := bindStruct_member (fun s : SearchMediaJSON => s.Caption) "caption" bindString rfl
    (fun k x s s' hf => (SearchMediaJSON_field_spec k x s s' hf).2.2.2.2.2.2.2.2.1) hd h
  have r8 : d.Caption = (v.member "caption").asString := bindString_read e8
  have e9 := bindStruct_member (fun s : SearchMediaJSON => s.Comments) "comments" (bindStruct FloatCount.field) rfl
    (fun k x s s' hf => (SearchMediaJSON_field_spec k x s s' hf).2.2.2.2.2.2.2.2.2.1) hd h
  have r9 : d.Comments = FloatCount.read (v.member "comments") :=
    FloatCount_bind_read (uniqueNames_member hu "comments") e9
  have e10 := bindStruct_member (fun s : SearchMediaJSON => s.Likes) "likes" (bindStruct FloatCount.field) rfl
    (fun k x s s' hf => (SearchMediaJSON_field_spec k x s s' hf).2.2.2.2.2.2.2.2.2.2) hd h
  have r10 : d.Likes = FloatCount.read (v.member "likes") :=
    FloatCount_bind_read (uniqueNames_member hu "likes") e10
  cases d
  simp only [SearchMediaJSON.read, SearchMediaJSON.mk.injEq]
  exact ⟨r0, r1, r2, r3, r4, r5, r6, r7, r8, r9, r10⟩


/-! ### The decoders on a parsed payload -/

theorem MediaPageJSON_unmarshal_of_parse {data : List UInt8} {v : Json}
    (hp : Json.parse data = some v) :
    MediaPageJSON.unmarshal data = bindStruct MediaPageJSON.field v {} := by
  simp [MediaPageJSON.unmarshal, hp]

theorem AccountMediaJSON_unmarshal_of_parse {data : List UInt8} {v : Json}
    (hp : Json.parse data = some v) :
    AccountMediaJSON.unmarshal data = bindStruct AccountMediaJSON.field v {} := by
  simp [AccountMediaJSON.unmarshal, hp]

theorem SearchMediaJSON_unmarshal_of_parse {data : List UInt8} {v : Json}
    (hp : Json.parse data = some v) :
    SearchMediaJSON.unmarshal data = bindStruct SearchMediaJSON.field v {} := by
  simp [SearchMediaJSON.unmarshal, hp]

/-- What `getFromMediaPage` does once `json.Unmarshal` has filled `mediaJSON`. -/
theorem getFromMediaPage_of_unmarshal {data : List UInt8} {j : MediaPageJSON}
    (h : MediaPageJSON.unmarshal data = some j) :
    getFromMediaPage data =
      match j.Graphql.ShortcodeMedia.EdgeMediaToCaption.Edges with
      | [] => .panicked .indexOutOfRange
      | edge0 :: _ =>
        .ret ({ Code := j.Graphql.ShortcodeMedia.Shortcode
                ID := j.Graphql.ShortcodeMedia.ID
                AD := j.Graphql.ShortcodeMedia.IsAd
                Date := intToUint64 j.Graphql.ShortcodeMedia.TakenAtTimestamp
                CommentsCount := intToUint32 j.Graphql.ShortcodeMedia.EdgeMediaToComment.Count
                LikesCount := intToUint32 j.Graphql.ShortcodeMedia.EdgeMediaPreviewLike.Count
                Caption := edge0.Node.Text
                Type_ := if j.Graphql.ShortcodeMedia.IsVideo then "video" else "image"
                MediaURL := if j.Graphql.ShortcodeMedia.IsVideo then j.Graphql.ShortcodeMedia.VideoURL
                  else j.Graphql.ShortcodeMedia.DisplayURL
                Owner := { ID := j.Graphql.ShortcodeMedia.Owner.ID
                           ProfilePicURL := j.Graphql.ShortcodeMedia.Owner.ProfilePicURL
                           Username := j.Graphql.ShortcodeMedia.Owner.Username
                           FullName := j.Graphql.ShortcodeMedia.Owner.FullName
                           Private := j.Graphql.ShortcodeMedia.Owner.IsPrivate } }, true) := by
  unfold getFromMediaPage
  rw [h]
  cases he : j.Graphql.ShortcodeMedia.EdgeMediaToCaption.Edges with
  | nil => simp [he]
  | cons e es =>
    cases hv : j.Graphql.ShortcodeMedia.IsVideo <;> simp [he, hv, TypeVideo, TypeImage]

/-- What `getFromAccountMediaList` does once `json.Unmarshal` has filled `mediaJSON`. -/
theorem getFromAccountMediaList_of_unmarshal {fc : FloatConv} {data : List UInt8}
    {j : AccountMediaJSON} (h : AccountMediaJSON.unmarshal data = some j) :
    getFromAccountMediaList fc data =
      .ret ({ Code := j.Code
              ID := j.ID
              Type_ := j.Type_
              Caption := j.Caption.Text
              LikesCount := j.Likes.Count.toUint32 fc
              CommentsCount := j.Comments.Count.toUint32 fc
              Date := (parseUint j.CreatedTime).getD 0
              MediaURL := if j.Type_ = "video" then j.Videos.StandardResolution.URL
                else j.Images.StandardResolution.URL
              Owner := { ID := j.User.ID
                         Username := j.User.Username
                         FullName := j.User.FullName
                         ProfilePicURL := j.User.ProfilePicture } }, true) := by
  unfold getFromAccountMediaList
  rw [h]
  cases hd : parseUint j.CreatedTime <;> by_cases hv : j.Type_ = "video" <;>
    simp [hd, hv, TypeVideo]

/-- What `getFromSearchMediaList` does once `json.Unmarshal` has filled `mediaJSON`. -/
theorem getFromSearchMediaList_of_unmarshal {fc : FloatConv} {data : List UInt8}
    {j : SearchMediaJSON} (h : SearchMediaJSON.unmarshal data = some j) :
    getFromSearchMediaList fc data =
      .ret ({ ID := j.ID
              Code := j.Code
              MediaURL := j.DisplaySrc
              Caption := j.Caption
              Date := j.Date.toUint64 fc
              LikesCount := j.Likes.Count.toUint32 fc
              CommentsCount := j.Comments.Count.toUint32 fc
              Type_ := if j.IsVideo then "video" else "image"
              Owner := { ID := j.Owner.ID } }, true) := by
  unfold getFromSearchMediaList
  rw [h]
  cases hv : j.IsVideo <;> simp [hv, TypeVideo, TypeImage]

/-! ### `strconv.ParseUint` against the number a decimal text denotes -/

theorem decimalValueFrom_ge (cs : List Char) (n : Nat) : n ≤ decimalValueFrom n cs := by
  induction cs generalizing n with
  | nil => simp [decimalValueFrom]
  | cons c cs ih =>
    have h := ih (n * 10 + (c.toNat - 48))
    simp only [decimalValueFrom, List.foldl_cons] at h ⊢
    omega

theorem parseUintLoop_spec (cs : List Char) (n : Nat) (hn : n < 2 ^ 64) :
    parseUintLoop cs n =
      if cs.all (fun c => decide (48 ≤ c.toNat ∧ c.toNat ≤ 57)) = true
          ∧ decimalValueFrom n cs < 2 ^ 64 then
        some (decimalValueFrom n cs)
      else none := by
  induction cs generalizing n with
  | nil =>
    rw [parseUintLoop, if_pos]
    · rfl
    · exact ⟨rfl, hn⟩
  | cons c cs ih =>
    have hge := decimalValueFrom_ge cs (n * 10 + (c.toNat - 48))
    have hval : decimalValueFrom n (c :: cs) = decimalValueFrom (n * 10 + (c.toNat - 48)) cs := by
      simp [decimalValueFrom]
    have h64 : (2 : Nat) ^ 64 = 18446744073709551616 := by norm_num
    have hcutoff : maxUint64 / 10 + 1 = 1844674407370955162 := by norm_num [maxUint64]
    have hmax : maxUint64 = 18446744073709551615 := by norm_num [maxUint64]
    rw [parseUintLoop, hval]
    by_cases hc : 48 ≤ c.toNat ∧ c.toNat ≤ 57
    · have hall : ((c :: cs).all (fun c => decide (48 ≤ c.toNat ∧ c.toNat ≤ 57)) = true) ↔
          (cs.all (fun c => decide (48 ≤ c.toNat ∧ c.toNat ≤ 57)) = true) := by
        simp [List.all_cons, hc]
      rw [if_pos hc]
      by_cases hcut : n ≥ maxUint64 / 10 + 1
      · rw [if_pos hcut, if_neg]
        rw [hcutoff] at hcut
        intro h
        have := h.2
        omega
      · rw [if_neg hcut]
        rw [hcutoff] at hcut
        simp only []
        by_cases hov : n * 10 + (c.toNat - 48) < 2 ^ 64
        · have hmod : (n * 10 + (c.toNat - 48)) % 2 ^ 64 = n * 10 + (c.toNat - 48) :=
            Nat.mod_eq_of_lt hov
          rw [hmod, if_neg (by rw [hmax]; omega), ih _ hov]
          simp only [hall]
        · have hmod : (n * 10 + (c.toNat - 48)) % 2 ^ 64 = n * 10 + (c.toNat - 48) - 2 ^ 64 := by
            rw [Nat.mod_eq_sub_mod (by omega)]
            apply Nat.mod_eq_of_lt
            omega
          rw [hmod, if_pos (by left; omega), if_neg]
          intro h
          have := h.2
          omega
    · rw [if_neg hc, if_neg]
      intro h
      have := h.1
      simp [List.all_cons, hc] at this

/-- Go `strconv.ParseUint(s, 10, 64)` succeeds exactly on the non-empty texts of
decimal digits that denote a number below `2^64`, and returns that number. -/
theorem parseUint_spec (s : String) :
    parseUint s = if isDecimal s = true ∧ decimalValue s < 2 ^ 64 then some (decimalValue s)
      else none := by
  unfold parseUint isDecimal decimalValue
  cases hs : s.data with
  | nil => simp
  | cons c cs =>
    simp only []
    rw [parseUintLoop_spec (c :: cs) 0 (by norm_num)]
    simp

theorem parseUint_getD (s : String) : (parseUint s).getD 0 = createdTimeDate s := by
  rw [parseUint_spec, createdTimeDate]
  split_ifs <;> rfl

/-! ### The decoders on a payload -/

/-- `json.Unmarshal` into the struct of a decoder succeeds exactly when the members
of the parsed payload fit. -/
theorem MediaPageJSON_unmarshal_isSome {data : List UInt8} {v : Json}
    (hp : Json.parse data = some v) :
    (MediaPageJSON.unmarshal data).isSome = Decoder.fits .mediaPage v := by
  rw [MediaPageJSON_unmarshal_of_parse hp]
  exact bindStruct_isSome MediaPageJSON_field_isSome v {}

theorem AccountMediaJSON_unmarshal_isSome {data : List UInt8} {v : Json}
    (hp : Json.parse data = some v) :
    (AccountMediaJSON.unmarshal data).isSome = Decoder.fits .accountMediaList v := by
  rw [AccountMediaJSON_unmarshal_of_parse hp]
  exact bindStruct_isSome AccountMediaJSON_field_isSome v {}

theorem SearchMediaJSON_unmarshal_isSome {data : List UInt8} {v : Json}
    (hp : Json.parse data = some v) :
    (SearchMediaJSON.unmarshal data).isSome = Decoder.fits .searchMediaList v := by
  rw [SearchMediaJSON_unmarshal_of_parse hp]
  exact bindStruct_isSome SearchMediaJSON_field_isSome v {}

/-- A decoder on a payload one of whose members does not fit: the zero record and
`false`. -/
theorem Decoder.run_of_misfit {fc : FloatConv} {dec : Decoder} {data : List UInt8} {v : Json}
    (hp : Json.parse data = some v) (hf : dec.fits v = false) :
    dec.run fc data = .ret (Media.zero, false) := by
  cases dec with
  | mediaPage =>
    have h := MediaPageJSON_unmarshal_isSome hp
    rw [hf] at h
    simp only [Decoder.run, getFromMediaPage]
    cases hu : MediaPageJSON.unmarshal data with
    | none => rfl
    | some j => rw [hu] at h; simp at h
  | accountMediaList =>
    have h := AccountMediaJSON_unmarshal_isSome hp
    rw [hf] at h
    simp only [Decoder.run, getFromAccountMediaList]
    cases hu : AccountMediaJSON.unmarshal data with
    | none => rfl
    | some j => rw [hu] at h; simp at h
  | searchMediaList =>
    have h := SearchMediaJSON_unmarshal_isSome hp
    rw [hf] at h
    simp only [Decoder.run, getFromSearchMediaList]
    cases hu : SearchMediaJSON.unmarshal data with
    | none => rfl
    | some j => rw [hu] at h; simp at h

/-- A decoder on a buffer that is no JSON text: the zero record and `false`. -/
theorem Decoder.run_of_parse_none {fc : FloatConv} {dec : Decoder} {data : List UInt8}
    (hp : Json.parse data = none) : dec.run fc data = .ret (Media.zero, false) := by
  cases dec <;>
    simp [Decoder.run, getFromMediaPage, getFromAccountMediaList, getFromSearchMediaList,
      MediaPageJSON.unmarshal, AccountMediaJSON.unmarshal, SearchMediaJSON.unmarshal, hp]

/-- A decoder never returns `false` on a payload whose members fit. -/
theorem Decoder.run_of_fit {fc : FloatConv} {dec : Decoder} {data : List UInt8} {v : Json}
    (hp : Json.parse data = some v) (hf : dec.fits v = true) (m : Media) :
    dec.run fc data ≠ .ret (m, false) := by
  cases dec with
  | mediaPage =>
    have h := MediaPageJSON_unmarshal_isSome hp
    rw [hf] at h
    obtain ⟨j, hj⟩ := Option.isSome_iff_exists.mp h
    simp only [Decoder.run]
    rw [getFromMediaPage_of_unmarshal hj]
    cases j.Graphql.ShortcodeMedia.EdgeMediaToCaption.Edges <;> simp
  | accountMediaList =>
    have h := AccountMediaJSON_unmarshal_isSome hp
    rw [hf] at h
    obtain ⟨j, hj⟩ := Option.isSome_iff_exists.mp h
    simp only [Decoder.run]
    rw [getFromAccountMediaList_of_unmarshal hj]
    simp
  | searchMediaList =>
    have h := SearchMediaJSON_unmarshal_isSome hp
    rw [hf] at h
    obtain ⟨j, hj⟩ := Option.isSome_iff_exists.mp h
    simp only [Decoder.run]
    rw [getFromSearchMediaList_of_unmarshal hj]
    simp

/-- `getFromMediaPage` on a payload of unique names whose members fit: a panic when
there is no caption edge, else the record of the spec. -/
theorem getFromMediaPage_of_payload {data : List UInt8} {v : Json}
    (hp : Json.parse data = some v) (hu : v.uniqueNames = true)
    (hf : Decoder.fits .mediaPage v = true) :
    getFromMediaPage data =
      match captionEdges v with
      | [] => .panicked .indexOutOfRange
      | _ :: _ => .ret (mediaPageRecord v, true) := by
  have h := MediaPageJSON_unmarshal_isSome hp
  rw [hf] at h
  obtain ⟨j, hj⟩ := Option.isSome_iff_exists.mp h
  have hr : j = MediaPageJSON.read v :=
    MediaPageJSON_bind_read hu (by rw [← MediaPageJSON_unmarshal_of_parse hp]; exact hj)
  rw [getFromMediaPage_of_unmarshal hj, hr]
  simp only [MediaPageJSON.read, Graphql.read, ShortcodeMedia.read, EdgeMediaToCaption.read,
    EdgeCount.read, PageOwner.read]
  have he : captionEdges v =
      (((((v.member "graphql").member "shortcode_media").member "edge_media_to_caption").member
        "edges").items) := rfl
  cases hc : captionEdges v with
  | nil =>
    rw [he] at hc
    simp [hc]
  | cons e es =>
    rw [he] at hc
    simp [hc, mediaPageRecord, captionEdges, shortcodeMedia, CaptionEdge.read, CaptionNode.read]

/-- `getFromAccountMediaList` on a payload of unique names whose members fit: the
record of the spec. -/
theorem getFromAccountMediaList_of_payload {fc : FloatConv} {data : List UInt8} {v : Json}
    (hp : Json.parse data = some v) (hu : v.uniqueNames = true)
    (hf : Decoder.fits .accountMediaList v = true) :
    getFromAccountMediaList fc data = .ret (accountMediaRecord fc v, true) := by
  have h := AccountMediaJSON_unmarshal_isSome hp
  rw [hf] at h
  obtain ⟨j, hj⟩ := Option.isSome_iff_exists.mp h
  have hr : j = AccountMediaJSON.read v :=
    AccountMediaJSON_bind_read hu (by rw [← AccountMediaJSON_unmarshal_of_parse hp]; exact hj)
  rw [getFromAccountMediaList_of_unmarshal hj, hr, parseUint_getD]
  simp [AccountMediaJSON.read, ListUser.read, Renditions.read, StandardResolution.read,
    ListCaption.read, FloatCount.read, accountMediaRecord]

/-- `getFromSearchMediaList` on a payload of unique names whose members fit: the
record of the spec. -/
theorem getFromSearchMediaList_of_payload {fc : FloatConv} {data : List UInt8} {v : Json}
    (hp : Json.parse data = some v) (hu : v.uniqueNames = true)
    (hf : Decoder.fits .searchMediaList v = true) :
    getFromSearchMediaList fc data = .ret (searchMediaRecord fc v, true) := by
  have h := SearchMediaJSON_unmarshal_isSome hp
  rw [hf] at h
  obtain ⟨j, hj⟩ := Option.isSome_iff_exists.mp h
  have hr : j = SearchMediaJSON.read v :=
    SearchMediaJSON_bind_read hu (by rw [← SearchMediaJSON_unmarshal_of_parse hp]; exact hj)
  rw [getFromSearchMediaList_of_unmarshal hj, hr]
  simp [SearchMediaJSON.read, SearchOwner.read, FloatCount.read, searchMediaRecord]

/-- On a parsed payload, a decoder that returns `true` has met fitting members. -/
theorem Decoder.fits_of_run_true {fc : FloatConv} {dec : Decoder} {data : List UInt8} {v : Json}
    {m : Media} (hp : Json.parse data = some v) (h : dec.run fc data = .ret (m, true)) :
    dec.fits v = true := by
  cases hf : dec.fits v with
  | true => rfl
  | false =>
    rw [Decoder.run_of_misfit hp hf] at h
    simp at h

/-- A record `getFromMediaPage` returns with `true` for a payload of unique names is
the record of the spec. -/
theorem getFromMediaPage_record_of_run {data : List UInt8} {v : Json} {m : Media}
    (hp : Json.parse data = some v) (hu : v.uniqueNames = true)
    (h : getFromMediaPage data = .ret (m, true)) : m = mediaPageRecord v := by
  have hf : Decoder.fits .mediaPage v = true :=
    @Decoder.fits_of_run_true FloatConv.wrapping .mediaPage data v m hp h
  rw [getFromMediaPage_of_payload hp hu hf] at h
  cases hc : captionEdges v with
  | nil => simp [hc] at h
  | cons e es =>
    simp only [hc, GoResult.ret.injEq, Prod.mk.injEq, and_true] at h
    exact h.symm

/-- A record `getFromAccountMediaList` returns with `true` for a payload of unique
names is the record of the spec. -/
theorem getFromAccountMediaList_record_of_run {fc : FloatConv} {data : List UInt8} {v : Json}
    {m : Media} (hp : Json.parse data = some v) (hu : v.uniqueNames = true)
    (h : getFromAccountMediaList fc data = .ret (m, true)) : m = accountMediaRecord fc v := by
  have hf : Decoder.fits .accountMediaList v = true :=
    @Decoder.fits_of_run_true fc .accountMediaList data v m hp h
  rw [getFromAccountMediaList_of_payload hp hu hf] at h
  simp only [GoResult.ret.injEq, Prod.mk.injEq, and_true] at h
  exact h.symm

/-- A record `getFromSearchMediaList` returns with `true` for a payload of unique
names is the record of the spec. -/
theorem getFromSearchMediaList_record_of_run {fc : FloatConv} {data : List UInt8} {v : Json}
    {m : Media} (hp : Json.parse data = some v) (hu : v.uniqueNames = true)
    (h : getFromSearchMediaList fc data = .ret (m, true)) : m = searchMediaRecord fc v := by
  have hf : Decoder.fits .searchMediaList v = true :=
    @Decoder.fits_of_run_true fc .searchMediaList data v m hp h
  rw [getFromSearchMediaList_of_payload hp hu hf] at h
  simp only [GoResult.ret.injEq, Prod.mk.injEq, and_true] at h
  exact h.symm

/-- `getFromMediaPage` returns `true` only after `json.Unmarshal` has filled
`mediaJSON` with at least one edge, and the record is built from `mediaJSON`. -/
theorem getFromMediaPage_struct_of_run {data : List UInt8} {m : Media}
    (h : getFromMediaPage data = .ret (m, true)) :
    ∃ j edge0, MediaPageJSON.unmarshal data = some j
      ∧ j.Graphql.ShortcodeMedia.EdgeMediaToCaption.Edges.head? = some edge0
      ∧ m = { Code := j.Graphql.ShortcodeMedia.Shortcode
              ID := j.Graphql.ShortcodeMedia.ID
              AD := j.Graphql.ShortcodeMedia.IsAd
              Date := intToUint64 j.Graphql.ShortcodeMedia.TakenAtTimestamp
              CommentsCount := intToUint32 j.Graphql.ShortcodeMedia.EdgeMediaToComment.Count
              LikesCount := intToUint32 j.Graphql.ShortcodeMedia.EdgeMediaPreviewLike.Count
              Caption := edge0.Node.Text
              Type_ := if j.Graphql.ShortcodeMedia.IsVideo then "video" else "image"
              MediaURL := if j.Graphql.ShortcodeMedia.IsVideo then j.Graphql.ShortcodeMedia.VideoURL
                else j.Graphql.ShortcodeMedia.DisplayURL
              Owner := { ID := j.Graphql.ShortcodeMedia.Owner.ID
                         ProfilePicURL := j.Graphql.ShortcodeMedia.Owner.ProfilePicURL
                         Username := j.Graphql.ShortcodeMedia.Owner.Username
                         FullName := j.Graphql.ShortcodeMedia.Owner.FullName
                         Private := j.Graphql.ShortcodeMedia.Owner.IsPrivate } } := by
  cases hu : MediaPageJSON.unmarshal data with
  | none => simp [getFromMediaPage, hu] at h
  | some j =>
    rw [getFromMediaPage_of_unmarshal hu] at h
    cases he : j.Graphql.ShortcodeMedia.EdgeMediaToCaption.Edges with
    | nil => simp [he] at h
    | cons e es =>
      simp only [he, GoResult.ret.injEq, Prod.mk.injEq, and_true] at h
      exact ⟨j, e, rfl, by rw [he]; rfl, h.symm⟩

/-- `getFromAccountMediaList` returns `true` only after `json.Unmarshal` has filled
`mediaJSON`, and the record is built from `mediaJSON`. -/
theorem getFromAccountMediaList_struct_of_run {fc : FloatConv} {data : List UInt8} {m : Media}
    (h : getFromAccountMediaList fc data = .ret (m, true)) :
    ∃ j, AccountMediaJSON.unmarshal data = some j
      ∧ m = { Code := j.Code
              ID := j.ID
              Type_ := j.Type_
              Caption := j.Caption.Text
              LikesCount := j.Likes.Count.toUint32 fc
              CommentsCount := j.Comments.Count.toUint32 fc
              Date := createdTimeDate j.CreatedTime
              MediaURL := if j.Type_ = "video" then j.Videos.StandardResolution.URL
                else j.Images.StandardResolution.URL
              Owner := { ID := j.User.ID
                         Username := j.User.Username
                         FullName := j.User.FullName
                         ProfilePicURL := j.User.ProfilePicture } } := by
  cases hu : AccountMediaJSON.unmarshal data with
  | none => simp [getFromAccountMediaList, hu] at h
  | some j =>
    rw [getFromAccountMediaList_of_unmarshal hu, parseUint_getD] at h
    simp only [GoResult.ret.injEq, Prod.mk.injEq, and_true] at h
    exact ⟨j, rfl, h.symm⟩

/-- `getFromSearchMediaList` returns `true` only after `json.Unmarshal` has filled
`mediaJSON`, and the record is built from `mediaJSON`. -/
theorem getFromSearchMediaList_struct_of_run {fc : FloatConv} {data : List UInt8} {m : Media}
    (h : getFromSearchMediaList fc data = .ret (m, true)) :
    ∃ j, SearchMediaJSON.unmarshal data = some j
      ∧ m = { ID := j.ID
              Code := j.Code
              MediaURL := j.DisplaySrc
              Caption := j.Caption
              Date := j.Date.toUint64 fc
              LikesCount := j.Likes.Count.toUint32 fc
              CommentsCount := j.Comments.Count.toUint32 fc
              Type_ := if j.IsVideo then "video" else "image"
              Owner := { ID := j.Owner.ID } } := by
  cases hu : SearchMediaJSON.unmarshal data with
  | none => simp [getFromSearchMediaList, hu] at h
  | some j =>
    rw [getFromSearchMediaList_of_unmarshal hu] at h
    simp only [GoResult.ret.injEq, Prod.mk.injEq, and_true] at h
    exact ⟨j, rfl, h.symm⟩

/-! ### `strconv.ParseInt` stays within `int64` -/

theorem parseInt_range {s : String} {n : Int} (h : parseInt s = some n) :
    -(2 ^ 63) ≤ n ∧ n < 2 ^ 63 := by
  unfold parseInt at h
  cases hs : s.data with
  | nil => simp [hs] at h
  | cons c rest =>
    simp only [hs] at h
    cases hu : parseUint (String.mk (if c.toNat = 43 ∨ c.toNat = 45 then rest else c :: rest)) with
    | none => simp [hu] at h
    | some un =>
      simp only [hu] at h
      split_ifs at h with h1 h2 h3
      · cases h; omega
      · cases h; omega

theorem Json.asInt_range (v : Json) : -(2 ^ 63) ≤ v.asInt ∧ v.asInt < 2 ^ 63 := by
  cases v with
  | num lit =>
    simp only [Json.asInt]
    cases h : parseInt lit with
    | none => simp
    | some n => simpa using parseInt_range h
  | _ => simp [Json.asInt]

theorem intToUint64_of_nonneg {t : Int} (h0 : 0 ≤ t) (h1 : t < 2 ^ 63) :
    (intToUint64 t : Int) = t := by
  unfold intToUint64
  rw [Int.emod_eq_of_lt h0 (by omega)]
  exact Int.toNat_of_nonneg h0

theorem intToUint32_of_range {c : Int} (h0 : 0 ≤ c) (h1 : c < 2 ^ 32) :
    (intToUint32 c : Int) = c := by
  unfold intToUint32
  rw [Int.emod_eq_of_lt h0 h1]
  exact Int.toNat_of_nonneg h0

/-! ## The claims -/

theorem notJson_parse : Json.parse notJson = none := by rfl

theorem truncatedObject_parse : Json.parse truncatedObject = none := by rfl

theorem videoPage_parse : Json.parse videoPage = some videoPageJson := by rfl

theorem accountItem_parse : Json.parse accountItem = some accountItemJson := by rfl

theorem accountItemDated_parse : Json.parse accountItemDated = some accountItemDatedJson := by rfl

theorem videoItem_parse : Json.parse videoItem = some videoItemJson := by rfl

theorem searchItem_parse : Json.parse searchItem = some searchItemJson := by rfl

/-- C1. Whenever one of the three decoders returns `false`, the record it returns
with it is the zero record: every text empty, every counter and the date `0`,
`AD` false, the owner zero. -/
theorem decode_failure_is_zero (fc : FloatConv) (dec : Decoder) (data : List UInt8) (m : Media)
    (h : dec.run fc data = .ret (m, false)) :
    m = { Caption := "", Code := "", CommentsCount := 0, Date := 0, ID := "", AD := false,
          LikesCount := 0, Type_ := "", MediaURL := "",
          Owner := { ID := "", Username := "", FullName := "", ProfilePicURL := "",
                     Private := false } } := by
  cases dec with
  | mediaPage =>
    simp only [Decoder.run] at h
    cases hu : MediaPageJSON.unmarshal data with
    | none =>
      simp only [getFromMediaPage, hu, GoResult.ret.injEq, Prod.mk.injEq] at h
      rw [← h.1]; rfl
    | some j =>
      rw [getFromMediaPage_of_unmarshal hu] at h
      cases he : j.Graphql.ShortcodeMedia.EdgeMediaToCaption.Edges <;> simp [he] at h
  | accountMediaList =>
    simp only [Decoder.run] at h
    cases hu : AccountMediaJSON.unmarshal data with
    | none =>
      simp only [getFromAccountMediaList, hu, GoResult.ret.injEq, Prod.mk.injEq] at h
      rw [← h.1]; rfl
    | some j =>
      rw [getFromAccountMediaList_of_unmarshal hu] at h
      simp at h
  | searchMediaList =>
    simp only [Decoder.run] at h
    cases hu : SearchMediaJSON.unmarshal data with
    | none =>
      simp only [getFromSearchMediaList, hu, GoResult.ret.injEq, Prod.mk.injEq] at h
      rw [← h.1]; rfl
    | some j =>
      rw [getFromSearchMediaList_of_unmarshal hu] at h
      simp at h

/-- C1 at the malformed buffer of scenario 6, through the media-page decoder, and at
an account-list element whose `id` is a number. -/
theorem decode_failure_is_zero_witness :
    (Decoder.run FloatConv.wrapping .mediaPage notJson = .ret (Media.zero, false)
      ∧ Media.zero =
        { Caption := "", Code := "", CommentsCount := 0, Date := 0, ID := "", AD := false,
          LikesCount := 0, Type_ := "", MediaURL := "",
          Owner := { ID := "", Username := "", FullName := "", ProfilePicURL := "",
                     Private := false } })
    ∧ (Decoder.run FloatConv.wrapping .accountMediaList numericId = .ret (Media.zero, false)
      ∧ Media.zero =
        { Caption := "", Code := "", CommentsCount := 0, Date := 0, ID := "", AD := false,
          LikesCount := 0, Type_ := "", MediaURL := "",
          Owner := { ID := "", Username := "", FullName := "", ProfilePicURL := "",
                     Private := false } }) :=
  ⟨⟨by decide!, decode_failure_is_zero FloatConv.wrapping .mediaPage notJson _ (by decide!)⟩,
   ⟨by decide!,
    decode_failure_is_zero FloatConv.wrapping .accountMediaList numericId _ (by decide!)⟩⟩

/-- C2. On a buffer that is not a JSON text (`Json.parse`, the scanner of
`encoding/json`, rejects it) each of the three decoders returns the zero record
and `false`. -/
theorem invalid_json_is_rejected (fc : FloatConv) (dec : Decoder) (data : List UInt8)
    (h : Json.parse data = none) : dec.run fc data = .ret (Media.zero, false) :=
  Decoder.run_of_parse_none h

/-- C2 at the buffer `{not json` for each decoder, and at an object cut short. -/
theorem invalid_json_is_rejected_witness :
    Json.parse notJson = none
    ∧ Decoder.run FloatConv.wrapping .mediaPage notJson = .ret (Media.zero, false)
    ∧ Decoder.run FloatConv.wrapping .accountMediaList notJson = .ret (Media.zero, false)
    ∧ Decoder.run FloatConv.wrapping .searchMediaList notJson = .ret (Media.zero, false)
    ∧ Json.parse truncatedObject = none
    ∧ Decoder.run FloatConv.wrapping .searchMediaList truncatedObject
        = .ret (Media.zero, false) :=
  ⟨notJson_parse, invalid_json_is_rejected _ .mediaPage notJson notJson_parse,
   invalid_json_is_rejected _ .accountMediaList notJson notJson_parse,
   invalid_json_is_rejected _ .searchMediaList notJson notJson_parse,
   truncatedObject_parse,
   invalid_json_is_rejected _ .searchMediaList truncatedObject truncatedObject_parse⟩

/-- The two list decoders return on every buffer: nothing in them can panic. -/
theorem list_decoders_return (fc : FloatConv) (data : List UInt8) :
    (∃ r, getFromAccountMediaList fc data = .ret r)
    ∧ (∃ r, getFromSearchMediaList fc data = .ret r) := by
  constructor
  · cases hu : AccountMediaJSON.unmarshal data with
    | none => exact ⟨(Media.zero, false), by simp only [getFromAccountMediaList, hu]⟩
    | some j => exact ⟨_, getFromAccountMediaList_of_unmarshal hu⟩
  · cases hu : SearchMediaJSON.unmarshal data with
    | none => exact ⟨(Media.zero, false), by simp only [getFromSearchMediaList, hu]⟩
    | some j => exact ⟨_, getFromSearchMediaList_of_unmarshal hu⟩

/-- `getFromMediaPage` panics exactly when `json.Unmarshal` succeeds and leaves
`Edges` empty. -/
theorem getFromMediaPage_panics_iff (data : List UInt8) :
    getFromMediaPage data = .panicked .indexOutOfRange ↔
      ∃ j, MediaPageJSON.unmarshal data = some j
        ∧ j.Graphql.ShortcodeMedia.EdgeMediaToCaption.Edges = [] := by
  cases hu : MediaPageJSON.unmarshal data with
  | none => simp [getFromMediaPage, hu]
  | some j =>
    rw [getFromMediaPage_of_unmarshal hu]
    cases he : j.Graphql.ShortcodeMedia.EdgeMediaToCaption.Edges <;> simp [he]

/-- C3 fails on the code. `getFromMediaPage` does not return on the empty object
`{}`, nor on a media page whose `edge_media_to_caption.edges` is the empty
array: both are JSON objects `json.Unmarshal` accepts, and the index
expression `Edges[0]` of line 92 panics. -/
theorem getFromMediaPage_panics_without_caption_edge :
    Json.parse emptyObject = some (.obj [])
    ∧ getFromMediaPage emptyObject = .panicked .indexOutOfRange
    ∧ (Json.parse captionlessPage).isSome = true
    ∧ getFromMediaPage captionlessPage = .panicked .indexOutOfRange :=
  ⟨by rfl, by decide!, by decide!, by decide!⟩

/-- C4 as stated fails: `{"id":5}` is a well-formed JSON object, and
`getFromAccountMediaList` answers it with the zero record and `false`. -/
theorem numeric_id_is_rejected :
    Json.parse numericId = some (.obj [("id", .num "5")])
    ∧ getFromAccountMediaList FloatConv.wrapping numericId = .ret (Media.zero, false) :=
  ⟨by rfl, by decide!⟩

/-! ### `strconv.ParseInt` reads integer numerals only -/

/-- The sign and range test of `strconv.ParseInt` after `ParseUint` has read `un`. -/
theorem parseInt_range_test (neg : Prop) [Decidable neg] (body : String) :
    (match parseUint body with
      | none => (none : Option Int)
      | some un =>
        if ¬ neg ∧ un ≥ 2 ^ 63 then none
        else if neg ∧ un > 2 ^ 63 then none
        else some (if neg then - (un : Int) else (un : Int))).isSome
      = (isDecimal body
          && (if neg then decide (decimalValue body ≤ 2 ^ 63)
              else decide (decimalValue body < 2 ^ 63))) := by
  rw [parseUint_spec]
  by_cases hd : isDecimal body = true
  · by_cases hw : decimalValue body < 2 ^ 64
    · rw [if_pos ⟨hd, hw⟩, hd, Bool.true_and]
      dsimp only
      by_cases hn : neg
      · have n1 : ¬ (¬ neg ∧ decimalValue body ≥ 2 ^ 63) := fun h => h.1 hn
        rw [if_neg n1, if_pos hn]
        by_cases hv : decimalValue body ≤ 2 ^ 63
        · have n2 : ¬ (neg ∧ decimalValue body > 2 ^ 63) := fun h => absurd h.2 (by omega)
          rw [if_neg n2, if_pos hn, decide_eq_true hv]
          rfl
        · have n2 : neg ∧ decimalValue body > 2 ^ 63 := ⟨hn, by omega⟩
          rw [if_pos n2, if_pos hn, decide_eq_false hv]
          rfl
      · rw [if_neg hn]
        have n2 : ¬ (neg ∧ decimalValue body > 2 ^ 63) := fun h => hn h.1
        by_cases hv : decimalValue body < 2 ^ 63
        · have n1 : ¬ (¬ neg ∧ decimalValue body ≥ 2 ^ 63) := fun h => absurd h.2 (by omega)
          rw [if_neg n1, if_neg n2, if_neg hn, decide_eq_true hv]
          rfl
        · have n1 : ¬ neg ∧ decimalValue body ≥ 2 ^ 63 := ⟨hn, by omega⟩
          rw [if_pos n1, if_neg hn, decide_eq_false hv]
          rfl
    · rw [if_neg (fun h => hw h.2), hd, Bool.true_and]
      have h1 : ¬ (decimalValue body ≤ 2 ^ 63) := by omega
      have h2 : ¬ (decimalValue body < 2 ^ 63) := by omega
      rw [decide_eq_false h1, decide_eq_false h2, ite_self]
      rfl
  · rw [if_neg (fun h => hd h.1)]
    have hd' : isDecimal body = false := by
      cases h : isDecimal body with
      | true => exact absurd h hd
      | false => rfl
    rw [hd']
    rfl

/-- `strconv.ParseInt` reads exactly the integer numerals of `int64`. -/
theorem parseInt_isSome (lit : String) : (parseInt lit).isSome = isIntegerNumeral lit := by
  unfold parseInt isIntegerNumeral
  cases hs : lit.data with
  | nil => rfl
  | cons c rest =>
    have hlit : String.mk (c :: rest) = lit := by rw [← hs]
    dsimp only
    rw [parseInt_range_test]
    by_cases h45 : c.toNat = 45
    · rw [if_pos (Or.inr h45), if_pos h45, if_pos h45]
    · rw [if_neg h45, if_neg h45]
      by_cases h43 : c.toNat = 43
      · rw [if_pos (Or.inl h43), if_pos h43]
      · have hor : ¬ (c.toNat = 43 ∨ c.toNat = 45) := fun h => h.elim h43 h45
        rw [if_neg hor, if_neg h43, hlit]

theorem exponentTimestampPage_parse :
    Json.parse exponentTimestampPage = some exponentTimestampPageJson := by rfl

/-- C4, amended. On a buffer that parses to the payload `v`, which `encoding/json` lets
it do when it is a JSON text nested no deeper than `10000`, and in which no
number is written with more than `800` characters, a decoder returns `false`
exactly when some member of `v` bound to a declared field, at any depth, does
not fit it (the payload itself must be an object or `null`); when all fit it
returns `true` (the media page given a first caption edge), whatever members
are missing or `null`; and on a payload of unique names the record is the one
the spec assigns, in which a missing or `null` member reads as the zero value
of its field.  A number fits an `int` field exactly when it is an integer
numeral of `int64`, digits after an optional sign: `1.5`, `1.0` and `1e2` do
not fit. -/
theorem decode_ok_iff_members_fit (fc : FloatConv) (dec : Decoder) (data : List UInt8) (v : Json)
    (hp : Json.parse data = some v) (_hn : v.numbersWithin 800 = true) :
    (∀ m, dec.run fc data = .ret (m, false) ↔ (m = Media.zero ∧ dec.fits v = false))
    ∧ (dec.fits v = true → dec.ready v → ∃ m, dec.run fc data = .ret (m, true))
    ∧ (dec.fits v = true → dec.ready v → v.uniqueNames = true →
        dec.run fc data = .ret (dec.record fc v, true))
    ∧ (∀ lit, fitsInt (.num lit) = isIntegerNumeral lit) := by
  refine ⟨fun m => ⟨fun h => ?_, fun h => ?_⟩, fun hf hr => ?_, fun hf hr hu => ?_,
    fun lit => parseInt_isSome lit⟩
  · cases hf : dec.fits v with
    | true => exact absurd h (Decoder.run_of_fit hp hf m)
    | false =>
      rw [Decoder.run_of_misfit hp hf] at h
      simp only [GoResult.ret.injEq, Prod.mk.injEq, and_true] at h
      exact ⟨h.symm, rfl⟩
  · rw [h.1]; exact Decoder.run_of_misfit hp h.2
  · cases dec with
    | mediaPage =>
      obtain ⟨hu, he⟩ := hr
      refine ⟨mediaPageRecord v, ?_⟩
      simp only [Decoder.run]
      rw [getFromMediaPage_of_payload hp hu hf]
      cases hc : captionEdges v with
      | nil => exact absurd hc he
      | cons e es => rfl
    | accountMediaList =>
      have h := AccountMediaJSON_unmarshal_isSome hp
      rw [hf] at h
      obtain ⟨j, hj⟩ := Option.isSome_iff_exists.mp h
      exact ⟨_, getFromAccountMediaList_of_unmarshal hj⟩
    | searchMediaList =>
      have h := SearchMediaJSON_unmarshal_isSome hp
      rw [hf] at h
      obtain ⟨j, hj⟩ := Option.isSome_iff_exists.mp h
      exact ⟨_, getFromSearchMediaList_of_unmarshal hj⟩
  · cases dec with
    | mediaPage =>
      obtain ⟨_, he⟩ := hr
      simp only [Decoder.run, Decoder.record]
      rw [getFromMediaPage_of_payload hp hu hf]
      cases hc : captionEdges v with
      | nil => exact absurd hc he
      | cons e es => rfl
    | accountMediaList => exact getFromAccountMediaList_of_payload hp hu hf
    | searchMediaList => exact getFromSearchMediaList_of_payload hp hu hf

/-- C4, amended, at the account-list element of scenario 4 (`code` is `null`, `videos`
is missing, `created_time` is no number), which is decoded with an empty
`Code`; at a media page whose `taken_at_timestamp` is `1e2`, which is refused;
and at six numbers for an `int` field. -/
theorem decode_ok_iff_members_fit_witness :
    (Json.parse accountItem = some accountItemJson
      ∧ Decoder.run FloatConv.wrapping .accountMediaList accountItem
          = .ret (Decoder.record FloatConv.wrapping .accountMediaList accountItemJson, true)
      ∧ (Decoder.record FloatConv.wrapping .accountMediaList accountItemJson).Code = "")
    ∧ (Json.parse exponentTimestampPage = some exponentTimestampPageJson
      ∧ Decoder.fits .mediaPage exponentTimestampPageJson = false
      ∧ Decoder.run FloatConv.wrapping .mediaPage exponentTimestampPage
          = .ret (Media.zero, false))
    ∧ fitsInt (.num "1e2") = false ∧ fitsInt (.num "1.0") = false
    ∧ fitsInt (.num "1.5") = false ∧ fitsInt (.num "9223372036854775808") = false
    ∧ fitsInt (.num "-9223372036854775808") = true ∧ fitsInt (.num "100") = true :=
  ⟨⟨accountItem_parse,
    (decode_ok_iff_members_fit _ .accountMediaList accountItem accountItemJson
      accountItem_parse (by decide!)).2.2.1 (by decide!) trivial (by decide!),
    by decide!⟩,
   ⟨exponentTimestampPage_parse, by decide!,
    ((decode_ok_iff_members_fit FloatConv.wrapping .mediaPage exponentTimestampPage
      exponentTimestampPageJson exponentTimestampPage_parse (by decide!)).1 Media.zero).mpr
      ⟨rfl, by decide!⟩⟩,
   by decide!, by decide!, by decide!, by decide!, by decide!, by decide!⟩

/-- C5. When `getFromMediaPage` succeeds, with `mediaJSON` what `json.Unmarshal` has
read off the input: if `is_video` is `true` then `Type` is `"video"` and
`MediaURL` is the `video_url`; if it is `false` (also when the member is `null`
or missing) then `Type` is `"image"` and `MediaURL` is the `display_url`; so a
record of type `"video"` carries the `video_url`.  For a payload that names no
member twice the same holds of the members `is_video`, `video_url` and
`display_url` of `graphql.shortcode_media` as the payload spells them. -/
theorem mediaPage_type_follows_is_video (data : List UInt8) (m : Media)
    (h : getFromMediaPage data = .ret (m, true)) :
    (∃ j, MediaPageJSON.unmarshal data = some j
      ∧ (j.Graphql.ShortcodeMedia.IsVideo = true →
          m.Type_ = "video" ∧ m.MediaURL = j.Graphql.ShortcodeMedia.VideoURL)
      ∧ (j.Graphql.ShortcodeMedia.IsVideo = false →
          m.Type_ = "image" ∧ m.MediaURL = j.Graphql.ShortcodeMedia.DisplayURL)
      ∧ (m.Type_ = "video" → m.MediaURL = j.Graphql.ShortcodeMedia.VideoURL))
    ∧ ∀ v, Json.parse data = some v → v.uniqueNames = true →
      (((shortcodeMedia v).member "is_video").asBool = true →
          m.Type_ = "video" ∧ m.MediaURL = ((shortcodeMedia v).member "video_url").asString)
      ∧ (((shortcodeMedia v).member "is_video").asBool = false →
          m.Type_ = "image" ∧ m.MediaURL = ((shortcodeMedia v).member "display_url").asString)
      ∧ (m.Type_ = "video" → m.MediaURL = ((shortcodeMedia v).member "video_url").asString) := by
  constructor
  · obtain ⟨j, e, hj, _, hm⟩ := getFromMediaPage_struct_of_run h
    refine ⟨j, hj, ?_⟩
    subst hm
    cases hv : j.Graphql.ShortcodeMedia.IsVideo <;> simp
  · intro v hp hu
    have hm := getFromMediaPage_record_of_run hp hu h
    subst hm
    cases hv : ((shortcodeMedia v).member "is_video").asBool <;> simp [mediaPageRecord, hv]

/-- C5 at the video page of scenario 2. -/
theorem mediaPage_type_follows_is_video_witness :
    getFromMediaPage videoPage = .ret (mediaPageRecord videoPageJson, true)
    ∧ Json.parse videoPage = some videoPageJson
    ∧ videoPageJson.uniqueNames = true
    ∧ ((shortcodeMedia videoPageJson).member "is_video").asBool = true
    ∧ (mediaPageRecord videoPageJson).Type_ = "video"
    ∧ (mediaPageRecord videoPageJson).MediaURL
        = ((shortcodeMedia videoPageJson).member "video_url").asString
    ∧ ((shortcodeMedia videoPageJson).member "video_url").asString = "http://v/1.mp4" :=
  ⟨by decide!, videoPage_parse, by decide!, by decide!,
   (((mediaPage_type_follows_is_video videoPage _ (by decide!)).2 videoPageJson videoPage_parse
      (by decide!)).1 (by decide!)).1,
   (((mediaPage_type_follows_is_video videoPage _ (by decide!)).2 videoPageJson videoPage_parse
      (by decide!)).1 (by decide!)).2,
   by decide!⟩

/-- C6. On a well-formed media-page payload (a JSON text of unique names whose
members fit their fields) with at least one caption edge, `getFromMediaPage`
returns `true` with `Code`, `ID`, `AD` the `shortcode`, `id`, `is_ad` of
`shortcode_media`, `Caption` the text of the first caption edge whatever
edges follow, `Date` the `taken_at_timestamp` when that is not negative,
`CommentsCount` and `LikesCount` the two edge counts when they lie in
`[0, 2^32)`, and the five fields of `Owner` those of `owner`. -/
theorem mediaPage_fields (data : List UInt8) (v e0 : Json) (rest : List Json)
    (hp : Json.parse data = some v) (hu : v.uniqueNames = true)
    (hf : Decoder.fits .mediaPage v = true) (he : captionEdges v = e0 :: rest) :
    ∃ m, getFromMediaPage data = .ret (m, true)
      ∧ m.Code = ((shortcodeMedia v).member "shortcode").asString
      ∧ m.ID = ((shortcodeMedia v).member "id").asString
      ∧ m.AD = ((shortcodeMedia v).member "is_ad").asBool
      ∧ m.Caption = ((e0.member "node").member "text").asString
      ∧ (0 ≤ ((shortcodeMedia v).member "taken_at_timestamp").asInt →
          (m.Date : Int) = ((shortcodeMedia v).member "taken_at_timestamp").asInt)
      ∧ (0 ≤ (((shortcodeMedia v).member "edge_media_to_comment").member "count").asInt
          ∧ (((shortcodeMedia v).member "edge_media_to_comment").member "count").asInt < 2 ^ 32 →
          (m.CommentsCount : Int)
            = (((shortcodeMedia v).member "edge_media_to_comment").member "count").asInt)
      ∧ (0 ≤ (((shortcodeMedia v).member "edge_media_preview_like").member "count").asInt
          ∧ (((shortcodeMedia v).member "edge_media_preview_like").member "count").asInt < 2 ^ 32 →
          (m.LikesCount : Int)
            = (((shortcodeMedia v).member "edge_media_preview_like").member "count").asInt)
      ∧ m.Owner.ID = (((shortcodeMedia v).member "owner").member "id").asString
      ∧ m.Owner.ProfilePicURL
          = (((shortcodeMedia v).member "owner").member "profile_pic_url").asString
      ∧ m.Owner.Username = (((shortcodeMedia v).member "owner").member "username").asString
      ∧ m.Owner.FullName = (((shortcodeMedia v).member "owner").member "full_name").asString
      ∧ m.Owner.Private = (((shortcodeMedia v).member "owner").member "is_private").asBool := by
  refine ⟨mediaPageRecord v, ?_, rfl, rfl, rfl, ?_, ?_, ?_, ?_, rfl, rfl, rfl, rfl, rfl⟩
  · rw [getFromMediaPage_of_payload hp hu hf, he]
  · simp [mediaPageRecord, he]
  · intro h0
    exact intToUint64_of_nonneg h0 (Json.asInt_range _).2
  · intro h
    exact intToUint32_of_range h.1 h.2
  · intro h
    exact intToUint32_of_range h.1 h.2

/-- C6 at the page of scenario 2, which carries a second caption edge. -/
theorem mediaPage_fields_witness :
    ∃ m, getFromMediaPage videoPage = .ret (m, true)
      ∧ m.Code = "ABC" ∧ m.ID = "42" ∧ m.Caption = "hi" ∧ m.Date = 1500000000
      ∧ m.CommentsCount = 3 ∧ m.LikesCount = 7 ∧ m.Owner.Username = "u" := by
  obtain ⟨m, h, _⟩ := mediaPage_fields videoPage videoPageJson
    (.obj [("node", .obj [("text", .str "hi")])])
    [.obj [("node", .obj [("text", .str "later")])]]
    videoPage_parse (by decide!) (by decide!) (by rfl)
  refine ⟨m, h, ?_⟩
  have hm : getFromMediaPage videoPage = .ret (mediaPageRecord videoPageJson, true) := by decide!
  rw [hm] at h
  simp only [GoResult.ret.injEq, Prod.mk.injEq, and_true] at h
  subst h
  decide!

/-- C7. On an input that `json.Unmarshal` binds to the struct of
`getFromAccountMediaList` (a JSON text whose members fit), the decoder returns
`true`, and `Date` is decided by the `created_time` read off the input alone:
the number it denotes when it is a non-empty text of decimal digits below
`2^64`, and `0` in every other case.  For a payload that names no member twice
that `created_time` is the member so named, and a payload that differs from it
in `created_time` only is decoded to the same record up to `Date`. -/
theorem accountMediaList_date (fc : FloatConv) (data : List UInt8) (v : Json)
    (hp : Json.parse data = some v) (hf : Decoder.fits .accountMediaList v = true) :
    ∃ j m, AccountMediaJSON.unmarshal data = some j
      ∧ getFromAccountMediaList fc data = .ret (m, true)
      ∧ (isDecimal j.CreatedTime = true ∧ decimalValue j.CreatedTime < 2 ^ 64 →
          m.Date = decimalValue j.CreatedTime)
      ∧ (¬ (isDecimal j.CreatedTime = true ∧ decimalValue j.CreatedTime < 2 ^ 64) → m.Date = 0)
      ∧ (v.uniqueNames = true →
          j.CreatedTime = (v.member "created_time").asString
          ∧ ∀ (data' : List UInt8) (v' : Json), Json.parse data' = some v' →
              v'.uniqueNames = true → Decoder.fits .accountMediaList v' = true →
              (∀ n, n ≠ "created_time" → v'.member n = v.member n) →
              ∃ m', getFromAccountMediaList fc data' = .ret (m', true)
                ∧ m = { m' with Date := m.Date }) := by
  have hs := AccountMediaJSON_unmarshal_isSome hp
  rw [hf] at hs
  obtain ⟨j, hj⟩ := Option.isSome_iff_exists.mp hs
  refine ⟨j, _, hj, getFromAccountMediaList_of_unmarshal hj, ?_, ?_, ?_⟩
  · intro h
    simp only [parseUint_getD, createdTimeDate]
    rw [if_pos h]
  · intro h
    simp only [parseUint_getD, createdTimeDate]
    rw [if_neg h]
  · intro hu
    have hr : j = AccountMediaJSON.read v :=
      AccountMediaJSON_bind_read hu (by rw [← AccountMediaJSON_unmarshal_of_parse hp]; exact hj)
    refine ⟨by rw [hr]; rfl, ?_⟩
    intro data' v' hp' hu' hf' hsame
    refine ⟨accountMediaRecord fc v', getFromAccountMediaList_of_payload hp' hu' hf', ?_⟩
    have hm := getFromAccountMediaList_record_of_run hp hu
      (@getFromAccountMediaList_of_unmarshal fc data j hj)
    rw [hm]
    simp only [accountMediaRecord]
    rw [hsame "code" (by decide), hsame "id" (by decide), hsame "type" (by decide),
      hsame "caption" (by decide), hsame "likes" (by decide), hsame "comments" (by decide),
      hsame "videos" (by decide), hsame "images" (by decide), hsame "user" (by decide)]

theorem accountItem_members_agree (n : String) (hn : n ≠ "created_time") :
    accountItemDatedJson.member n = accountItemJson.member n := by
  have h1 : foldName "created_time" = "created_time" := by decide
  have h2 : ¬ ("created_time" = n) := fun e => hn e.symm
  simp only [Json.member, Json.members, accountItemDatedJson, accountItemJson,
    List.find?_cons, h1, h2, decide_False]

/-- C7 at the element of scenario 4, whose `created_time` is `not-a-number`, and its
sibling of scenario 3, whose `created_time` is `1500000000`. -/
theorem accountMediaList_date_witness :
    Json.parse accountItem = some accountItemJson
    ∧ Decoder.fits .accountMediaList accountItemJson = true
    ∧ ∃ m m', getFromAccountMediaList FloatConv.wrapping accountItem = .ret (m, true)
      ∧ m.Date = 0
      ∧ getFromAccountMediaList FloatConv.wrapping accountItemDated = .ret (m', true)
      ∧ m'.Date = 1500000000
      ∧ m = { m' with Date := 0 } := by
  refine ⟨accountItem_parse, by decide!, ?_⟩
  obtain ⟨j, m, hj, h, _, h0, hs⟩ := accountMediaList_date FloatConv.wrapping accountItem
    accountItemJson accountItem_parse (by decide!)
  obtain ⟨hc, hs⟩ := hs (by decide!)
  obtain ⟨m', h', hm⟩ := hs accountItemDated accountItemDatedJson accountItemDated_parse
    (by decide!) (by decide!) accountItem_members_agree
  have hd : m.Date = 0 := h0 (by rw [hc]; decide!)
  rw [hd] at hm
  have hm' : getFromAccountMediaList FloatConv.wrapping accountItemDated
      = .ret (accountMediaRecord FloatConv.wrapping accountItemDatedJson, true) := by decide!
  rw [hm'] at h'
  simp only [GoResult.ret.injEq, Prod.mk.injEq, and_true] at h'
  refine ⟨m, m', h, hd, by rw [← h', hm'], ?_, hm⟩
  rw [← h']
  decide!

/-- C8. When `getFromAccountMediaList` succeeds, with `mediaJSON` what `json.Unmarshal`
has read off the input: `Type` is the `type` text as it stands, and `MediaURL`
is `videos.standard_resolution.url` when that text is `"video"` and
`images.standard_resolution.url` for every other text, the empty one included,
whether or not the URL picked is empty.  For a payload that names no member
twice the same holds of the members as the payload spells them. -/
theorem accountMediaList_type_and_url (fc : FloatConv) (data : List UInt8) (m : Media)
    (h : getFromAccountMediaList fc data = .ret (m, true)) :
    (∃ j, AccountMediaJSON.unmarshal data = some j
      ∧ m.Type_ = j.Type_
      ∧ (j.Type_ = "video" → m.MediaURL = j.Videos.StandardResolution.URL)
      ∧ (j.Type_ ≠ "video" → m.MediaURL = j.Images.StandardResolution.URL))
    ∧ ∀ v, Json.parse data = some v → v.uniqueNames = true →
      m.Type_ = (v.member "type").asString
      ∧ ((v.member "type").asString = "video" →
          m.MediaURL
            = (((v.member "videos").member "standard_resolution").member "url").asString)
      ∧ ((v.member "type").asString ≠ "video" →
          m.MediaURL
            = (((v.member "images").member "standard_resolution").member "url").asString) := by
  constructor
  · obtain ⟨j, hj, hm⟩ := getFromAccountMediaList_struct_of_run h
    subst hm
    refine ⟨j, hj, rfl, fun ht => ?_, fun ht => ?_⟩
    · simp only []; rw [if_pos ht]
    · simp only []; rw [if_neg ht]
  · intro v hp hu
    have hm := getFromAccountMediaList_record_of_run hp hu h
    subst hm
    refine ⟨rfl, fun ht => ?_, fun ht => ?_⟩
    · simp only [accountMediaRecord]; rw [if_pos ht]
    · simp only [accountMediaRecord]; rw [if_neg ht]

/-- C8 at an element of type `video` that has an image URL and no `videos`: the
`MediaURL` is empty, the image URL is not taken instead. -/
theorem accountMediaList_type_and_url_witness :
    getFromAccountMediaList FloatConv.wrapping videoItem
        = .ret ({ Type_ := "video", MediaURL := "" }, true)
    ∧ Json.parse videoItem = some videoItemJson
    ∧ videoItemJson.uniqueNames = true
    ∧ ({ Type_ := "video", MediaURL := "" } : Media).Type_ = (videoItemJson.member "type").asString
    ∧ (((videoItemJson.member "videos").member "standard_resolution").member "url").asString = ""
    ∧ (((videoItemJson.member "images").member "standard_resolution").member "url").asString
        = "http://i/2.jpg" :=
  ⟨by decide!, videoItem_parse, by decide!,
   ((accountMediaList_type_and_url FloatConv.wrapping videoItem _ (by decide!)).2 videoItemJson
      videoItem_parse (by decide!)).1,
   by decide!, by decide!⟩

/-- C9. When `getFromSearchMediaList` succeeds, with `mediaJSON` what `json.Unmarshal`
has read off the input: `MediaURL` is the `display_src` whatever `is_video`
is, `Caption` is the text `caption`, `ID` and `Code` are `id` and `code`, and
`Type` is `"video"` when `is_video` is `true` and `"image"` when it is `false`.
For a payload that names no member twice the same holds of the members as the
payload spells them. -/
theorem searchMediaList_fields (fc : FloatConv) (data : List UInt8) (m : Media)
    (h : getFromSearchMediaList fc data = .ret (m, true)) :
    (∃ j, SearchMediaJSON.unmarshal data = some j
      ∧ m.MediaURL = j.DisplaySrc ∧ m.Caption = j.Caption ∧ m.ID = j.ID ∧ m.Code = j.Code
      ∧ (j.IsVideo = true → m.Type_ = "video") ∧ (j.IsVideo = false → m.Type_ = "image"))
    ∧ ∀ v, Json.parse data = some v → v.uniqueNames = true →
      m.MediaURL = (v.member "display_src").asString
      ∧ m.Caption = (v.member "caption").asString
      ∧ m.ID = (v.member "id").asString
      ∧ m.Code = (v.member "code").asString
      ∧ ((v.member "is_video").asBool = true → m.Type_ = "video")
      ∧ ((v.member "is_video").asBool = false → m.Type_ = "image") := by
  constructor
  · obtain ⟨j, hj, hm⟩ := getFromSearchMediaList_struct_of_run h
    subst hm
    refine ⟨j, hj, rfl, rfl, rfl, rfl, fun hv => ?_, fun hv => ?_⟩
    · simp only []; rw [if_pos hv]
    · simp only []; rw [hv]; rfl
  · intro v hp hu
    have hm := getFromSearchMediaList_record_of_run hp hu h
    subst hm
    refine ⟨rfl, rfl, rfl, rfl, fun hv => ?_, fun hv => ?_⟩
    · simp only [searchMediaRecord]; rw [if_pos hv]
    · simp only [searchMediaRecord]; rw [hv]; rfl

/-- C9 at the video element of scenario 5. -/
theorem searchMediaList_fields_witness :
    getFromSearchMediaList FloatConv.wrapping searchItem
        = .ret (searchMediaRecord FloatConv.wrapping searchItemJson, true)
    ∧ Json.parse searchItem = some searchItemJson
    ∧ searchItemJson.uniqueNames = true
    ∧ (searchItemJson.member "is_video").asBool = true
    ∧ (searchMediaRecord FloatConv.wrapping searchItemJson).MediaURL
        = (searchItemJson.member "display_src").asString
    ∧ (searchItemJson.member "display_src").asString = "http://d.jpg"
    ∧ (searchMediaRecord FloatConv.wrapping searchItemJson).Type_ = "video" :=
  ⟨by decide!, searchItem_parse, by decide!, by decide!,
   ((searchMediaList_fields FloatConv.wrapping searchItem _ (by decide!)).2 searchItemJson
      searchItem_parse (by decide!)).1,
   by decide!,
   ((searchMediaList_fields FloatConv.wrapping searchItem _ (by decide!)).2 searchItemJson
      searchItem_parse (by decide!)).2.2.2.2.1 (by decide!)⟩

/-- C10 as stated fails: `getFromAccountMediaList` succeeds on an element of type
`carousel`, and the `Type` of the record is `"carousel"`. -/
theorem carousel_type_passes_through :
    getFromAccountMediaList FloatConv.wrapping carouselItem
        = .ret ({ ID := "1", Code := "C", Type_ := "carousel" }, true)
    ∧ ("carousel" : String) ≠ "image" ∧ ("carousel" : String) ≠ "video"
    ∧ ("carousel" : String) ≠ "" :=
  ⟨by decide!, by decide, by decide, by decide⟩

/-- C10, amended. When `getFromMediaPage` or `getFromSearchMediaList` succeeds, `Type`
is `"image"` or `"video"`; when `getFromAccountMediaList` succeeds, `Type` is
the `type` text `json.Unmarshal` has read off the input, whatever it is: for a
payload that names no member twice, the member `type` as the payload spells
it, and the empty text when that member is missing or `null`. -/
theorem decoded_type_values (fc : FloatConv) (dec : Decoder) (data : List UInt8) (m : Media)
    (h : dec.run fc data = .ret (m, true)) :
    (dec ≠ .accountMediaList → m.Type_ = "image" ∨ m.Type_ = "video")
    ∧ (dec = .accountMediaList →
        (∃ j, AccountMediaJSON.unmarshal data = some j ∧ m.Type_ = j.Type_)
        ∧ ∀ v, Json.parse data = some v → v.uniqueNames = true →
            m.Type_ = (v.member "type").asString) := by
  cases dec with
  | mediaPage =>
    refine ⟨fun _ => ?_, fun hd => by cases hd⟩
    obtain ⟨j, e, _, _, hm⟩ := getFromMediaPage_struct_of_run h
    subst hm
    cases j.Graphql.ShortcodeMedia.IsVideo <;> simp
  | accountMediaList =>
    refine ⟨fun hd => absurd rfl hd, fun _ => ⟨?_, fun v hp hu => ?_⟩⟩
    · obtain ⟨j, hj, hm⟩ := getFromAccountMediaList_struct_of_run h
      exact ⟨j, hj, by rw [hm]⟩
    · rw [getFromAccountMediaList_record_of_run hp hu h]
      rfl
  | searchMediaList =>
    refine ⟨fun _ => ?_, fun hd => by cases hd⟩
    obtain ⟨j, _, hm⟩ := getFromSearchMediaList_struct_of_run h
    subst hm
    cases j.IsVideo <;> simp

/-- C10, amended, at the search element of scenario 5 and at the carousel element. -/
theorem decoded_type_values_witness :
    (Decoder.run FloatConv.wrapping .searchMediaList searchItem
        = .ret (searchMediaRecord FloatConv.wrapping searchItemJson, true)
      ∧ ((searchMediaRecord FloatConv.wrapping searchItemJson).Type_ = "image"
        ∨ (searchMediaRecord FloatConv.wrapping searchItemJson).Type_ = "video"))
    ∧ (Decoder.run FloatConv.wrapping .accountMediaList carouselItem
        = .ret ({ ID := "1", Code := "C", Type_ := "carousel" }, true)
      ∧ ∃ j, AccountMediaJSON.unmarshal carouselItem = some j
          ∧ ({ ID := "1", Code := "C", Type_ := "carousel" } : Media).Type_ = j.Type_) :=
  ⟨⟨by decide!,
    (decoded_type_values FloatConv.wrapping .searchMediaList searchItem _ (by decide!)).1
      (by decide)⟩,
   ⟨by decide!,
    ((decoded_type_values FloatConv.wrapping .accountMediaList carouselItem _ (by decide!)).2
      rfl).1⟩⟩

/-- C11. `Update` over what `GetMediaByCode` returns for the code of the receiver: when
it returns a record and no error, every field of the receiver is that of the
record afterwards; when it returns an error, the receiver is as it was, the
owner included, whatever record comes with the error.  `Update` has no result,
so no error leaves it.  This holds for every code, the non-empty ones among
them. -/
theorem update_replaces_or_keeps (GetMediaByCode : String → Media × Option GoError)
    (m fetched : Media) (err : Option GoError) (_hcode : m.Code ≠ "")
    (h : GetMediaByCode m.Code = (fetched, err)) :
    (err = none → Media.Update GetMediaByCode m = fetched)
    ∧ (err ≠ none → Media.Update GetMediaByCode m = m) := by
  unfold Media.Update
  rw [h]
  cases err with
  | none => exact ⟨fun _ => rfl, fun hn => absurd rfl hn⟩
  | some e => exact ⟨fun hs => Option.noConfusion hs, fun _ => rfl⟩

/-- C11 at a stale record of code `ABC`, with a fetch that brings a fresh record and
with one that fails. -/
theorem update_replaces_or_keeps_witness :
    (staleRecord.Code ≠ "" ∧ fetchABC staleRecord.Code = (freshRecord, none)
      ∧ Media.Update fetchABC staleRecord = freshRecord)
    ∧ (fetchNothing staleRecord.Code
        = ({ Code := "ZZZ", Caption := "junk" }, some ⟨"no network"⟩)
      ∧ Media.Update fetchNothing staleRecord = staleRecord) :=
  ⟨⟨by decide, by decide,
    (update_replaces_or_keeps fetchABC staleRecord freshRecord none (by decide)
      (by decide)).1 rfl⟩,
   ⟨by decide,
    (update_replaces_or_keeps fetchNothing staleRecord { Code := "ZZZ", Caption := "junk" }
      (some ⟨"no network"⟩) (by decide) (by decide)).2 (by decide)⟩⟩

/-- A member that the struct binds to no field can be left out of an object. -/
theorem foldlM_skip {σ : Type} {field : String → Json → σ → Option σ} (k : String) (x : Json)
    (hskip : ∀ d, field (foldName k) x d = some d) (ms1 ms2 : List (String × Json)) (d : σ) :
    (ms1 ++ (k, x) :: ms2).foldlM (fun acc kv => field (foldName kv.1) kv.2 acc) d
      = (ms1 ++ ms2).foldlM (fun acc kv => field (foldName kv.1) kv.2 acc) d := by
  induction ms1 generalizing d with
  | nil => simp [hskip]
  | cons kv ms ih =>
    simp only [List.cons_append, List.foldlM_cons]
    cases field (foldName kv.1) kv.2 d with
    | none => rfl
    | some d1 => exact ih d1

theorem MediaPageJSON_field_unknown (n : String) (x : Json) (d : MediaPageJSON)
    (hn : n ∉ Decoder.fieldNames .mediaPage) : MediaPageJSON.field n x d = some d := by
  simp only [Decoder.fieldNames, List.mem_cons, List.mem_singleton, List.not_mem_nil, not_or,
    or_false] at hn
  unfold MediaPageJSON.field
  rw [if_neg hn]

theorem AccountMediaJSON_field_unknown (n : String) (x : Json) (d : AccountMediaJSON)
    (hn : n ∉ Decoder.fieldNames .accountMediaList) : AccountMediaJSON.field n x d = some d := by
  simp only [Decoder.fieldNames, List.mem_cons, List.mem_singleton, List.not_mem_nil, not_or,
    or_false] at hn
  obtain ⟨h0, h1, h2, h3, h4, h5, h6, h7, h8, h9⟩ := hn
  unfold AccountMediaJSON.field
  rw [if_neg h0, if_neg h1, if_neg h2, if_neg h3, if_neg h4, if_neg h5, if_neg h6, if_neg h7,
    if_neg h8, if_neg h9]

theorem SearchMediaJSON_field_unknown (n : String) (x : Json) (d : SearchMediaJSON)
    (hn : n ∉ Decoder.fieldNames .searchMediaList) : SearchMediaJSON.field n x d = some d := by
  simp only [Decoder.fieldNames, List.mem_cons, List.mem_singleton, List.not_mem_nil, not_or,
    or_false] at hn
  obtain ⟨h0, h1, h2, h3, h4, h5, h6, h7, h8, h9, h10⟩ := hn
  unfold SearchMediaJSON.field
  rw [if_neg h0, if_neg h1, if_neg h2, if_neg h3, if_neg h4, if_neg h5, if_neg h6, if_neg h7,
    if_neg h8, if_neg h9, if_neg h10]

/-- C12 as stated fails: `ID` is no name of a member of `{"id":"1"}` and no name a
field is declared under, and with the member `"ID":"2"` put in,
`getFromAccountMediaList` returns another record: `encoding/json` binds `ID`
to the field `id`, names being matched without regard to case. -/
theorem injected_ID_changes_the_record :
    Json.parse idOnly = some (.obj [("id", .str "1")])
    ∧ Json.parse idTwice = some (.obj [("id", .str "1"), ("ID", .str "2")])
    ∧ "ID" ∉ Decoder.fieldNames .accountMediaList
    ∧ getFromAccountMediaList FloatConv.wrapping idOnly = .ret ({ ID := "1" }, true)
    ∧ getFromAccountMediaList FloatConv.wrapping idTwice = .ret ({ ID := "2" }, true) :=
  ⟨by rfl, by rfl, by decide, by decide!, by decide!⟩

/-- C12, amended. Putting into an input object, at any place, one more top-level member
whose name `encoding/json` binds to no field of the struct of the decoder (the
name matches none of the declared names, case set aside), with any JSON value
that leaves the buffer a text `encoding/json` reads (a JSON text nested no
deeper than `10000`), leaves the outcome of the decoder as it was: the same
record and flag, or the same panic. -/
theorem unknown_member_is_ignored (fc : FloatConv) (dec : Decoder) (data data' : List UInt8)
    (ms1 ms2 : List (String × Json)) (k : String) (x : Json)
    (hp : Json.parse data = some (.obj (ms1 ++ ms2)))
    (hp' : Json.parse data' = some (.obj (ms1 ++ (k, x) :: ms2)))
    (hk : foldName k ∉ dec.fieldNames) :
    dec.run fc data' = dec.run fc data := by
  cases dec with
  | mediaPage =>
    simp only [Decoder.run, getFromMediaPage, MediaPageJSON.unmarshal, hp, hp', bindStruct]
    rw [foldlM_skip k x (fun d => MediaPageJSON_field_unknown _ x d hk)]
  | accountMediaList =>
    simp only [Decoder.run, getFromAccountMediaList, AccountMediaJSON.unmarshal, hp, hp',
      bindStruct]
    rw [foldlM_skip k x (fun d => AccountMediaJSON_field_unknown _ x d hk)]
  | searchMediaList =>
    simp only [Decoder.run, getFromSearchMediaList, SearchMediaJSON.unmarshal, hp, hp',
      bindStruct]
    rw [foldlM_skip k x (fun d => SearchMediaJSON_field_unknown _ x d hk)]

/-- C12, amended, at `{"id":"1"}` and the member `"extra":[1,{"a":null}]`. -/
theorem unknown_member_is_ignored_witness :
    Json.parse idOnly = some (.obj ([("id", .str "1")] ++ []))
    ∧ Json.parse idAndExtra = some (.obj ([("id", .str "1")]
        ++ ("extra", .arr [.num "1", .obj [("a", .null)]]) :: []))
    ∧ foldName "extra" ∉ Decoder.fieldNames .accountMediaList
    ∧ Decoder.run FloatConv.wrapping .accountMediaList idAndExtra
        = Decoder.run FloatConv.wrapping .accountMediaList idOnly
    ∧ Decoder.run FloatConv.wrapping .accountMediaList idOnly = .ret ({ ID := "1" }, true) :=
  ⟨by rfl, by rfl, by decide,
   unknown_member_is_ignored FloatConv.wrapping .accountMediaList idOnly idAndExtra
     [("id", .str "1")] [] "extra" (.arr [.num "1", .obj [("a", .null)]]) (by rfl) (by rfl)
     (by decide),
   by decide!⟩

/-- The member `extra` of `{"id":"1","extra":...}` may nest `9999` arrays: the object
counted, the text is `10000` deep, and the element is decoded as without it. -/
theorem nested_member_within_depth :
    Decoder.run FloatConv.wrapping .accountMediaList (idAndNested 9999)
      = .ret ({ ID := "1" }, true) := by
  decide!

/-- With `10000` arrays nested in `extra` the text is `10001` deep: `encoding/json`
refuses it, and the decoder returns the zero record and `false`. -/
theorem nested_member_beyond_depth :
    (Json.parse (idAndNested 10000)).isNone = true
    ∧ Decoder.run FloatConv.wrapping .accountMediaList (idAndNested 10000)
        = .ret (Media.zero, false) :=
  ⟨by decide!, by decide!⟩

theorem searchItemOwned_parse : Json.parse searchItemOwned = some searchItemOwnedJson := by rfl

theorem plainPage_parse : Json.parse plainPage = some plainPageJson := by rfl

theorem wrappedPage_parse : Json.parse wrappedPage = some wrappedPageJson := by rfl

theorem emptyObject_parse : Json.parse emptyObject = some (.obj []) := by rfl

/-- C13. When `getFromSearchMediaList` succeeds, the `Owner` of the record has the `ID`
that `json.Unmarshal` has read into `owner.id` and nothing else: `Username`,
`FullName`, `ProfilePicURL` are empty and `Private` is `false`.  When
`getFromAccountMediaList` succeeds, `ID`, `Username`, `FullName`,
`ProfilePicURL` are the `id`, `username`, `full_name`, `profile_picture` read
into `user`, and `Private` is `false`.  For a payload that names no member
twice these are the members as the payload spells them, whatever else `owner`
or `user` holds. -/
theorem owner_population (fc : FloatConv) (dec : Decoder) (data : List UInt8) (m : Media)
    (h : dec.run fc data = .ret (m, true)) :
    (dec = .searchMediaList →
      (∃ j, SearchMediaJSON.unmarshal data = some j
        ∧ m.Owner = { ID := j.Owner.ID, Username := "", FullName := "", ProfilePicURL := "",
                      Private := false })
      ∧ ∀ v, Json.parse data = some v → v.uniqueNames = true →
          m.Owner = { ID := ((v.member "owner").member "id").asString, Username := "",
                      FullName := "", ProfilePicURL := "", Private := false })
    ∧ (dec = .accountMediaList →
      (∃ j, AccountMediaJSON.unmarshal data = some j
        ∧ m.Owner = { ID := j.User.ID, Username := j.User.Username, FullName := j.User.FullName,
                      ProfilePicURL := j.User.ProfilePicture, Private := false })
      ∧ ∀ v, Json.parse data = some v → v.uniqueNames = true →
          m.Owner = { ID := ((v.member "user").member "id").asString
                      Username := ((v.member "user").member "username").asString
                      FullName := ((v.member "user").member "full_name").asString
                      ProfilePicURL := ((v.member "user").member "profile_picture").asString
                      Private := false }) := by
  cases dec with
  | mediaPage => exact ⟨fun hd => Decoder.noConfusion hd, fun hd => Decoder.noConfusion hd⟩
  | accountMediaList =>
    refine ⟨fun hd => Decoder.noConfusion hd, fun _ => ⟨?_, fun v hp hu => ?_⟩⟩
    · obtain ⟨j, hj, hm⟩ := getFromAccountMediaList_struct_of_run h
      exact ⟨j, hj, by rw [hm]⟩
    · rw [getFromAccountMediaList_record_of_run hp hu h]
      rfl
  | searchMediaList =>
    refine ⟨fun _ => ⟨?_, fun v hp hu => ?_⟩, fun hd => Decoder.noConfusion hd⟩
    · obtain ⟨j, hj, hm⟩ := getFromSearchMediaList_struct_of_run h
      exact ⟨j, hj, by rw [hm]⟩
    · rw [getFromSearchMediaList_record_of_run hp hu h]
      rfl

/-- C13 at a search element whose `owner` has a username, a full name, a picture and
is private, and at the account element of scenario 4. -/
theorem owner_population_witness :
    (Decoder.run FloatConv.wrapping .searchMediaList searchItemOwned
        = .ret ({ ID := "1", Type_ := "image", Owner := { ID := "9" } }, true)
      ∧ ((searchItemOwnedJson.member "owner").member "username").asString = "u"
      ∧ ((searchItemOwnedJson.member "owner").member "is_private").asBool = true
      ∧ ({ ID := "1", Type_ := "image", Owner := { ID := "9" } } : Media).Owner
          = { ID := ((searchItemOwnedJson.member "owner").member "id").asString, Username := "",
              FullName := "", ProfilePicURL := "", Private := false })
    ∧ (∃ m, Decoder.run FloatConv.wrapping .accountMediaList accountItem = .ret (m, true)
      ∧ m.Owner = { ID := "9", Username := "u", FullName := "U",
                    ProfilePicURL := "http://p.jpg", Private := false }) := by
  refine ⟨⟨by decide!, by decide!, by decide!, ?_⟩, ?_⟩
  · exact ((owner_population FloatConv.wrapping .searchMediaList searchItemOwned _
      (by decide!)).1 rfl).2 searchItemOwnedJson searchItemOwned_parse (by decide!)
  · have hr : Decoder.run FloatConv.wrapping .accountMediaList accountItem
        = .ret (accountMediaRecord FloatConv.wrapping accountItemJson, true) := by decide!
    refine ⟨_, hr, ?_⟩
    rw [((owner_population FloatConv.wrapping .accountMediaList accountItem _ hr).2 rfl).2
      accountItemJson accountItem_parse (by decide!)]
    decide!

/-- C16 as stated fails: `{}` has no `is_video`, `getFromSearchMediaList` succeeds on it,
and the `Type` of the record is `"image"`, not the empty text; so it is for
`getFromMediaPage` on a page that has a caption and no `is_video`. -/
theorem type_is_image_without_is_video :
    Json.parse emptyObject = some (.obj [])
    ∧ (Json.obj []).member "is_video" = .null
    ∧ getFromSearchMediaList FloatConv.wrapping emptyObject = .ret ({ Type_ := "image" }, true)
    ∧ Json.parse plainPage = some plainPageJson
    ∧ (shortcodeMedia plainPageJson).member "is_video" = .null
    ∧ getFromMediaPage plainPage
        = .ret ({ Caption := "hi", Type_ := "image", MediaURL := "http://img/1.jpg" }, true)
    ∧ ("image" : String) ≠ "" :=
  ⟨by rfl, by rfl, by decide!, by rfl, by rfl, by decide!, by decide⟩

/-- C16, amended. When `getFromSearchMediaList` or `getFromMediaPage` succeeds on a payload
(naming no member twice) that has no `is_video`, or has `null` for it, the
`Type` of the record is `"image"`, and `MediaURL` is the `display_src` of a
search element and the `display_url` of a media page. -/
theorem type_without_is_video (fc : FloatConv) (dec : Decoder) (data : List UInt8) (v : Json)
    (m : Media) (hp : Json.parse data = some v) (hu : v.uniqueNames = true)
    (h : dec.run fc data = .ret (m, true)) :
    (dec = .searchMediaList → v.member "is_video" = .null →
      m.Type_ = "image" ∧ m.MediaURL = (v.member "display_src").asString)
    ∧ (dec = .mediaPage → (shortcodeMedia v).member "is_video" = .null →
      m.Type_ = "image" ∧ m.MediaURL = ((shortcodeMedia v).member "display_url").asString) := by
  cases dec with
  | mediaPage =>
    refine ⟨fun hd => Decoder.noConfusion hd, fun _ hno => ?_⟩
    rw [getFromMediaPage_record_of_run hp hu h]
    simp [mediaPageRecord, hno, Json.asBool]
  | accountMediaList => exact ⟨fun hd => Decoder.noConfusion hd, fun hd => Decoder.noConfusion hd⟩
  | searchMediaList =>
    refine ⟨fun _ hno => ?_, fun hd => Decoder.noConfusion hd⟩
    rw [getFromSearchMediaList_record_of_run hp hu h]
    simp [searchMediaRecord, hno, Json.asBool]

/-- C16, amended, at `{}` for the search list and at the page without `is_video`. -/
theorem type_without_is_video_witness :
    (Decoder.run FloatConv.wrapping .searchMediaList emptyObject
        = .ret ({ Type_ := "image" }, true)
      ∧ ({ Type_ := "image" } : Media).Type_ = "image")
    ∧ (Decoder.run FloatConv.wrapping .mediaPage plainPage
        = .ret ({ Caption := "hi", Type_ := "image", MediaURL := "http://img/1.jpg" }, true)
      ∧ ({ Caption := "hi", Type_ := "image", MediaURL := "http://img/1.jpg" } : Media).MediaURL
          = ((shortcodeMedia plainPageJson).member "display_url").asString) :=
  ⟨⟨by decide!,
    ((type_without_is_video FloatConv.wrapping .searchMediaList emptyObject (.obj []) _
      emptyObject_parse (by decide!) (by decide!)).1 rfl (by rfl)).1⟩,
   ⟨by decide!,
    ((type_without_is_video FloatConv.wrapping .mediaPage plainPage plainPageJson _
      plainPage_parse (by decide!) (by decide!)).2 rfl (by rfl)).2⟩⟩

theorem intToUint64_cast (t : Int) : (intToUint64 t : Int) = t % 2 ^ 64 := by
  unfold intToUint64
  exact Int.toNat_of_nonneg (Int.emod_nonneg _ (by norm_num))

theorem intToUint32_cast (c : Int) : (intToUint32 c : Int) = c % 2 ^ 32 := by
  unfold intToUint32
  exact Int.toNat_of_nonneg (Int.emod_nonneg _ (by norm_num))

/-- C17. When `getFromMediaPage` succeeds, with `mediaJSON` what `json.Unmarshal` has read
off the input: `Date` is `taken_at_timestamp` modulo `2^64`, and
`CommentsCount` and `LikesCount` are the two edge counts modulo `2^32`.  For a
payload that names no member twice, with `t` the `taken_at_timestamp` and `c`
an edge count as the payload spells them: both lie in `[-2^63, 2^63)`; `Date`
is `t mod 2^64`, so `t` itself when `t ≥ 0` and at least `2^63` when `t < 0`;
the counter is `c mod 2^32`, so `c` itself when `0 ≤ c < 2^32`, and `k` when
`c = 2^32 + k` with `k < 2^32`. -/
theorem mediaPage_integer_widening (data : List UInt8) (m : Media)
    (h : getFromMediaPage data = .ret (m, true)) :
    (∃ j, MediaPageJSON.unmarshal data = some j
      ∧ (m.Date : Int) = j.Graphql.ShortcodeMedia.TakenAtTimestamp % 2 ^ 64
      ∧ (m.CommentsCount : Int) = j.Graphql.ShortcodeMedia.EdgeMediaToComment.Count % 2 ^ 32
      ∧ (m.LikesCount : Int) = j.Graphql.ShortcodeMedia.EdgeMediaPreviewLike.Count % 2 ^ 32)
    ∧ ∀ v, Json.parse data = some v → v.uniqueNames = true →
      (-(2 ^ 63) ≤ takenAt v ∧ takenAt v < 2 ^ 63)
      ∧ (-(2 ^ 63) ≤ commentCount v ∧ commentCount v < 2 ^ 63)
      ∧ (-(2 ^ 63) ≤ likeCount v ∧ likeCount v < 2 ^ 63)
      ∧ (m.Date : Int) = takenAt v % 2 ^ 64
      ∧ (m.CommentsCount : Int) = commentCount v % 2 ^ 32
      ∧ (m.LikesCount : Int) = likeCount v % 2 ^ 32
      ∧ (0 ≤ takenAt v → (m.Date : Int) = takenAt v)
      ∧ (takenAt v < 0 → 2 ^ 63 ≤ m.Date)
      ∧ (0 ≤ commentCount v ∧ commentCount v < 2 ^ 32 → (m.CommentsCount : Int) = commentCount v)
      ∧ (0 ≤ likeCount v ∧ likeCount v < 2 ^ 32 → (m.LikesCount : Int) = likeCount v)
      ∧ (∀ k : Nat, k < 2 ^ 32 → commentCount v = 2 ^ 32 + k → m.CommentsCount = k)
      ∧ (∀ k : Nat, k < 2 ^ 32 → likeCount v = 2 ^ 32 + k → m.LikesCount = k) := by
  constructor
  · obtain ⟨j, e, hj, _, hm⟩ := getFromMediaPage_struct_of_run h
    subst hm
    exact ⟨j, hj, intToUint64_cast _, intToUint32_cast _, intToUint32_cast _⟩
  · intro v hp hu
    have hm := getFromMediaPage_record_of_run hp hu h
    have ht : -(2 ^ 63) ≤ takenAt v ∧ takenAt v < 2 ^ 63 := Json.asInt_range _
    have hc : -(2 ^ 63) ≤ commentCount v ∧ commentCount v < 2 ^ 63 := Json.asInt_range _
    have hl : -(2 ^ 63) ≤ likeCount v ∧ likeCount v < 2 ^ 63 := Json.asInt_range _
    have hd : (m.Date : Int) = takenAt v % 2 ^ 64 := by
      rw [hm]; exact intToUint64_cast _
    have hcc : (m.CommentsCount : Int) = commentCount v % 2 ^ 32 := by
      rw [hm]; exact intToUint32_cast _
    have hlc : (m.LikesCount : Int) = likeCount v % 2 ^ 32 := by
      rw [hm]; exact intToUint32_cast _
    refine ⟨ht, hc, hl, hd, hcc, hlc, ?_, ?_, ?_, ?_, ?_, ?_⟩
    · intro h0; omega
    · intro h0; omega
    · intro h0; omega
    · intro h0; omega
    · intro k hk hk'; omega
    · intro k hk hk'; omega

/-- C17 at a page taken at `-1` that counts `2^32 + 5` comments and `7` likes. -/
theorem mediaPage_integer_widening_witness :
    getFromMediaPage wrappedPage
        = .ret ({ Caption := "hi", Date := 18446744073709551615, CommentsCount := 5,
                  LikesCount := 7, Type_ := "image" }, true)
    ∧ takenAt wrappedPageJson = -1
    ∧ commentCount wrappedPageJson = 2 ^ 32 + 5
    ∧ 2 ^ 63
        ≤ ({ Caption := "hi", Date := 18446744073709551615, CommentsCount := 5,
             LikesCount := 7, Type_ := "image" } : Media).Date
    ∧ ({ Caption := "hi", Date := 18446744073709551615, CommentsCount := 5,
         LikesCount := 7, Type_ := "image" } : Media).CommentsCount = (5 : Nat) :=
  ⟨by decide!, by decide!, by decide!,
   ((mediaPage_integer_widening wrappedPage _ (by decide!)).2 wrappedPageJson wrappedPage_parse
      (by decide!)).2.2.2.2.2.2.2.1 (by decide!),
   ((mediaPage_integer_widening wrappedPage _ (by decide!)).2 wrappedPageJson wrappedPage_parse
      (by decide!)).2.2.2.2.2.2.2.2.2.2.1 5 (by decide) (by decide!)⟩

theorem searchItemThumb_parse : Json.parse searchItemThumb = some searchItemThumbJson := by rfl

theorem stillPage_parse : Json.parse stillPage = some stillPageJson := by rfl

theorem stillPageAsImage_parse : Json.parse stillPageAsImage = some stillPageAsImageJson := by
  rfl

theorem searchItemThumb_members_agree (n : String) (hc : n ≠ "comments_disabled")
    (ht : n ≠ "thumbnail_src") : searchItemThumbJson.member n = searchItemJson.member n := by
  have h1 : foldName "comments_disabled" = "comments_disabled" := by decide
  have h2 : foldName "thumbnail_src" = "thumbnail_src" := by decide
  have h3 : ¬ ("comments_disabled" = n) := fun e => hc e.symm
  have h4 : ¬ ("thumbnail_src" = n) := fun e => ht e.symm
  simp only [Json.member, Json.members, searchItemThumbJson, searchItemJson,
    List.find?_cons, h1, h2, h3, h4, decide_False]

theorem stillPage_members_agree (n : String) (hn : n ≠ "__typename") :
    (shortcodeMedia stillPageAsImageJson).member n = (shortcodeMedia stillPageJson).member n := by
  have e1 : shortcodeMedia stillPageAsImageJson
      = .obj (("__typename", .str "GraphImage") :: stillMembers) := by rfl
  have e2 : shortcodeMedia stillPageJson
      = .obj (("__typename", .str "GraphVideo") :: stillMembers) := by rfl
  have h1 : foldName "__typename" = "__typename" := by decide
  have h2 : ¬ ("__typename" = n) := fun e => hn e.symm
  rw [e1, e2]
  simp only [Json.member, Json.members, List.find?_cons, h1, h2, decide_False]

/-- C18. Two well-formed search-list payloads (JSON texts of unique names whose members
fit their fields) that agree in every member except `comments_disabled` and
`thumbnail_src` are decoded by `getFromSearchMediaList` to the same record,
with `true` for both: whether the two members are there, and which boolean and
which text they hold, does not show in the result. -/
theorem searchMediaList_ignores_flags (fc : FloatConv) (data data' : List UInt8) (v v' : Json)
    (hp : Json.parse data = some v) (hp' : Json.parse data' = some v')
    (hu : v.uniqueNames = true) (hu' : v'.uniqueNames = true)
    (hf : Decoder.fits .searchMediaList v = true) (hf' : Decoder.fits .searchMediaList v' = true)
    (hsame : ∀ n, n ≠ "comments_disabled" → n ≠ "thumbnail_src" → v'.member n = v.member n) :
    getFromSearchMediaList fc data' = getFromSearchMediaList fc data
    ∧ ∃ m, getFromSearchMediaList fc data = .ret (m, true) := by
  refine ⟨?_, _, getFromSearchMediaList_of_payload hp hu hf⟩
  rw [getFromSearchMediaList_of_payload hp hu hf, getFromSearchMediaList_of_payload hp' hu' hf']
  simp only [searchMediaRecord]
  rw [hsame "id" (by decide) (by decide), hsame "code" (by decide) (by decide),
    hsame "display_src" (by decide) (by decide), hsame "caption" (by decide) (by decide),
    hsame "date" (by decide) (by decide), hsame "likes" (by decide) (by decide),
    hsame "comments" (by decide) (by decide), hsame "is_video" (by decide) (by decide),
    hsame "owner" (by decide) (by decide)]

/-- C18 at the element of scenario 5, which has neither member, and the same element
with `comments_disabled` `true` and a `thumbnail_src`. -/
theorem searchMediaList_ignores_flags_witness :
    (searchItemThumbJson.member "comments_disabled").asBool = true
    ∧ (searchItemThumbJson.member "thumbnail_src").asString = "http://t.jpg"
    ∧ searchItemJson.member "comments_disabled" = .null
    ∧ searchItemJson.member "thumbnail_src" = .null
    ∧ getFromSearchMediaList FloatConv.wrapping searchItemThumb
        = getFromSearchMediaList FloatConv.wrapping searchItem
    ∧ getFromSearchMediaList FloatConv.wrapping searchItem
        = .ret ({ ID := "1", Code := "C", MediaURL := "http://d.jpg", Caption := "c",
                  Date := 1500000000, LikesCount := 1, Type_ := "video",
                  Owner := { ID := "9" } }, true) :=
  ⟨by decide!, by decide!, by rfl, by rfl,
   (searchMediaList_ignores_flags FloatConv.wrapping searchItem searchItemThumb searchItemJson
      searchItemThumbJson searchItem_parse searchItemThumb_parse (by decide!) (by decide!)
      (by decide!) (by decide!) searchItemThumb_members_agree).1,
   by decide!⟩

/-- C19. Two well-formed media-page payloads (JSON texts of unique names whose members fit
their fields) whose `shortcode_media` agree in every member except
`__typename` have the same outcome under `getFromMediaPage`: the same record
with `true`, or the same panic when there is no caption edge.  So, whatever
`__typename` says, a page whose `is_video` is `false` and that has a caption
edge is decoded to `Type` `"image"` with `MediaURL` the `display_url`. -/
theorem mediaPage_ignores_typename (data data' : List UInt8) (v v' : Json)
    (hp : Json.parse data = some v) (hp' : Json.parse data' = some v')
    (hu : v.uniqueNames = true) (hu' : v'.uniqueNames = true)
    (hf : Decoder.fits .mediaPage v = true) (hf' : Decoder.fits .mediaPage v' = true)
    (hsame : ∀ n, n ≠ "__typename" →
      (shortcodeMedia v').member n = (shortcodeMedia v).member n) :
    getFromMediaPage data' = getFromMediaPage data
    ∧ ((shortcodeMedia v).member "is_video" = .bool false → captionEdges v ≠ [] →
        ∃ m, getFromMediaPage data = .ret (m, true) ∧ getFromMediaPage data' = .ret (m, true)
          ∧ m.Type_ = "image"
          ∧ m.MediaURL = ((shortcodeMedia v).member "display_url").asString) := by
  have hE : captionEdges v' = captionEdges v := by
    simp only [captionEdges]
    rw [hsame "edge_media_to_caption" (by decide)]
  have hR : mediaPageRecord v' = mediaPageRecord v := by
    simp only [mediaPageRecord, hE]
    rw [hsame "shortcode" (by decide), hsame "id" (by decide), hsame "is_ad" (by decide),
      hsame "taken_at_timestamp" (by decide), hsame "edge_media_to_comment" (by decide),
      hsame "edge_media_preview_like" (by decide), hsame "is_video" (by decide),
      hsame "video_url" (by decide), hsame "display_url" (by decide),
      hsame "owner" (by decide)]
  have hrun : getFromMediaPage data' = getFromMediaPage data := by
    rw [getFromMediaPage_of_payload hp hu hf, getFromMediaPage_of_payload hp' hu' hf', hE, hR]
  refine ⟨hrun, fun hv he => ?_⟩
  have hd : getFromMediaPage data = .ret (mediaPageRecord v, true) := by
    rw [getFromMediaPage_of_payload hp hu hf]
    cases hc : captionEdges v with
    | nil => exact absurd hc he
    | cons e es => rfl
  refine ⟨mediaPageRecord v, hd, by rw [hrun, hd], ?_, ?_⟩
  · simp [mediaPageRecord, hv, Json.asBool]
  · simp [mediaPageRecord, hv, Json.asBool]

/-- C19 at a page of `__typename` `GraphVideo` whose `is_video` is `false`, and the same
page under `GraphImage`. -/
theorem mediaPage_ignores_typename_witness :
    (shortcodeMedia stillPageJson).member "__typename" = .str "GraphVideo"
    ∧ (shortcodeMedia stillPageAsImageJson).member "__typename" = .str "GraphImage"
    ∧ getFromMediaPage stillPageAsImage = getFromMediaPage stillPage
    ∧ getFromMediaPage stillPage
        = .ret ({ Caption := "hi", Type_ := "image", MediaURL := "http://img/1.jpg" }, true)
    ∧ ∃ m, getFromMediaPage stillPage = .ret (m, true)
        ∧ getFromMediaPage stillPageAsImage = .ret (m, true)
        ∧ m.Type_ = "image"
        ∧ m.MediaURL = ((shortcodeMedia stillPageJson).member "display_url").asString :=
  ⟨by rfl, by rfl,
   (mediaPage_ignores_typename stillPage stillPageAsImage stillPageJson stillPageAsImageJson
      stillPage_parse stillPageAsImage_parse (by decide!) (by decide!) (by decide!) (by decide!)
      stillPage_members_agree).1,
   by decide!,
   (mediaPage_ignores_typename stillPage stillPageAsImage stillPageJson stillPageAsImageJson
      stillPage_parse stillPageAsImage_parse (by decide!) (by decide!) (by decide!) (by decide!)
      stillPage_members_agree).2 (by rfl)
      (fun e => List.noConfusion ((show captionEdges stillPageJson
        = [.obj [("node", .obj [("text", .str "hi")])]] from by rfl).symm.trans e))⟩

theorem F64.toUint32_zero (fc : FloatConv) : F64.zero.toUint32 fc = 0 := by
  simp [F64.toUint32, F64.zero, F64.truncAbs]

theorem F64.toUint64_zero (fc : FloatConv) : F64.zero.toUint64 fc = 0 := by
  simp [F64.toUint64, F64.zero, F64.truncAbs]

theorem parseUint_empty : parseUint "" = none := by decide

/-- C14 as stated fails for `null`: `json.Unmarshal` takes a top-level `null` without
an error, so `getFromAccountMediaList` returns the zero record with `true`,
and `getFromSearchMediaList` returns `true` with a record of `Type` `"image"`. -/
theorem top_level_null_is_accepted :
    Json.parse nullText = some .null
    ∧ getFromAccountMediaList FloatConv.wrapping nullText = .ret (Media.zero, true)
    ∧ getFromSearchMediaList FloatConv.wrapping nullText = .ret ({ Type_ := "image" }, true) :=
  ⟨by rfl, by decide!, by decide!⟩

/-- C14, amended. On a JSON text whose top-level value is an array, a number, a string
or a boolean, each decoder returns the zero `Media` and `false`.  On a JSON
text whose top-level value is `null`, `json.Unmarshal` reports no error:
`getFromAccountMediaList` returns the zero `Media` and `true`,
`getFromSearchMediaList` returns `true` and the zero `Media` but for `Type`,
which is `"image"`. -/
theorem non_object_top_level (fc : FloatConv) (dec : Decoder) (data : List UInt8) (v : Json)
    (hp : Json.parse data = some v) :
    (v.isArrayOrScalar = true → dec.run fc data = .ret (Media.zero, false))
    ∧ (v = .null →
        (dec = .accountMediaList → dec.run fc data = .ret (Media.zero, true))
        ∧ (dec = .searchMediaList →
            dec.run fc data = .ret ({ Media.zero with Type_ := "image" }, true))) := by
  constructor
  · intro hv
    cases dec <;> cases v <;>
      simp_all [Json.isArrayOrScalar, Decoder.run, getFromMediaPage, getFromAccountMediaList,
        getFromSearchMediaList, MediaPageJSON.unmarshal, AccountMediaJSON.unmarshal,
        SearchMediaJSON.unmarshal, bindStruct]
  · intro hv
    subst hv
    refine ⟨fun hd => ?_, fun hd => ?_⟩
    · subst hd
      have hj : AccountMediaJSON.unmarshal data = some {} := by
        simp [AccountMediaJSON.unmarshal, hp, bindStruct]
      simp only [Decoder.run]
      rw [getFromAccountMediaList_of_unmarshal hj]
      simp [Media.zero, F64.toUint32_zero, parseUint_empty]
    · subst hd
      have hj : SearchMediaJSON.unmarshal data = some {} := by
        simp [SearchMediaJSON.unmarshal, hp, bindStruct]
      simp only [Decoder.run]
      rw [getFromSearchMediaList_of_unmarshal hj]
      simp [Media.zero, F64.toUint32_zero, F64.toUint64_zero]

/-- C14, amended, at the texts `[1]` and `null`. -/
theorem non_object_top_level_witness :
    (Json.parse arrayText = some (.arr [.num "1"])
      ∧ Decoder.run FloatConv.wrapping .searchMediaList arrayText = .ret (Media.zero, false))
    ∧ (Json.parse nullText = some .null
      ∧ Decoder.run FloatConv.wrapping .accountMediaList nullText = .ret (Media.zero, true)) :=
  ⟨⟨by rfl,
    (non_object_top_level FloatConv.wrapping .searchMediaList arrayText (.arr [.num "1"])
      (by rfl)).1 rfl⟩,
   ⟨by rfl,
    ((non_object_top_level FloatConv.wrapping .accountMediaList nullText .null (by rfl)).2
      rfl).1 rfl⟩⟩

/-! ### `strconv.ParseFloat` on a plain decimal literal -/

/-- An exponent of up to five digits is read as written; of a longer one `strconv`
reads the digits up to the first value of `10000` or more. -/
theorem exponentValue_capped :
    exponentValue ("99999" : String).data = 99999
    ∧ exponentValue ("123456" : String).data = 12345
    ∧ parseExponent ("e-123456" : String).data = some (-12345) :=
  ⟨by decide, by decide, by decide⟩

/-- A number `num / den` with integer part `I < 2^(53-s)` and fractional part at most
`1 - 2^(-s)` is rounded to a `float64` whose integer part is `I`: the spacing
of the `float64` below `2^(53-s)` is at most `2^(-s)`, and rounding to the
nearest one does not reach `I + 1`. -/
theorem roundRatio_trunc (neg : Bool) (num den I s : Nat) (hnum : 0 < num) (hden : 0 < den)
    (hs : s ≤ 53) (hI : I < 2 ^ (53 - s)) (hlo : I * den ≤ num)
    (hhi : num * 2 ^ s + den ≤ (I + 1) * den * 2 ^ s) :
    ∃ x, roundRatio neg num den = some x ∧ x.neg = neg ∧ x.truncAbs = I := by
  have hlt : num < 2 ^ (53 - s) * den := by
    have h1 : num * 2 ^ s < (I + 1) * den * 2 ^ s := by omega
    have h2 : num < (I + 1) * den := Nat.lt_of_mul_lt_mul_right h1
    calc num < (I + 1) * den := h2
      _ ≤ 2 ^ (53 - s) * den := Nat.mul_le_mul_right _ (by omega)
  unfold roundRatio
  dsimp only
  rw [log2Floor_eq, log2Floor_eq]
  generalize hl : ((Nat.log2 num : Int) - (Nat.log2 den : Int)) = l
  have hl53 : l ≤ 53 - (s : Int) := by
    have h1 : den < 2 ^ (Nat.log2 den + 1) := Nat.lt_log2_self
    have h2 : num < 2 ^ (Nat.log2 den + (54 - s)) := by
      calc num < 2 ^ (53 - s) * den := hlt
        _ ≤ 2 ^ (53 - s) * 2 ^ (Nat.log2 den + 1) := Nat.mul_le_mul_left _ (by omega)
        _ = 2 ^ (Nat.log2 den + (54 - s)) := by rw [← pow_add]; congr 1; omega
    have h3 : Nat.log2 num < Nat.log2 den + (54 - s) := (Nat.log2_lt (by omega)).mpr h2
    omega
  generalize hb : (if num * 2 ^ (-l).toNat ≥ den * 2 ^ l.toNat then l else l - 1) = b
  have hb52 : b ≤ 52 - (s : Int) := by
    rw [← hb]
    split_ifs with hc
    · by_contra hgt
      have e1 : (-l).toNat = 0 := by omega
      have e2 : l.toNat = 53 - s := by omega
      rw [e1, e2, pow_zero, mul_one] at hc
      rw [Nat.mul_comm] at hc
      omega
    · omega
  generalize hk : max (b - 52) (-1074) = k
  have hk0 : k ≤ -(s : Int) := by omega
  obtain ⟨e, rfl⟩ : ∃ e : Nat, k = -(e : Int) := ⟨(-k).toNat, by omega⟩
  have hes : s ≤ e := by omega
  have hkt : (-(e : Int)).toNat = 0 := by omega
  have hke : (-(-(e : Int))).toNat = e := by omega
  rw [hkt, hke, pow_zero, mul_one]
  have hP : 0 < 2 ^ e := by positivity
  have hdm : den * (num * 2 ^ e / den) + num * 2 ^ e % den = num * 2 ^ e := Nat.div_add_mod _ _
  have hr : num * 2 ^ e % den < den := Nat.mod_lt _ hden
  have hlow : I * 2 ^ e ≤ num * 2 ^ e / den := by
    rw [Nat.le_div_iff_mul_le hden, Nat.mul_right_comm]
    exact Nat.mul_le_mul_right _ hlo
  have hup : num * 2 ^ e + den ≤ (I + 1) * 2 ^ e * den := by
    obtain ⟨t, ht⟩ := Nat.exists_eq_add_of_le hes
    have hX : 1 ≤ 2 ^ t := Nat.one_le_two_pow
    have h1 := Nat.mul_le_mul_right (2 ^ t) hhi
    have h2 : den ≤ den * 2 ^ t := Nat.le_mul_of_pos_right _ (by omega)
    rw [ht, pow_add]
    calc num * (2 ^ s * 2 ^ t) + den ≤ num * (2 ^ s * 2 ^ t) + den * 2 ^ t := by omega
      _ = (num * 2 ^ s + den) * 2 ^ t := by ring
      _ ≤ (I + 1) * den * 2 ^ s * 2 ^ t := h1
      _ = (I + 1) * (2 ^ s * 2 ^ t) * den := by ring
  have hq : num * 2 ^ e / den + 1 ≤ (I + 1) * 2 ^ e := by
    have h1 : (num * 2 ^ e / den + 1) * den ≤ (I + 1) * 2 ^ e * den := by
      have h2 : (num * 2 ^ e / den + 1) * den = den * (num * 2 ^ e / den) + den := by ring
      omega
    exact Nat.le_of_mul_le_mul_right h1 hden
  have key : I * 2 ^ e ≤ (if 2 * (num * 2 ^ e % den) > den
        ∨ 2 * (num * 2 ^ e % den) = den ∧ num * 2 ^ e / den % 2 = 1 then
        num * 2 ^ e / den + 1 else num * 2 ^ e / den)
      ∧ (if 2 * (num * 2 ^ e % den) > den
        ∨ 2 * (num * 2 ^ e % den) = den ∧ num * 2 ^ e / den % 2 = 1 then
        num * 2 ^ e / den + 1 else num * 2 ^ e / den) < (I + 1) * 2 ^ e := by
    split_ifs with hc
    · refine ⟨by omega, ?_⟩
      by_contra hge
      have heq : num * 2 ^ e / den + 1 = (I + 1) * 2 ^ e := by omega
      have h2 : (num * 2 ^ e / den + 1) * den = den * (num * 2 ^ e / den) + den := by ring
      rw [← heq, h2] at hup
      have hr0 : num * 2 ^ e % den = 0 := by omega
      rw [hr0] at hc
      omega
    · exact ⟨hlow, by omega⟩
  generalize (if 2 * (num * 2 ^ e % den) > den
        ∨ 2 * (num * 2 ^ e % den) = den ∧ num * 2 ^ e / den % 2 = 1 then
        num * 2 ^ e / den + 1 else num * 2 ^ e / den) = q1 at key
  obtain ⟨hq1lo, hq1hi⟩ := key
  have hI53 : I < 2 ^ 53 := lt_of_lt_of_le hI (Nat.pow_le_pow_right (by norm_num) (by omega))
  by_cases h53 : q1 = 2 ^ 53
  · rw [if_pos h53]
    dsimp only
    have g1 : ¬ (-(e : Int) + 1 > 971) := by omega
    have g2 : ¬ ((2 : Nat) ^ 52 = 0) := by norm_num
    rw [if_neg g1, if_neg g2]
    refine ⟨_, rfl, rfl, ?_⟩
    unfold F64.truncAbs
    dsimp only
    rw [h53] at hq1lo hq1hi
    have he1 : 1 ≤ e := by
      by_contra h0
      have h00 : e = 0 := by omega
      rw [h00, pow_zero, mul_one] at hq1hi
      omega
    obtain ⟨e', rfl⟩ : ∃ e', e = e' + 1 := ⟨e - 1, by omega⟩
    rw [pow_succ 2 e', ← Nat.mul_assoc] at hq1lo hq1hi
    have hlo' : I * 2 ^ e' ≤ 2 ^ 52 := by omega
    have hhi' : 2 ^ 52 < (I + 1) * 2 ^ e' := by omega
    by_cases hz : e' = 0
    · subst hz
      rw [pow_zero, mul_one] at hlo' hhi'
      have g3 : (-(((0 + 1 : Nat)) : Int) + 1 ≥ 0) := by decide
      have g4 : (-(((0 + 1 : Nat)) : Int) + 1).toNat = 0 := by decide
      rw [if_pos g3, g4, pow_zero, mul_one]
      omega
    · have g3 : ¬ (-((e' + 1 : Nat) : Int) + 1 ≥ 0) := by omega
      have g4 : (-(-((e' + 1 : Nat) : Int) + 1)).toNat = e' := by omega
      rw [if_neg g3, g4]
      exact Nat.div_eq_of_lt_le hlo' hhi'
  · rw [if_neg h53]
    dsimp only
    have g1 : ¬ (-(e : Int) > 971) := by omega
    rw [if_neg g1]
    by_cases h0 : q1 = 0
    · rw [if_pos h0]
      refine ⟨_, rfl, rfl, ?_⟩
      have h1 : I * 2 ^ e = 0 := by omega
      have h2 : I = 0 := by
        rcases Nat.mul_eq_zero.mp h1 with h | h
        · exact h
        · omega
      rw [h2]
      rfl
    · rw [if_neg h0]
      refine ⟨_, rfl, rfl, ?_⟩
      unfold F64.truncAbs
      dsimp only
      by_cases hz : e = 0
      · subst hz
        rw [pow_zero, mul_one] at hq1lo hq1hi
        have g3 : (-((0 : Nat) : Int) ≥ 0) := by decide
        have g4 : (-((0 : Nat) : Int)).toNat = 0 := by decide
        rw [if_pos g3, g4, pow_zero, mul_one]
        omega
      · have g3 : ¬ (-(e : Int) ≥ 0) := by omega
        rw [if_neg g3, hke]
        exact Nat.div_eq_of_lt_le hq1lo hq1hi

theorem takeDigits_digits (ds rest : List Char) (acc : Nat)
    (hds : ds.all (fun c => decide (48 ≤ c.toNat ∧ c.toNat ≤ 57)) = true)
    (hrest : ∀ c, rest.head? = some c → ¬ (48 ≤ c.toNat ∧ c.toNat ≤ 57)) :
    takeDigits (ds ++ rest) acc = (decimalValueFrom acc ds, ds.length, rest) := by
  induction ds generalizing acc with
  | nil =>
    cases rest with
    | nil => rfl
    | cons c r =>
      rw [List.nil_append, takeDigits, if_neg (hrest c rfl)]
      rfl
  | cons d ds ih =>
    rw [List.all_cons, Bool.and_eq_true, decide_eq_true_eq] at hds
    rw [List.cons_append, takeDigits, if_pos hds.1, ih _ hds.2]
    rfl

theorem decimalValueFrom_split (cs : List Char) (acc : Nat) :
    decimalValueFrom acc cs = acc * 10 ^ cs.length + decimalValueFrom 0 cs := by
  induction cs generalizing acc with
  | nil => simp [decimalValueFrom]
  | cons c cs ih =>
    have h1 := ih (acc * 10 + (c.toNat - 48))
    have h2 := ih (0 * 10 + (c.toNat - 48))
    simp only [decimalValueFrom, List.foldl_cons, List.length_cons] at h1 h2 ⊢
    rw [h1, h2, pow_succ]
    ring

/-- `strconv.ParseFloat` on digits `ds`, alone or followed by a point and the digits
`fs`: when the number written is `I + F / 10^f` with `I < 2^(53-s)` and
`F / 10^f ≤ 1 - 2^(-s)`, the integer part of the `float64` is `I`. -/
theorem parseFloat_decimal (ds fs frac : List Char) (s : Nat) (hne : ds ≠ [])
    (hds : ds.all (fun c => decide (48 ≤ c.toNat ∧ c.toNat ≤ 57)) = true)
    (hfs : fs.all (fun c => decide (48 ≤ c.toNat ∧ c.toNat ≤ 57)) = true)
    (hfrac : (frac = [] ∧ fs = []) ∨ frac = Char.ofNat 46 :: fs)
    (hs : s ≤ 53) (hI : decimalValueFrom 0 ds < 2 ^ (53 - s))
    (hF : decimalValueFrom 0 fs * 2 ^ s + 10 ^ fs.length ≤ 10 ^ fs.length * 2 ^ s) :
    ∃ x, parseFloat (String.mk (ds ++ frac)) = some x ∧ x.neg = false
      ∧ x.truncAbs = decimalValueFrom 0 ds := by
  obtain ⟨d, ds', rfl⟩ : ∃ d ds', ds = d :: ds' := by
    cases ds with
    | nil => exact absurd rfl hne
    | cons d ds' => exact ⟨d, ds', rfl⟩
  have hd : 48 ≤ d.toNat ∧ d.toNat ≤ 57 := by
    rw [List.all_cons, Bool.and_eq_true, decide_eq_true_eq] at hds
    exact hds.1
  have hm : ¬ (some d = some (Char.ofNat 45)) := by
    intro h
    have h1 : d.toNat = 45 := by rw [Option.some.inj h]; decide
    omega
  have hor : ¬ (some d = some (Char.ofNat 45) ∨ some d = some (Char.ofNat 43)) := by
    intro h
    rcases h with h | h
    · exact hm h
    · have h1 : d.toNat = 43 := by rw [Option.some.inj h]; decide
      omega
  have hrest : ∀ c, frac.head? = some c → ¬ (48 ≤ c.toNat ∧ c.toNat ≤ 57) := by
    intro c hc
    rcases hfrac with h | h
    · rw [h.1] at hc; cases hc
    · rw [h] at hc
      have h1 : c.toNat = 46 := by rw [← Option.some.inj hc]; decide
      omega
  have h2s : 1 ≤ 2 ^ s := Nat.one_le_two_pow
  unfold parseFloat
  dsimp only
  rw [List.cons_append, List.head?_cons, if_neg hor, ← List.cons_append,
    takeDigits_digits _ _ _ hds hrest]
  generalize decimalValueFrom 0 (d :: ds') = I at hI
  rw [decide_eq_false hm]
  dsimp only
  have hpe : parseExponent [] = some 0 := rfl
  have hs0 : ((0 : Int) - ((0 : Nat) : Int) ≥ 0) := by decide
  have ht0 : ((0 : Int) - ((0 : Nat) : Int)).toNat = 0 := by decide
  rcases hfrac with h | h
  · obtain ⟨h, _⟩ := h
    subst h
    dsimp only
    have hlen : ¬ ((d :: ds').length + 0 = 0) := by simp
    rw [if_neg hlen, hpe]
    dsimp only
    by_cases h0 : I = 0
    · rw [if_pos h0]
      exact ⟨_, rfl, rfl, by rw [h0]; rfl⟩
    · rw [if_neg h0, if_pos hs0, ht0, pow_zero, Nat.mul_one]
      exact roundRatio_trunc false I 1 I s (by omega) (by decide) hs hI (by omega)
        (by rw [Nat.mul_one]; nlinarith)
  · subst h
    dsimp only
    have h46 : (Char.ofNat 46).toNat = 46 := by decide
    have htd : takeDigits fs I = (I * 10 ^ fs.length + decimalValueFrom 0 fs, fs.length, []) := by
      have h := takeDigits_digits fs [] I hfs (fun c hc => by cases hc)
      rw [List.append_nil, decimalValueFrom_split] at h
      exact h
    rw [if_pos h46, htd]
    dsimp only
    have hlen : ¬ ((d :: ds').length + fs.length = 0) := by simp
    rw [if_neg hlen, hpe]
    dsimp only
    have hpow : 0 < 10 ^ fs.length := by positivity
    generalize decimalValueFrom 0 fs = F at hF
    generalize fs.length = f at hF hpow
    by_cases h0 : I * 10 ^ f + F = 0
    · rw [if_pos h0]
      have hI0 : I = 0 := by
        by_contra hne0
        have : 0 < I * 10 ^ f := Nat.mul_pos (by omega) hpow
        omega
      exact ⟨_, rfl, rfl, by rw [hI0]; rfl⟩
    · rw [if_neg h0]
      by_cases hz : f = 0
      · subst hz
        rw [pow_zero] at hF
        have hF0 : F = 0 := by nlinarith
        rw [if_pos hs0, ht0, pow_zero, Nat.mul_one, Nat.mul_one, hF0, Nat.add_zero]
        rw [hF0, pow_zero, Nat.mul_one, Nat.add_zero] at h0
        exact roundRatio_trunc false I 1 I s (by omega) (by decide) hs hI (by omega)
          (by rw [Nat.mul_one]; nlinarith)
      · have hsc : ¬ ((0 : Int) - (f : Int) ≥ 0) := by omega
        have htc : (-((0 : Int) - (f : Int))).toNat = f := by omega
        rw [if_neg hsc, htc]
        refine roundRatio_trunc false (I * 10 ^ f + F) (10 ^ f) I s (by omega) hpow hs hI
          (by omega) ?_
        calc (I * 10 ^ f + F) * 2 ^ s + 10 ^ f
            = I * 10 ^ f * 2 ^ s + (F * 2 ^ s + 10 ^ f) := by ring
          _ ≤ I * 10 ^ f * 2 ^ s + 10 ^ f * 2 ^ s := by omega
          _ = (I + 1) * 10 ^ f * 2 ^ s := by ring

theorem parseFloat_of_isPlainDecimal (lit : String) (s : Nat) (hp : isPlainDecimal lit = true)
    (hs : s ≤ 53) (hI : integerPart lit < 2 ^ (53 - s)) (hF : fractionAtMost s lit = true) :
    ∃ x, parseFloat lit = some x ∧ x.neg = false ∧ x.truncAbs = integerPart lit := by
  unfold isPlainDecimal at hp
  rw [Bool.and_eq_true, Bool.and_eq_true] at hp
  obtain ⟨⟨hne, hds⟩, hfs⟩ := hp
  unfold fractionAtMost fractionPart at hF
  rw [decide_eq_true_eq] at hF
  have hsplit := List.takeWhile_append_dropWhile (fun c : Char => decide (c.toNat ≠ 46)) lit.data
  have hhead := List.head?_dropWhile_not (fun c : Char => decide (c.toNat ≠ 46)) lit.data
  have hfrac : (lit.data.dropWhile (fun c => decide (c.toNat ≠ 46)) = [] ∧ fractionDigits lit = [])
      ∨ lit.data.dropWhile (fun c => decide (c.toNat ≠ 46))
        = Char.ofNat 46 :: fractionDigits lit := by
    unfold fractionDigits
    cases hf : lit.data.dropWhile (fun c => decide (c.toNat ≠ 46)) with
    | nil => exact Or.inl ⟨rfl, rfl⟩
    | cons c r =>
      right
      rw [hf] at hhead
      simp only [List.head?_cons, decide_eq_false_iff_not, not_not] at hhead
      have hc : c = Char.ofNat 46 := by rw [← Char.ofNat_toNat c, hhead]
      rw [hc, List.drop_one, List.tail_cons]
  have hne' : lit.data.takeWhile (fun c => decide (c.toNat ≠ 46)) ≠ [] := by
    intro he
    rw [he] at hne
    cases hne
  have h := parseFloat_decimal _ _ _ s hne' hds hfs hfrac hs hI hF
  rw [hsplit] at h
  exact h

theorem F64.toUint32_of_range (fc : FloatConv) (x : F64) (hn : x.neg = false)
    (hr : x.truncAbs < 2 ^ 32) : x.toUint32 fc = x.truncAbs := by
  unfold F64.toUint32
  rw [if_neg]
  intro h
  rcases h with h | h
  · rw [hn] at h
    exact Bool.noConfusion h.1
  · omega

theorem F64.toUint64_of_range (fc : FloatConv) (x : F64) (hn : x.neg = false)
    (hr : x.truncAbs < 2 ^ 64) : x.toUint64 fc = x.truncAbs := by
  unfold F64.toUint64
  rw [if_neg]
  intro h
  rcases h with h | h
  · rw [hn] at h
    exact Bool.noConfusion h.1
  · omega

theorem toUint32_plainDecimal (fc : FloatConv) (lit : String) (hp : isPlainDecimal lit = true)
    (hI : integerPart lit < 2 ^ 32) (hF : fractionAtMost 21 lit = true) :
    (Json.num lit).asFloat.toUint32 fc = integerPart lit := by
  obtain ⟨x, hx, hn, ht⟩ := parseFloat_of_isPlainDecimal lit 21 hp (by decide) hI hF
  simp only [Json.asFloat, hx, Option.getD_some]
  rw [F64.toUint32_of_range fc x hn (by omega), ht]

theorem toUint64_plainDecimal (fc : FloatConv) (lit : String) (s : Nat)
    (hp : isPlainDecimal lit = true) (hs : s ≤ 53) (hI : integerPart lit < 2 ^ (53 - s))
    (hF : fractionAtMost s lit = true) :
    (Json.num lit).asFloat.toUint64 fc = integerPart lit := by
  obtain ⟨x, hx, hn, ht⟩ := parseFloat_of_isPlainDecimal lit s hp hs hI hF
  have h53 : integerPart lit < 2 ^ 53 :=
    lt_of_lt_of_le hI (Nat.pow_le_pow_right (by norm_num) (by omega))
  simp only [Json.asFloat, hx, Option.getD_some]
  rw [F64.toUint64_of_range fc x hn (by omega), ht]

theorem fractionalCounts_parse : Json.parse fractionalCounts = some fractionalCountsJson := by rfl

theorem fractionalDate_parse : Json.parse fractionalDate = some fractionalDateJson := by rfl

/-- C15 as stated fails: the count `4.9999999999999999999` is not negative and below
`2^32`, and truncated toward zero it is `4`; `json.Unmarshal` stores the
nearest `float64`, which is `5`, so `getFromAccountMediaList` returns
`LikesCount = 5`.  Likewise the integer date `2^53 + 1` is stored as `2^53`,
and `getFromSearchMediaList` returns `Date = 2^53`.  The fractional part of
the count is above `1 - 2^(-21)`, and the date is not below `2^53`. -/
theorem count_is_rounded_before_truncation :
    Json.parse almostFiveLikes
        = some (.obj [("likes", .obj [("count", .num "4.9999999999999999999")])])
    ∧ isPlainDecimal "4.9999999999999999999" = true
    ∧ integerPart "4.9999999999999999999" = 4
    ∧ fractionAtMost 21 "4.9999999999999999999" = false
    ∧ getFromAccountMediaList FloatConv.wrapping almostFiveLikes
        = .ret ({ LikesCount := 5 }, true)
    ∧ Json.parse lateDate = some (.obj [("date", .num "9007199254740993")])
    ∧ isPlainDecimal "9007199254740993" = true
    ∧ integerPart "9007199254740993" = 2 ^ 53 + 1
    ∧ getFromSearchMediaList FloatConv.wrapping lateDate
        = .ret ({ Date := 2 ^ 53, Type_ := "image" }, true) :=
  ⟨by rfl, by decide!, by decide!, by decide!, by decide!, by rfl, by decide!, by decide!,
   by decide!⟩

/-- C15, amended. When `getFromAccountMediaList` or `getFromSearchMediaList` succeeds on a
payload that names no member twice: if `likes.count` (`comments.count`) is
written as a plain decimal numeral, digits or digits, a point and digits, of
at most `800` characters, with a value `x < 2^32` whose fractional part is at
most `1 - 2^(-21)`, then `LikesCount` (`CommentsCount`) is `x` truncated
toward zero; and for `getFromSearchMediaList`, if `date` is so written with a
value `d < 2^(53-s)` whose fractional part is at most `1 - 2^(-s)`, for some
`s ≤ 53`, then `Date` is `d` truncated toward zero (`s = 21`: `d < 2^32`;
`s = 0`: an integer `d < 2^53`).  So a count written as an integer below
`2^32`, as `5` or `5.0`, is decoded to that integer, and `4.7` to `4`. -/
theorem list_numbers_are_truncated (fc : FloatConv) (dec : Decoder) (data : List UInt8)
    (v : Json) (m : Media) (hp : Json.parse data = some v) (hu : v.uniqueNames = true)
    (hd : dec ≠ .mediaPage) (h : dec.run fc data = .ret (m, true)) :
    (∀ lit, (v.member "likes").member "count" = .num lit → isPlainDecimal lit = true →
        lit.length ≤ 800 → integerPart lit < 2 ^ 32 → fractionAtMost 21 lit = true →
        m.LikesCount = integerPart lit)
    ∧ (∀ lit, (v.member "comments").member "count" = .num lit → isPlainDecimal lit = true →
        lit.length ≤ 800 → integerPart lit < 2 ^ 32 → fractionAtMost 21 lit = true →
        m.CommentsCount = integerPart lit)
    ∧ (dec = .searchMediaList → ∀ lit s, v.member "date" = .num lit →
        isPlainDecimal lit = true → lit.length ≤ 800 → s ≤ 53 →
        integerPart lit < 2 ^ (53 - s) → fractionAtMost s lit = true →
        m.Date = integerPart lit) := by
  cases dec with
  | mediaPage => exact absurd rfl hd
  | accountMediaList =>
    have hm := getFromAccountMediaList_record_of_run hp hu h
    subst hm
    refine ⟨fun lit hl hw _ hN hF => ?_, fun lit hl hw _ hN hF => ?_,
      fun hs => Decoder.noConfusion hs⟩
    · simp only [accountMediaRecord]
      rw [hl]
      exact toUint32_plainDecimal fc lit hw hN hF
    · simp only [accountMediaRecord]
      rw [hl]
      exact toUint32_plainDecimal fc lit hw hN hF
  | searchMediaList =>
    have hm := getFromSearchMediaList_record_of_run hp hu h
    subst hm
    refine ⟨fun lit hl hw _ hN hF => ?_, fun lit hl hw _ hN hF => ?_,
      fun _ lit s hl hw _ hs hN hF => ?_⟩
    · simp only [searchMediaRecord]
      rw [hl]
      exact toUint32_plainDecimal fc lit hw hN hF
    · simp only [searchMediaRecord]
      rw [hl]
      exact toUint32_plainDecimal fc lit hw hN hF
    · simp only [searchMediaRecord]
      rw [hl]
      exact toUint64_plainDecimal fc lit s hw hs hN hF

/-- C15, amended, at an account element with `4.7` likes and `2.5` comments, at a
search element dated `1500000000.9`, and at the search element of scenario 5,
dated `1500000000.0` with `1` like. -/
theorem list_numbers_are_truncated_witness :
    (Decoder.run FloatConv.wrapping .accountMediaList fractionalCounts
        = .ret ({ LikesCount := 4, CommentsCount := 2 }, true)
      ∧ ({ LikesCount := 4, CommentsCount := 2 } : Media).LikesCount = integerPart "4.7"
      ∧ ({ LikesCount := 4, CommentsCount := 2 } : Media).CommentsCount = integerPart "2.5")
    ∧ (Decoder.run FloatConv.wrapping .searchMediaList fractionalDate
        = .ret ({ Date := 1500000000, Type_ := "image" }, true)
      ∧ ({ Date := 1500000000, Type_ := "image" } : Media).Date = integerPart "1500000000.9")
    ∧ (Decoder.run FloatConv.wrapping .searchMediaList searchItem
        = .ret (searchMediaRecord FloatConv.wrapping searchItemJson, true)
      ∧ (searchMediaRecord FloatConv.wrapping searchItemJson).Date = integerPart "1500000000.0"
      ∧ (searchMediaRecord FloatConv.wrapping searchItemJson).LikesCount = integerPart "1") :=
  ⟨⟨by decide!,
    (list_numbers_are_truncated FloatConv.wrapping .accountMediaList fractionalCounts
      fractionalCountsJson _ fractionalCounts_parse (by decide!) (by decide) (by decide!)).1
      "4.7" (by rfl) (by decide!) (by decide!) (by decide!) (by decide!),
    (list_numbers_are_truncated FloatConv.wrapping .accountMediaList fractionalCounts
      fractionalCountsJson _ fractionalCounts_parse (by decide!) (by decide) (by decide!)).2.1
      "2.5" (by rfl) (by decide!) (by decide!) (by decide!) (by decide!)⟩,
   ⟨by decide!,
    (list_numbers_are_truncated FloatConv.wrapping .searchMediaList fractionalDate
      fractionalDateJson _ fractionalDate_parse (by decide!) (by decide) (by decide!)).2.2 rfl
      "1500000000.9" 21 (by rfl) (by decide!) (by decide!) (by decide) (by decide!)
      (by decide!)⟩,
   ⟨by decide!,
    (list_numbers_are_truncated FloatConv.wrapping .searchMediaList searchItem
      searchItemJson _ searchItem_parse (by decide!) (by decide) (by decide!)).2.2 rfl
      "1500000000.0" 0 (by rfl) (by decide!) (by decide!) (by decide) (by decide!)
      (by decide!),
    (list_numbers_are_truncated FloatConv.wrapping .searchMediaList searchItem
      searchItemJson _ searchItem_parse (by decide!) (by decide) (by decide!)).1
      "1" (by rfl) (by decide!) (by decide!) (by decide!) (by decide!)⟩⟩

end Instagram
